import Mathlib

/-!
# bc_financial: commitment generator, transaction creation, upload to the ledger

A shallow embedding of the Go back end of `thewindwillstop/bc_financial`
(`internal/utils/hash.go`, `internal/utils/crypto.go`,
`internal/service/transaction.go`, `internal/handler/transaction.go`).

Go strings and byte slices are lists of bytes.  The two cryptographic
primitives of the Go standard library that the code calls, SHA-256 and the AES
block cipher, are parameters of the development; the glue around them
(`encoding/hex`, CBC chaining, `io.ReadFull`) is modelled concretely.

The store behind `gorm.DB` is a record of tables that the operations pass
along.  What a call meets outside the program (random bytes, the clock, the
ledger gateway, a store that is out of order, the writes of other requests) is
an explicit argument, and a call returns the invocations of the ledger gateway
it made next to its result and the store it leaves.
-/

namespace BcFinancial

/-! ## Bytes and strings -/

/-- A Go `byte`. -/
abbrev Byte := Fin 256

/-- A Go `string` or `[]byte`: the conversions between the two copy the bytes unchanged. -/
abbrev GoString := List Byte

/-! ## `encoding/hex` -/

namespace hex

/-- The table `hextable = "0123456789abcdef"` of `encoding/hex`. -/
def hextable : List Byte :=
  [48, 49, 50, 51, 52, 53, 54, 55, 56, 57, 97, 98, 99, 100, 101, 102]

/-- Indexing `hextable[i]`. -/
def hextableAt (i : Nat) : Byte := hextable.getD i 0

/-- `hex.EncodeToString`: for every source byte `v` the two characters
`hextable[v>>4]` and `hextable[v&0x0f]`. -/
def EncodeToString : List Byte → GoString
  | [] => []
  | v :: rest => hextableAt (v.val >>> 4) :: hextableAt (v.val &&& 0x0f) :: EncodeToString rest

/-- The table `reverseHexTable` of `encoding/hex`: the value of a hexadecimal
digit of either case, and `0xff` for every other byte. -/
def reverseHexTable (c : Byte) : Nat :=
  if 48 ≤ c.val ∧ c.val ≤ 57 then c.val - 48
  else if 97 ≤ c.val ∧ c.val ≤ 102 then c.val - 97 + 10
  else if 65 ≤ c.val ∧ c.val ≤ 70 then c.val - 65 + 10
  else 0xff

/-- The errors of `encoding/hex`. -/
inductive DecodeError where
  | InvalidByteError (b : Byte)
  | ErrLength
  deriving DecidableEq

/-- `hex.DecodeString`: the loop of `hex.Decode` reads the source two
characters at a time and stops at the first character that is not a
hexadecimal digit; a source of odd length is rejected after its pairs have
been read. -/
def DecodeString : GoString → Except DecodeError (List Byte)
  | [] => .ok []
  | [p] =>
    if reverseHexTable p > 0x0f then .error (.InvalidByteError p) else .error .ErrLength
  | p :: q :: rest =>
    if reverseHexTable p > 0x0f then .error (.InvalidByteError p)
    else if reverseHexTable q > 0x0f then .error (.InvalidByteError q)
    else
      match DecodeString rest with
      | .error e => .error e
      | .ok bs => .ok (Fin.ofNat ((reverseHexTable p <<< 4) ||| reverseHexTable q) :: bs)

end hex

/-! ## `crypto/sha256` -/

/-- The function `sha256.Sum256`, whose result type is the array `[32]byte`. -/
structure Sha256 where
  /-- The digest of a message. -/
  Sum256 : List Byte → List Byte
  /-- The digest has `sha256.Size = 32` bytes. -/
  size : ∀ m, (Sum256 m).length = 32

/-! ## `internal/utils/hash.go` -/

/-- `fmt.Sprintf("%s%s%s", a, b, c)`. -/
def Sprintf3 (a b c : GoString) : GoString := a ++ b ++ c

/-- `CalculateDataHash`: `dataHash = SHA256(bizId + amount + salt)`, in hexadecimal. -/
def CalculateDataHash (H : Sha256) (bizId amount salt : GoString) : GoString :=
  let data := Sprintf3 bizId amount salt
  let hash := H.Sum256 data
  hex.EncodeToString hash

/-- `VerifyDataHash`: recompute the hash and compare it with the expected one. -/
def VerifyDataHash (H : Sha256) (bizId amount salt expectedHash : GoString) : Bool :=
  let calculatedHash := CalculateDataHash H bizId amount salt
  calculatedHash == expectedHash

/-- `HashPassword`: the hexadecimal SHA-256 digest of a string. -/
def HashPassword (H : Sha256) (password : GoString) : GoString :=
  hex.EncodeToString (H.Sum256 password)

/-! ## `crypto/aes` and `crypto/cipher` -/

/-- The AES block cipher: encryption and decryption of one block under a key. -/
structure AES where
  /-- The block encryption under a key. -/
  encryptBlock : List Byte → List Byte → List Byte
  /-- The block decryption under a key. -/
  decryptBlock : List Byte → List Byte → List Byte

/-- The laws of the block cipher that the development relies on: under every
256-bit key both directions map 16-byte blocks to 16-byte blocks and are
inverse to each other on them. -/
structure AES.Lawful (A : AES) : Prop where
  /-- Encryption keeps the block size. -/
  encrypt_length : ∀ k b, k.length = 32 → b.length = 16 → (A.encryptBlock k b).length = 16
  /-- Decryption keeps the block size. -/
  decrypt_length : ∀ k b, k.length = 32 → b.length = 16 → (A.decryptBlock k b).length = 16
  /-- Decryption undoes encryption. -/
  decrypt_encrypt : ∀ k b, k.length = 32 → b.length = 16 →
    A.decryptBlock k (A.encryptBlock k b) = b
  /-- Encryption undoes decryption. -/
  encrypt_decrypt : ∀ k b, k.length = 32 → b.length = 16 →
    A.encryptBlock k (A.decryptBlock k b) = b

/-- A `cipher.Block`: the block cipher with its key fixed. -/
structure Block where
  /-- `Block.Encrypt`. -/
  Encrypt : List Byte → List Byte
  /-- `Block.Decrypt`. -/
  Decrypt : List Byte → List Byte

namespace aes

/-- `aes.BlockSize`. -/
def BlockSize : Nat := 16

/-- `aes.NewCipher`: a key of 16, 24 or 32 bytes gives a cipher, any other
length the error `KeySizeError(len(key))`. -/
def NewCipher (A : AES) (key : List Byte) : Except Nat Block :=
  if key.length = 16 ∨ key.length = 24 ∨ key.length = 32 then
    .ok ⟨A.encryptBlock key, A.decryptBlock key⟩
  else .error key.length

end aes

/-- `subtle.XORBytes`: the bytewise exclusive or of two slices, up to the shorter one. -/
def XORBytes (x y : List Byte) : List Byte := List.zipWith (· ^^^ ·) x y

/-- The loop of `cbcEncrypter.CryptBlocks`, once per block: the block is
xor-ed with the previous cipher block (the initialization vector for the first
one), encrypted, and becomes the next chaining value. -/
def cbcEncryptLoop (b : Block) : Nat → List Byte → List Byte → List Byte
  | 0, _, _ => []
  | n + 1, iv, src =>
    let c := b.Encrypt (XORBytes (src.take aes.BlockSize) iv)
    c ++ cbcEncryptLoop b n c (src.drop aes.BlockSize)

/-- `cipher.NewCBCEncrypter(block, iv).CryptBlocks(dst, src)`, returning the
bytes written to `dst`; `none` is a panic (an initialization vector that is not
one block long, or an input that is not a whole number of blocks). -/
def CBCEncrypter_CryptBlocks (b : Block) (iv src : List Byte) : Option (List Byte) :=
  if iv.length ≠ aes.BlockSize then none
  else if src.length % aes.BlockSize ≠ 0 then none
  else some (cbcEncryptLoop b (src.length / aes.BlockSize) iv src)

/-- The loop of `cbcDecrypter.CryptBlocks`, once per block: the block is
decrypted and xor-ed with the previous cipher block (the initialization vector
for the first one). -/
def cbcDecryptLoop (b : Block) : Nat → List Byte → List Byte → List Byte
  | 0, _, _ => []
  | n + 1, iv, src =>
    let c := src.take aes.BlockSize
    XORBytes (b.Decrypt c) iv ++ cbcDecryptLoop b n c (src.drop aes.BlockSize)

/-- `cipher.NewCBCDecrypter(block, iv).CryptBlocks(dst, src)`, returning the
bytes written to `dst`; `none` is a panic, as for the encrypter. -/
def CBCDecrypter_CryptBlocks (b : Block) (iv src : List Byte) : Option (List Byte) :=
  if iv.length ≠ aes.BlockSize then none
  else if src.length % aes.BlockSize ≠ 0 then none
  else some (cbcDecryptLoop b (src.length / aes.BlockSize) iv src)

/-- `io.ReadFull(rand.Reader, buf)` with `len(buf) = n`: the reader is the list
of bytes it will deliver; the read fails when it delivers fewer than `n`.
Returns the bytes read and the rest of the reader. -/
def ReadFull (reader : List Byte) (n : Nat) : Option (List Byte × List Byte) :=
  if n ≤ reader.length then some (reader.take n, reader.drop n) else none

/-! ## `internal/utils/crypto.go` -/

/-- The errors returned by the functions of `internal/utils`. -/
inductive Error where
  /-- `fmt.Errorf("key must be 32 bytes")`. -/
  | keyMustBe32Bytes
  /-- `fmt.Errorf("failed to create cipher: %w", err)` around `aes.KeySizeError`. -/
  | failedToCreateCipher (keySize : Nat)
  /-- `fmt.Errorf("failed to generate IV: %w", err)`. -/
  | failedToGenerateIV
  /-- `fmt.Errorf("failed to decode hex: %w", err)`. -/
  | failedToDecodeHex (e : hex.DecodeError)
  /-- `ErrInvalidBlockSize`. -/
  | ErrInvalidBlockSize
  /-- `ErrInvalidPKCSData`. -/
  | ErrInvalidPKCSData
  /-- `fmt.Errorf("failed to unpad: %w", err)`. -/
  | failedToUnpad (e : Error)
  /-- `fmt.Errorf("failed to generate salt: %w", err)`. -/
  | failedToGenerateSalt
  deriving DecidableEq

/-- The outcome of a call that returns `(value, error)`: a value, an error, or
a run-time panic. -/
inductive Res (α : Type) where
  | ok (v : α)
  | error (e : Error)
  | panic
  deriving DecidableEq

/-- `pkcs7Pad`: append `padding = blockSize - len(data) % blockSize` bytes of
value `byte(padding)`. -/
def pkcs7Pad (data : List Byte) (blockSize : Nat) : List Byte :=
  let padding := blockSize - data.length % blockSize
  let padtext := List.replicate padding (Fin.ofNat padding : Byte)
  data ++ padtext

/-- `pkcs7Unpad`: read the padding length from the last byte, reject it when
it exceeds the block size or the data, check that each of the last `padding`
bytes has that value, and cut them off. -/
def pkcs7Unpad (data : List Byte) (blockSize : Nat) : Except Error (List Byte) :=
  if data.length = 0 then .error .ErrInvalidPKCSData
  else
    let padding := (data.getD (data.length - 1) 0).val
    if padding > blockSize ∨ padding > data.length then .error .ErrInvalidPKCSData
    else if (data.drop (data.length - padding)).all (fun b => b.val == padding) then
      .ok (data.take (data.length - padding))
    else .error .ErrInvalidPKCSData

/-- `EncryptAmount`: AES-256 in CBC mode over the PKCS#7-padded plaintext with
an initialization vector read from `rand.Reader`; the result is the
hexadecimal encoding of the vector followed by the cipher blocks. -/
def EncryptAmount (A : AES) (reader : List Byte) (key plaintext : GoString) : Res GoString :=
  if key.length ≠ 32 then .error .keyMustBe32Bytes
  else
    match aes.NewCipher A key with
    | .error k => .error (.failedToCreateCipher k)
    | .ok block =>
      let paddedPlaintext := pkcs7Pad plaintext aes.BlockSize
      match ReadFull reader aes.BlockSize with
      | none => .error .failedToGenerateIV
      | some (iv, _) =>
        match CBCEncrypter_CryptBlocks block iv paddedPlaintext with
        | none => .panic
        | some blocks => .ok (hex.EncodeToString (iv ++ blocks))

/-- `DecryptAmount`: decode the hexadecimal string, split off the first block
as initialization vector, decrypt the rest in CBC mode and remove the padding.
The slice expression `ciphertext[:aes.BlockSize]` panics when the decoded
slice is shorter than a block: past the alignment check that is the empty
slice, whose capacity is zero. -/
def DecryptAmount (A : AES) (key ciphertextHex : GoString) : Res GoString :=
  if key.length ≠ 32 then .error .keyMustBe32Bytes
  else
    match hex.DecodeString ciphertextHex with
    | .error e => .error (.failedToDecodeHex e)
    | .ok ciphertext =>
      match aes.NewCipher A key with
      | .error k => .error (.failedToCreateCipher k)
      | .ok block =>
        if ciphertext.length % aes.BlockSize ≠ 0 then .error .ErrInvalidBlockSize
        else if ciphertext.length < aes.BlockSize then .panic
        else
          let iv := ciphertext.take aes.BlockSize
          let ciphertext := ciphertext.drop aes.BlockSize
          match CBCDecrypter_CryptBlocks block iv ciphertext with
          | none => .panic
          | some decrypted =>
            match pkcs7Unpad decrypted aes.BlockSize with
            | .error e => .error (.failedToUnpad e)
            | .ok plaintext => .ok plaintext

/-- `GenerateRandomSalt`: sixteen random bytes in hexadecimal, with the rest of
the reader. -/
def GenerateRandomSalt (reader : List Byte) : Except Error (GoString × List Byte) :=
  match ReadFull reader 16 with
  | none => .error .failedToGenerateSalt
  | some (salt, rest) => .ok (hex.EncodeToString salt, rest)

/-- The cipher that `aes.NewCipher` returns for a key of valid length. -/
def blockOf (A : AES) (key : List Byte) : Block := ⟨A.encryptBlock key, A.decryptBlock key⟩

/-- The bytes that `EncryptAmount` encodes: the initialization vector followed
by the CBC cipher blocks of the padded plaintext. -/
def rawCiphertext (A : AES) (iv key plaintext : List Byte) : List Byte :=
  iv ++ cbcEncryptLoop (blockOf A key) ((pkcs7Pad plaintext 16).length / 16) iv
    (pkcs7Pad plaintext 16)

/-- A byte string with its last byte replaced by `b`. -/
def setLast (l : List Byte) (b : Byte) : List Byte := l.dropLast ++ [b]

/-! ## `internal/models` -/

/-- The persisted columns of `models.Transaction`. -/
structure Transaction where
  ID : Nat
  BizID : GoString
  InstitutionID : GoString
  AmountCipher : GoString
  AmountHash : GoString
  DataHash : GoString
  Salt : GoString
  Receiver : GoString
  Sender : GoString
  TxType : Int
  Status : Int
  CreatedAt : Nat
  UpdatedAt : Nat
  deriving DecidableEq

/-- `models.TxStatusPending`. -/
def TxStatusPending : Int := 0
/-- `models.TxStatusUploaded`. -/
def TxStatusUploaded : Int := 1
/-- `models.TxStatusMatched`. -/
def TxStatusMatched : Int := 2
/-- `models.TxStatusMismatch`. -/
def TxStatusMismatch : Int := 3

/-- The persisted columns of `models.ChainReceipt`. -/
structure ChainReceipt where
  ID : Nat
  BizID : GoString
  TxHash : GoString
  BlockHeight : Int
  BlockHash : GoString
  ContractAddress : GoString
  GasUsed : Int
  Status : Int
  CreatedAt : Nat
  deriving DecidableEq

/-- `models.CreateTransactionRequest`. -/
structure CreateTransactionRequest where
  BizID : GoString
  InstitutionID : GoString
  Amount : GoString
  Receiver : GoString
  Sender : GoString
  TxType : Int
  deriving DecidableEq

/-! ## The store behind `gorm.DB` -/

/-- The errors of the store that the model produces: `gorm.ErrRecordNotFound`
and the rejection of an insert by a unique index (MySQL error 1062). -/
inductive DBError where
  | ErrRecordNotFound
  | ErrDuplicatedKey
  /-- The store is out of order: `driver.ErrBadConn`. -/
  | ErrBadConn
  /-- An update without a primary key: `gorm.ErrMissingWhereClause`. -/
  | ErrMissingWhereClause
  deriving DecidableEq

/-- The tables `transactions` and `chain_receipts`, in insertion order, with
the next value of the auto-increment primary key of `transactions`.  Queries
and the insert of a transaction are reliable: they fail only when no record
is found and when the unique index rejects the insert.  The two writes of
`UploadToChain` can also fail because the store is out of order.  The column
`biz_id` is compared bytewise and every value is stored as it is given. -/
structure DB where
  transactions : List Transaction
  chainReceipts : List ChainReceipt
  nextID : Nat
  deriving DecidableEq

/-- The query `db.Where("biz_id = ?", bizId).First(&tx)`. -/
def DB.First (db : DB) (bizId : GoString) : Except DBError Transaction :=
  match db.transactions.find? (fun t => t.BizID == bizId) with
  | some t => .ok t
  | none => .error .ErrRecordNotFound

/-- The insert `db.Create(tx)` into `transactions`: the unique index on
`biz_id` (`gorm:"uniqueIndex"`) rejects a second record with the same BizID;
otherwise the record is stored with its primary key (assigned when zero) and
its `autoCreateTime` and `autoUpdateTime` stamps. -/
def DB.Create (db : DB) (tx : Transaction) (now : Nat) : Except DBError DB :=
  if db.transactions.any (fun t => t.BizID == tx.BizID) then .error .ErrDuplicatedKey
  else
    .ok { db with
      transactions := db.transactions ++
        [{ tx with ID := if tx.ID = 0 then db.nextID else tx.ID,
                   CreatedAt := now, UpdatedAt := now }],
      nextID := db.nextID + 1 }

/-! ## `internal/service/transaction.go` -/

/-- `service.CreateTransactionResult`. -/
structure CreateTransactionResult where
  Success : Bool
  BizID : GoString
  Message : String
  deriving DecidableEq

/-- The errors that `CreateTransaction` returns, each wrapping its cause. -/
inductive ServiceError where
  /-- `fmt.Errorf("failed to generate salt: %w", err)`. -/
  | failedToGenerateSalt (e : Error)
  /-- `fmt.Errorf("failed to encrypt amount: %w", err)`. -/
  | failedToEncryptAmount (e : Error)
  /-- `fmt.Errorf("failed to create transaction: %w", err)`. -/
  | failedToCreateTransaction (e : DBError)
  deriving DecidableEq

/-- The outcome of a service call that returns `(result, error)`. -/
inductive ServiceRes (α : Type) where
  | ok (v : α)
  | error (e : ServiceError)
  | panic
  deriving DecidableEq

/-- What a call of `CreateTransaction` takes from outside the program: the
bytes of `rand.Reader`, the clock, and the writes that other requests commit to
the store between the existence check and the insert (the identity when the
call runs alone). -/
structure Env where
  reader : List Byte
  now : Nat
  concurrent : DB → DB

/-- The message of the duplicate result. -/
def msgDuplicate : String := "业务流水号已存在"

/-- The message of the success result. -/
def msgCreated : String := "创建成功"

/-- `TransactionService.CreateTransaction`: the existence check on BizID, the
salt, the data hash, the encrypted amount, and the insert of the Pending
record.  Returns the outcome and the store after the call. -/
def CreateTransaction (H : Sha256) (A : AES) (encryptionKey : GoString) (env : Env) (db : DB)
    (req : CreateTransactionRequest) (institutionID : GoString) :
    ServiceRes CreateTransactionResult × DB :=
  match db.First req.BizID with
  | .ok _ => (.ok { Success := false, BizID := req.BizID, Message := msgDuplicate }, db)
  | .error _ =>
    let db := env.concurrent db
    match GenerateRandomSalt env.reader with
    | .error e => (.error (.failedToGenerateSalt e), db)
    | .ok (salt, reader) =>
      let dataHash := CalculateDataHash H req.BizID req.Amount salt
      match EncryptAmount A reader encryptionKey req.Amount with
      | .error e => (.error (.failedToEncryptAmount e), db)
      | .panic => (.panic, db)
      | .ok amountCipher =>
        let tx : Transaction :=
          { ID := 0
            BizID := req.BizID
            InstitutionID := institutionID
            AmountCipher := amountCipher
            AmountHash := HashPassword H req.Amount
            DataHash := dataHash
            Salt := salt
            Receiver := req.Receiver
            Sender := req.Sender
            TxType := req.TxType
            Status := TxStatusPending
            CreatedAt := 0
            UpdatedAt := 0 }
        match db.Create tx env.now with
        | .error e => (.error (.failedToCreateTransaction e), db)
        | .ok db' => (.ok { Success := true, BizID := req.BizID, Message := msgCreated }, db')

/-! ## `internal/utils/response.go` and `internal/handler/transaction.go` -/

/-- `utils.CodeSuccess`. -/
def CodeSuccess : Nat := 200
/-- `utils.CodeBadRequest`. -/
def CodeBadRequest : Nat := 400
/-- `utils.CodeServerError`. -/
def CodeServerError : Nat := 500
/-- `utils.CodeDuplicate`. -/
def CodeDuplicate : Nat := 409

/-- The text of a response: a fixed message, or the text `err.Error()` of an
error of the binding or of the service. -/
inductive ResponseMessage where
  | text (s : String)
  | bindError
  | serviceError (e : ServiceError)
  deriving DecidableEq

/-- `utils.Response`. -/
structure Response where
  Code : Nat
  Message : ResponseMessage
  Data : Option CreateTransactionResult
  deriving DecidableEq

/-- `utils.Fail`. -/
def Fail (code : Nat) (message : ResponseMessage) : Response :=
  { Code := code, Message := message, Data := none }

/-- `utils.Success`. -/
def Success (data : CreateTransactionResult) : Response :=
  { Code := CodeSuccess, Message := .text "success", Data := some data }

/-- The default institution id `"INST001"` of the handler. -/
def defaultInstitutionID : GoString := [73, 78, 83, 84, 48, 48, 49]

/-- `TransactionHandler.CreateTransaction`: `bound` is the request that
`ShouldBindJSON` produced (`none` when binding failed) and `ctxInstitution`
the value of `c.GetString("institution_id")`.  Returns the response written
(`none` when the service panicked) and the store after the call. -/
def TransactionHandler_CreateTransaction (H : Sha256) (A : AES) (encryptionKey : GoString)
    (env : Env) (db : DB) (bound : Option CreateTransactionRequest)
    (ctxInstitution : GoString) : Option Response × DB :=
  match bound with
  | none => (some (Fail CodeBadRequest .bindError), db)
  | some req =>
    let institutionID := if ctxInstitution = [] then defaultInstitutionID else ctxInstitution
    match CreateTransaction H A encryptionKey env db req institutionID with
    | (.panic, db') => (none, db')
    | (.error e, db') => (some (Fail CodeServerError (.serviceError e)), db')
    | (.ok result, db') =>
      if !result.Success then (some (Fail CodeDuplicate (.text result.Message)), db')
      else (some (Success result), db')

/-! ## Instances for examples -/

/-- A stand-in for SHA-256 in examples: the first 32 bytes of the zero-padded message. -/
def exampleSha256 : Sha256 where
  Sum256 m := (m ++ List.replicate 32 0).take 32
  size m := by simp [List.length_take]

/-- A stand-in for AES in examples: every byte of the block is shifted by the
first byte of the key. -/
def exampleAES : AES where
  encryptBlock k b := b.map (· + k.headD 0)
  decryptBlock k b := b.map (· - k.headD 0)

/-- A 32-byte key. -/
def exampleKey : GoString := List.replicate 32 7

/-- The BizID `"TX001"`. -/
def bizTX001 : GoString := [84, 88, 48, 48, 49]

/-- A request to create the transaction `"TX001"` with amount `"100"`. -/
def exampleRequest : CreateTransactionRequest :=
  { BizID := bizTX001, InstitutionID := defaultInstitutionID, Amount := [49, 48, 48],
    Receiver := [66], Sender := [65], TxType := 1 }

/-- A stored Pending record for `"TX001"`. -/
def exampleRecord : Transaction :=
  { ID := 1, BizID := bizTX001, InstitutionID := defaultInstitutionID, AmountCipher := [],
    AmountHash := [], DataHash := [], Salt := [], Receiver := [66], Sender := [65],
    TxType := 1, Status := TxStatusPending, CreatedAt := 5, UpdatedAt := 5 }

/-- The empty store. -/
def emptyDB : DB := { transactions := [], chainReceipts := [], nextID := 1 }

/-- The store holding the record `"TX001"`. -/
def exampleDB : DB := { transactions := [exampleRecord], chainReceipts := [], nextID := 2 }

/-- A call that runs alone, with 32 random bytes available. -/
def quietEnv : Env :=
  { reader := List.replicate 32 9, now := 10, concurrent := id }

/-- A call during which another request commits the record `"TX001"` between
the existence check and the insert. -/
def racingEnv : Env :=
  { reader := List.replicate 32 9, now := 10,
    concurrent := fun db =>
      { db with transactions := db.transactions ++ [{ exampleRecord with ID := db.nextID }],
                nextID := db.nextID + 1 } }

/-! ## The ledger gateway and `UploadToChain` -/

/-- `models.ChainReceiptStatusFailed`. -/
def ChainReceiptStatusFailed : Int := 0
/-- `models.ChainReceiptStatusSuccess`. -/
def ChainReceiptStatusSuccess : Int := 1

/-- The insert `db.Create(receipt)` into `chain_receipts`: it fails when the
store is out of order (`fault`) and when the unique index on `biz_id` holds a
receipt with the same BizID; otherwise the receipt is stored with a primary
key and its `autoCreateTime` stamp. -/
def DB.CreateReceipt (db : DB) (receipt : ChainReceipt) (now : Nat) (fault : Bool) :
    Except DBError DB :=
  if fault then .error .ErrBadConn
  else if db.chainReceipts.any (fun r => r.BizID == receipt.BizID) then .error .ErrDuplicatedKey
  else
    .ok { db with
      chainReceipts := db.chainReceipts ++
        [{ receipt with
            ID := if receipt.ID = 0 then db.chainReceipts.length + 1 else receipt.ID,
            CreatedAt := now }] }

/-- The update `db.Model(&tx).Update("status", status)`: the statement
`UPDATE transactions SET status = ?, updated_at = ? WHERE id = ?` on the
primary key of the loaded record.  It fails when the store is out of order
(`fault`) and, with `gorm.ErrMissingWhereClause`, when the primary key is
zero. -/
def DB.UpdateStatus (db : DB) (id : Nat) (status : Int) (now : Nat) (fault : Bool) :
    Except DBError DB :=
  if fault then .error .ErrBadConn
  else if id = 0 then .error .ErrMissingWhereClause
  else
    .ok { db with
      transactions := db.transactions.map fun t =>
        if t.ID = id then { t with Status := status, UpdatedAt := now } else t }

/-- What one call of `UploadToChain` meets outside the program: the ledger
gateway, the clock, and whether the store is out of order at each of the two
writes.  `SendTransaction contractAddress bizId dataHash` is the call
`s.blockchain.SendTransaction(ctx, contractAddress, bizId, dataHash)`: the
transaction hash, or `none` for an error. -/
structure UploadEnv where
  SendTransaction : GoString → GoString → GoString → Option GoString
  GetBlockNumber : Option Int
  receiptFault : Bool
  statusFault : Bool
  now : Nat

/-- One invocation of the ledger gateway: its arguments and what it returned. -/
structure GatewayCall where
  contractAddress : GoString
  bizId : GoString
  dataHash : GoString
  txHash : Option GoString
  deriving DecidableEq

/-- The errors that `UploadToChain` returns. -/
inductive UploadError where
  /-- `fmt.Errorf("transaction not found: %w", err)`. -/
  | transactionNotFound (e : DBError)
  /-- `fmt.Errorf("invalid transaction status: %d", tx.Status)`. -/
  | invalidTransactionStatus (status : Int)
  /-- `fmt.Errorf("failed to upload to chain: %w", err)`. -/
  | failedToUploadToChain
  deriving DecidableEq

/-- What a call of `UploadToChain` leaves behind: the error it returns (`none`
for `nil`), the store, and the invocations of the ledger gateway it made. -/
structure UploadOutcome where
  err : Option UploadError
  db : DB
  calls : List GatewayCall
  deriving DecidableEq

/-- `TransactionService.UploadToChain`: load the transaction, require the
Pending status, send the commitment to the ledger, then store the receipt and
set the status to Uploaded.  A failure of either store write is logged and the
call goes on. -/
def UploadToChain (env : UploadEnv) (db : DB) (bizId contractAddress : GoString) :
    UploadOutcome :=
  match db.First bizId with
  | .error e => { err := some (.transactionNotFound e), db := db, calls := [] }
  | .ok tx =>
    if tx.Status ≠ TxStatusPending then
      { err := some (.invalidTransactionStatus tx.Status), db := db, calls := [] }
    else
      match env.SendTransaction contractAddress tx.BizID tx.DataHash with
      | none =>
        { err := some .failedToUploadToChain, db := db,
          calls := [{ contractAddress := contractAddress, bizId := tx.BizID,
                      dataHash := tx.DataHash, txHash := none }] }
      | some txHash =>
        let blockNumber : Int :=
          match env.GetBlockNumber with
          | some n => n
          | none => 0
        let receipt : ChainReceipt :=
          { ID := 0
            BizID := tx.BizID
            TxHash := txHash
            BlockHeight := blockNumber
            BlockHash := []
            ContractAddress := contractAddress
            GasUsed := 0
            Status := ChainReceiptStatusSuccess
            CreatedAt := 0 }
        let db₁ :=
          match db.CreateReceipt receipt env.now env.receiptFault with
          | .ok d => d
          | .error _ => db
        let db₂ :=
          match db₁.UpdateStatus tx.ID TxStatusUploaded env.now env.statusFault with
          | .ok d => d
          | .error _ => db₁
        { err := none, db := db₂,
          calls := [{ contractAddress := contractAddress, bizId := tx.BizID,
                      dataHash := tx.DataHash, txHash := some txHash }] }

/-- `models.BatchUploadResult`. -/
structure BatchUploadResult where
  Total : Nat
  Success : Nat
  Failed : Nat
  SuccessIDs : List GoString
  FailedIDs : List GoString
  deriving DecidableEq

/-- What a call of `BatchUploadToChain` leaves behind: its result, the store,
and the invocations of the ledger gateway in the order they were made. -/
structure BatchOutcome where
  result : BatchUploadResult
  db : DB
  calls : List GatewayCall
  deriving DecidableEq

/-- The loop of `BatchUploadToChain` over the remaining ids: `envs 0` is what
the next call of `UploadToChain` meets, `envs 1` the one after it, and so on. -/
def batchUploadLoop (contractAddress : GoString) :
    (Nat → UploadEnv) → List GoString → BatchOutcome → BatchOutcome
  | _, [], acc => acc
  | envs, bizId :: rest, acc =>
    let out := UploadToChain (envs 0) acc.db bizId contractAddress
    let result :=
      match out.err with
      | some _ =>
        { acc.result with
          Failed := acc.result.Failed + 1, FailedIDs := acc.result.FailedIDs ++ [bizId] }
      | none =>
        { acc.result with
          Success := acc.result.Success + 1, SuccessIDs := acc.result.SuccessIDs ++ [bizId] }
    batchUploadLoop contractAddress (fun i => envs (i + 1)) rest
      { result := result, db := out.db, calls := acc.calls ++ out.calls }

/-- `TransactionService.BatchUploadToChain`. -/
def BatchUploadToChain (envs : Nat → UploadEnv) (db : DB) (bizIds : List GoString)
    (contractAddress : GoString) : BatchOutcome :=
  batchUploadLoop contractAddress envs bizIds
    { result := { Total := bizIds.length, Success := 0, Failed := 0,
                  SuccessIDs := [], FailedIDs := [] },
      db := db, calls := [] }

/-! ## The wording of the specification: uploads one by one, sequences of calls -/

/-- One call of `UploadToChain` per id, in the order of the list, each on the
store that the call before it left: the error of every call, the final store
and the invocations of the ledger gateway. -/
def uploadEach (contractAddress : GoString) :
    (Nat → UploadEnv) → DB → List GoString → List (GoString × Option UploadError) × DB ×
      List GatewayCall
  | _, db, [] => ([], db, [])
  | envs, db, bizId :: rest =>
    let out := UploadToChain (envs 0) db bizId contractAddress
    let (errs, db', calls) := uploadEach contractAddress (fun i => envs (i + 1)) out.db rest
    ((bizId, out.err) :: errs, db', out.calls ++ calls)

/-- A request to the upload operations of the service. -/
inductive UploadOp where
  | single (bizId : GoString)
  | batch (bizIds : List GoString)
  deriving DecidableEq

/-- The ids that a request uploads, in order. -/
def UploadOp.ids : UploadOp → List GoString
  | .single bizId => [bizId]
  | .batch bizIds => bizIds

/-- A sequence of calls of `UploadToChain` and `BatchUploadToChain` that run one
after another, each on the store left by the one before (calls that overlap
are run by `runOverlapping`); the environments are consumed one per call of
`UploadToChain`.  Returns the final store and all invocations of the ledger
gateway in order. -/
def runUploads (contractAddress : GoString) :
    (Nat → UploadEnv) → DB → List UploadOp → DB × List GatewayCall
  | _, db, [] => (db, [])
  | envs, db, .single bizId :: rest =>
    let out := UploadToChain (envs 0) db bizId contractAddress
    let (db', calls) := runUploads contractAddress (fun i => envs (i + 1)) out.db rest
    (db', out.calls ++ calls)
  | envs, db, .batch bizIds :: rest =>
    let out := BatchUploadToChain envs db bizIds contractAddress
    let (db', calls) :=
      runUploads contractAddress (fun i => envs (i + bizIds.length)) out.db rest
    (db', out.calls ++ calls)

/-- The number of successful uploads of a BizID among invocations of the gateway. -/
def successfulUploads (bizId : GoString) (calls : List GatewayCall) : Nat :=
  (calls.filter fun c => c.bizId == bizId && c.txHash.isSome).length

/-- The number of ids of a batch for which the ledger gateway fails: the calls
`SendTransaction` with the BizID and DataHash of the stored record that
return an error. -/
def gatewayFailures (contractAddress : GoString) (db : DB) :
    (Nat → UploadEnv) → List GoString → Nat
  | _, [] => 0
  | envs, bizId :: rest =>
    (match db.First bizId with
      | .ok tx =>
        if ((envs 0).SendTransaction contractAddress tx.BizID tx.DataHash).isNone then 1 else 0
      | .error _ => 0)
      + gatewayFailures contractAddress db (fun i => envs (i + 1)) rest

/-- The primary key of `transactions`: the ids of the stored records are
pairwise different and none is zero. -/
def DB.KeysValid (db : DB) : Prop :=
  (db.transactions.map (·.ID)).Nodup ∧ ∀ t ∈ db.transactions, t.ID ≠ 0

/-- The record `t'` is the record `t`, or `t` was Pending and `t'` is `t` with
the status Uploaded and a new update stamp. -/
def statusStep (t t' : Transaction) : Prop :=
  t' = t ∨ (t.Status = TxStatusPending ∧
    ∃ now, t' = { t with Status := TxStatusUploaded, UpdatedAt := now })

/-- The table `post` comes from the table `pre` by status changes from Pending
to Uploaded and by new Pending records at its end. -/
def onlyPendingToUploaded (pre post : List Transaction) : Prop :=
  ∃ kept added, post = kept ++ added ∧ List.Forall₂ statusStep pre kept ∧
    ∀ t ∈ added, t.Status = TxStatusPending

/-- The store holds a receipt for a BizID. -/
def DB.hasReceipt (db : DB) (bizId : GoString) : Prop :=
  ∃ r ∈ db.chainReceipts, r.BizID = bizId

/-- The status of the record that the store returns for a BizID. -/
def DB.statusOf (db : DB) (bizId : GoString) : Option Int :=
  match db.First bizId with
  | .ok t => some t.Status
  | .error _ => none

/-! ## Instances for examples: the ledger -/

/-- A transaction hash `"0xab"`. -/
def exampleTxHash : GoString := [48, 120, 97, 98]

/-- A call during which the ledger and the store work. -/
def goodUpload : UploadEnv :=
  { SendTransaction := fun _ _ _ => some exampleTxHash, GetBlockNumber := some 7,
    receiptFault := false, statusFault := false, now := 20 }

/-- A call during which the ledger gateway fails. -/
def ledgerDown : UploadEnv :=
  { SendTransaction := fun _ _ _ => none, GetBlockNumber := none,
    receiptFault := false, statusFault := false, now := 20 }

/-- A call during which the insert of the receipt fails at the store. -/
def receiptWriteFails : UploadEnv := { goodUpload with receiptFault := true }

/-- A call during which the update of the status fails at the store. -/
def statusWriteFails : UploadEnv := { goodUpload with statusFault := true }

/-- The store holding `"TX001"` with status Uploaded. -/
def uploadedDB : DB :=
  { transactions := [{ exampleRecord with Status := TxStatusUploaded }], chainReceipts := [],
    nextID := 2 }

/-- The BizID `"TX002"`. -/
def bizTX002 : GoString := [84, 88, 48, 48, 50]

/-- The store holding the Pending records `"TX001"` and `"TX002"`. -/
def twoPendingDB : DB :=
  { transactions := [exampleRecord, { exampleRecord with ID := 2, BizID := bizTX002 }],
    chainReceipts := [], nextID := 3 }

/-- The store holding `"TX001"` Pending and `"TX002"` Matched. -/
def mixedDB : DB :=
  { transactions :=
      [exampleRecord, { exampleRecord with ID := 2, BizID := bizTX002, Status := TxStatusMatched }],
    chainReceipts := [], nextID := 3 }

/-! ## Auxiliary definitions for the proofs on `UploadToChain` -/

/-- The receipt that `UploadToChain` builds. -/
def receiptOf (env : UploadEnv) (tx : Transaction) (addr txHash : GoString) : ChainReceipt :=
  { ID := 0, BizID := tx.BizID, TxHash := txHash,
    BlockHeight := (match env.GetBlockNumber with | some n => n | none => 0),
    BlockHash := [], ContractAddress := addr, GasUsed := 0,
    Status := ChainReceiptStatusSuccess, CreatedAt := 0 }

/-- The store after a write that is logged and passed over when it fails. -/
def keepOnError (db : DB) : Except DBError DB → DB
  | .ok d => d
  | .error _ => db

/-- The store after the two writes of a successful upload. -/
def afterWrites (env : UploadEnv) (db : DB) (tx : Transaction) (addr txHash : GoString) : DB :=
  let db₁ := keepOnError db
    (db.CreateReceipt (receiptOf env tx addr txHash) env.now env.receiptFault)
  keepOnError db₁ (db₁.UpdateStatus tx.ID TxStatusUploaded env.now env.statusFault)

/-- The update of the status column on the rows with a primary key. -/
def setUploaded (id now : Nat) (t : Transaction) : Transaction :=
  if t.ID = id then { t with Status := TxStatusUploaded, UpdatedAt := now } else t

/-- The result of a batch after the outcomes of further calls have been counted. -/
def tally (result : BatchUploadResult) :
    List (GoString × Option UploadError) → BatchUploadResult
  | [] => result
  | (bizId, some _) :: rest =>
    tally { result with Failed := result.Failed + 1, FailedIDs := result.FailedIDs ++ [bizId] }
      rest
  | (bizId, none) :: rest =>
    tally { result with
      Success := result.Success + 1, SuccessIDs := result.SuccessIDs ++ [bizId] } rest

/-- The store returns for the BizID a record that is not Pending. -/
def NonPending (db : DB) (bizId : GoString) : Prop :=
  ∃ t, db.First bizId = .ok t ∧ t.Status ≠ TxStatusPending

/-! ## `internal/models/transaction.go`: the response -/

/-- `models.TransactionResponse`. -/
structure TransactionResponse where
  ID : Nat
  BizID : GoString
  InstitutionID : GoString
  Receiver : GoString
  Sender : GoString
  TxType : Int
  Status : Int
  StatusText : String
  CreatedAt : Nat
  UpdatedAt : Nat
  deriving DecidableEq

/-- `Transaction.GetStatusText`. -/
def Transaction.GetStatusText (t : Transaction) : String :=
  if t.Status = TxStatusPending then "待上链"
  else if t.Status = TxStatusUploaded then "已上链"
  else if t.Status = TxStatusMatched then "对账成功"
  else if t.Status = TxStatusMismatch then "对账失败"
  else "未知"

/-- `Transaction.ToResponse`. -/
def Transaction.ToResponse (t : Transaction) : TransactionResponse :=
  { ID := t.ID
    BizID := t.BizID
    InstitutionID := t.InstitutionID
    Receiver := t.Receiver
    Sender := t.Sender
    TxType := t.TxType
    Status := t.Status
    StatusText := t.GetStatusText
    CreatedAt := t.CreatedAt
    UpdatedAt := t.UpdatedAt }

/-- `TransactionService.GetTransaction`: the response of the record found for
the BizID, or `fmt.Errorf("transaction not found: %w", err)`. -/
def GetTransaction (db : DB) (bizId : GoString) : Except DBError TransactionResponse :=
  match db.First bizId with
  | .error e => .error e
  | .ok tx => .ok tx.ToResponse

/-! ## `cmd/api/main.go` -/

/-- The key `"your-32-byte-encryption-key!!"` that `main` passes to
`NewTransactionService`. -/
def apiEncryptionKey : GoString :=
  [121, 111, 117, 114, 45, 51, 50, 45, 98, 121, 116, 101, 45, 101, 110, 99, 114, 121, 112,
    116, 105, 111, 110, 45, 107, 101, 121, 33, 33]

/-! ## `strconv` -/

/-- An ASCII digit. -/
def isDigit (ch : Byte) : Bool := 48 ≤ ch.val && ch.val ≤ 57

/-- The value of a string of digits in base ten. -/
def digitsValue (digits : List Byte) : Nat :=
  digits.foldl (fun n ch => n * 10 + (ch.val - 48)) 0

/-- `strconv.Atoi` on a 64-bit platform: an optional sign followed by one or
more digits, with a value in the range of `int`; `none` is its error (bad
syntax or out of range). -/
def Atoi (s : GoString) : Option Int :=
  let neg := s.head? = some 45
  let digits := if s.head? = some 45 ∨ s.head? = some 43 then s.drop 1 else s
  if digits = [] then none
  else if !digits.all isDigit then none
  else if neg then
    if digitsValue digits > 2 ^ 63 then none else some (-(digitsValue digits : Int))
  else
    if digitsValue digits ≥ 2 ^ 63 then none else some (digitsValue digits : Int)

/-- The conversion `int8(n)`: the low eight bits of `n` as a signed number. -/
def toInt8 (n : Int) : Int := (n + 128) % 256 - 128

/-! ## `internal/utils/excel.go` -/

/-- `utils.ExcelRow`. -/
structure ExcelRow where
  BizID : GoString
  Amount : GoString
  Sender : GoString
  Receiver : GoString
  TxType : Int
  deriving DecidableEq

/-- The header `"业务流水号"` (business id). -/
def colBizID : GoString :=
  [228, 184, 154, 229, 138, 161, 230, 181, 129, 230, 176, 180, 229, 143, 183]

/-- The header `"金额"` (amount). -/
def colAmount : GoString := [233, 135, 145, 233, 162, 157]

/-- The header `"付款方"` (sender). -/
def colSender : GoString := [228, 187, 152, 230, 172, 190, 230, 150, 185]

/-- The header `"收款方"` (receiver). -/
def colReceiver : GoString := [230, 148, 182, 230, 172, 190, 230, 150, 185]

/-- The header `"交易类型"` (transaction type). -/
def colTxType : GoString :=
  [228, 186, 164, 230, 152, 147, 231, 177, 187, 229, 158, 139]

/-- The errors of the Excel import. -/
inductive ExcelError where
  /-- `fmt.Errorf("failed to open excel file: %w", err)`. -/
  | failedToOpenFile
  /-- `fmt.Errorf("no sheet found in excel file")`. -/
  | noSheetFound
  /-- `fmt.Errorf("failed to read rows: %w", err)`. -/
  | failedToReadRows
  /-- `fmt.Errorf("excel file is empty or only has header")`. -/
  | emptyOrOnlyHeader
  /-- `fmt.Errorf("missing required column: %s", reqCol)`. -/
  | missingRequiredColumn (reqCol : GoString)
  /-- `fmt.Errorf("invalid biz_id column")` and its like for the other fields. -/
  | invalidColumn (field : String)
  /-- `fmt.Errorf("biz_id is empty")` and its like for the other fields. -/
  | fieldIsEmpty (field : String)
  /-- `fmt.Errorf("invalid tx_type: %w", err)`. -/
  | invalidTxType
  /-- `fmt.Errorf("failed to parse row %d: %w", i+1, err)`. -/
  | failedToParseRow (row : Nat) (e : ExcelError)
  deriving DecidableEq

/-- The assignments `colIndexMap[cell] = colIdx` over the header from column
`i` on: the value of the map at `name` is the index of its last occurrence. -/
def colIndexLoop (name : GoString) : Nat → List GoString → Option Nat → Option Nat
  | _, [], acc => acc
  | i, cell :: rest, acc => colIndexLoop name (i + 1) rest (if cell = name then some i else acc)

/-- The columns that `parseHeader` requires, in the order it checks them. -/
def requiredColumns : List GoString := [colBizID, colAmount, colSender, colReceiver]

/-- `parseHeader`: the map from column name to index, or the first required
column that the header lacks. -/
def parseHeader (header : List GoString) : Except ExcelError (GoString → Option Nat) :=
  match requiredColumns.find? (fun reqCol => !header.contains reqCol) with
  | some reqCol => .error (.missingRequiredColumn reqCol)
  | none => .ok fun name => colIndexLoop name 0 header none

/-- `parseRow`: the four required cells, each of which must lie within the row
and be non-empty, and the optional transaction type. -/
def parseRow (row : List GoString) (colIndexMap : GoString → Option Nat) :
    Except ExcelError ExcelRow :=
  match colIndexMap colBizID with
  | none => .error (.invalidColumn "biz_id")
  | some bizIDIdx =>
    if bizIDIdx ≥ row.length then .error (.invalidColumn "biz_id")
    else if row.getD bizIDIdx [] = [] then .error (.fieldIsEmpty "biz_id")
    else
      match colIndexMap colAmount with
      | none => .error (.invalidColumn "amount")
      | some amountIdx =>
        if amountIdx ≥ row.length then .error (.invalidColumn "amount")
        else if row.getD amountIdx [] = [] then .error (.fieldIsEmpty "amount")
        else
          match colIndexMap colSender with
          | none => .error (.invalidColumn "sender")
          | some senderIdx =>
            if senderIdx ≥ row.length then .error (.invalidColumn "sender")
            else if row.getD senderIdx [] = [] then .error (.fieldIsEmpty "sender")
            else
              match colIndexMap colReceiver with
              | none => .error (.invalidColumn "receiver")
              | some receiverIdx =>
                if receiverIdx ≥ row.length then .error (.invalidColumn "receiver")
                else if row.getD receiverIdx [] = [] then .error (.fieldIsEmpty "receiver")
                else
                  let excelRow : ExcelRow :=
                    { BizID := row.getD bizIDIdx [], Amount := row.getD amountIdx [],
                      Sender := row.getD senderIdx [], Receiver := row.getD receiverIdx [],
                      TxType := 0 }
                  match colIndexMap colTxType with
                  | none => .ok { excelRow with TxType := 1 }
                  | some txTypeIdx =>
                    if txTypeIdx < row.length ∧ row.getD txTypeIdx [] ≠ [] then
                      match Atoi (row.getD txTypeIdx []) with
                      | none => .error .invalidTxType
                      | some txType => .ok { excelRow with TxType := toInt8 txType }
                    else .ok { excelRow with TxType := 1 }

/-- `isEmptyRow`. -/
def isEmptyRow (row : List GoString) : Bool := row.all fun cell => cell = []

/-- The loop of `ParseExcelFile` over the data rows from index `i` on, with
the rows parsed so far. -/
def parseDataRows (colIndexMap : GoString → Option Nat) :
    Nat → List (List GoString) → List ExcelRow → Except ExcelError (List ExcelRow)
  | _, [], excelRows => .ok excelRows
  | i, row :: rest, excelRows =>
    if isEmptyRow row then parseDataRows colIndexMap (i + 1) rest excelRows
    else
      match parseRow row colIndexMap with
      | .error e => .error (.failedToParseRow (i + 1) e)
      | .ok excelRow => parseDataRows colIndexMap (i + 1) rest (excelRows ++ [excelRow])

/-- What `excelize` finds at a file path: a file that cannot be opened, or the
sheets of the workbook in order, each with its rows (`none` when the rows
cannot be read). -/
inductive Workbook where
  | unreadable
  | opened (sheets : List (Option (List (List GoString))))

/-- `ParseExcelFile` on what `excelize` finds at the path. -/
def ParseExcelFile : Workbook → Except ExcelError (List ExcelRow)
  | .unreadable => .error .failedToOpenFile
  | .opened [] => .error .noSheetFound
  | .opened (none :: _) => .error .failedToReadRows
  | .opened (some rows :: _) =>
    if rows.length ≤ 1 then .error .emptyOrOnlyHeader
    else
      match parseHeader (rows.headD []) with
      | .error e => .error e
      | .ok colIndexMap => parseDataRows colIndexMap 1 (rows.drop 1) []

/-! ## `internal/blockchain`: the two ledger clients -/

/-- `stringToBytes32`: `copy` into a zeroed array of 32 bytes takes the first
32 bytes of the string at most. -/
def stringToBytes32 (s : GoString) : List Byte :=
  s.take 32 ++ List.replicate (32 - s.length) 0

/-- `BizIdToBytes32`. -/
def BizIdToBytes32 (bizId : GoString) : List Byte := stringToBytes32 bizId

/-- `parseHashToBytes32`: a string of 64 characters after an optional `0x` is
decoded as hexadecimal, any other string is copied like a BizID. -/
def parseHashToBytes32 (hash : GoString) : Except hex.DecodeError (List Byte) :=
  let hash := if hash.length ≥ 2 ∧ hash.take 2 = [48, 120] then hash.drop 2 else hash
  if hash.length = 64 then
    match hex.DecodeString hash with
    | .error e => .error e
    | .ok bytes => .ok (bytes.take 32 ++ List.replicate (32 - bytes.length) 0)
  else .ok (stringToBytes32 hash)

/-- The errors of `ContractHelper.EncodeBatchUploadTransactions`. -/
inductive HelperError where
  /-- `fmt.Errorf("bizIds and dataHashes length mismatch")`. -/
  | lengthMismatch
  /-- `fmt.Errorf("invalid data hash at index %d: %w", i, err)`. -/
  | invalidDataHash (i : Nat) (e : hex.DecodeError)
  /-- `fmt.Errorf("failed to pack batchUploadTransactions: %w", err)`. -/
  | failedToPack
  deriving DecidableEq

/-- A `ContractHelper`: the ABI encoder `abi.Pack("batchUploadTransactions", ...)`
of the contract, `none` for its error. -/
structure ContractHelper where
  packBatch : List (List Byte) → List (List Byte) → Option (List Byte)

/-- The loop of `EncodeBatchUploadTransactions` over the data hashes from index `i` on. -/
def parseHashes : Nat → List GoString → Except HelperError (List (List Byte))
  | _, [] => .ok []
  | i, hash :: rest =>
    match parseHashToBytes32 hash with
    | .error e => .error (.invalidDataHash i e)
    | .ok h =>
      match parseHashes (i + 1) rest with
      | .error e => .error e
      | .ok hs => .ok (h :: hs)

/-- `ContractHelper.EncodeBatchUploadTransactions`. -/
def ContractHelper.EncodeBatchUploadTransactions (h : ContractHelper)
    (bizIds dataHashes : List GoString) : Except HelperError (List Byte) :=
  if bizIds.length ≠ dataHashes.length then .error .lengthMismatch
  else
    let bizIdArray := bizIds.map stringToBytes32
    match parseHashes 0 dataHashes with
    | .error e => .error e
    | .ok hashArray =>
      match h.packBatch bizIdArray hashArray with
      | none => .error .failedToPack
      | some data => .ok data

/-- The FISCO `Client`: its contract helper (`nil` when no contract was
loaded) and the method `sendTransaction`, which returns the hash of the
transaction or `none` for an error. -/
structure Client where
  contractHelper : Option ContractHelper
  sendTransaction : List Byte → Option GoString

/-- The errors of `Client.BatchUploadTransactions`. -/
inductive ClientError where
  /-- `fmt.Errorf("contract helper not initialized")`. -/
  | contractHelperNotInitialized
  /-- `fmt.Errorf("bizIds and dataHashes length mismatch")`. -/
  | lengthMismatch
  /-- `fmt.Errorf("failed to encode batchUploadTransactions: %w", err)`. -/
  | failedToEncode (e : HelperError)
  /-- `fmt.Errorf("failed to send batch transaction: %w", err)`. -/
  | failedToSendBatch
  deriving DecidableEq

/-- `Client.BatchUploadTransactions`: the transaction hash or the error, and
the inputs that were sent to the ledger. -/
def Client.BatchUploadTransactions (c : Client) (bizIds dataHashes : List GoString) :
    Except ClientError GoString × List (List Byte) :=
  match c.contractHelper with
  | none => (.error .contractHelperNotInitialized, [])
  | some helper =>
    if bizIds.length ≠ dataHashes.length then (.error .lengthMismatch, [])
    else
      match helper.EncodeBatchUploadTransactions bizIds dataHashes with
      | .error e => (.error (.failedToEncode e), [])
      | .ok input =>
        match c.sendTransaction input with
        | none => (.error .failedToSendBatch, [input])
        | some txHash => (.ok txHash, [input])

/-- The `FabricClient`: the call `channel.Execute` of the chaincode function
`BatchUploadTransactions` on the two lists, which returns the transaction id
with the payload read as a number (`none` when it is not one), or `none` for
an error. -/
structure FabricClient where
  Execute : List GoString → List GoString → Option (GoString × Option Int)

/-- The errors of `FabricClient.BatchUploadTransactions`. -/
inductive FabricError where
  /-- `fmt.Errorf("bizIds and dataHashes length mismatch")`. -/
  | lengthMismatch
  /-- `fmt.Errorf("failed to execute BatchUploadTransactions: %w", err)`. -/
  | failedToExecute
  /-- `fmt.Errorf("failed to unmarshal response: %w", err)`. -/
  | failedToUnmarshal
  deriving DecidableEq

/-- `FabricClient.BatchUploadTransactions`: the transaction id with the count
of successes or the error, and the requests that were sent to the ledger. -/
def FabricClient.BatchUploadTransactions (c : FabricClient) (bizIds dataHashes : List GoString) :
    Except FabricError (GoString × Int) × List (List GoString × List GoString) :=
  if bizIds.length ≠ dataHashes.length then (.error .lengthMismatch, [])
  else
    match c.Execute bizIds dataHashes with
    | none => (.error .failedToExecute, [(bizIds, dataHashes)])
    | some (_, none) => (.error .failedToUnmarshal, [(bizIds, dataHashes)])
    | some (txID, some successCount) => (.ok (txID, successCount), [(bizIds, dataHashes)])

/-! ## `internal/blockchain/listener.go` -/

/-- The persisted columns of `models.Reconciliation`. -/
structure Reconciliation where
  ID : Nat
  BizID : GoString
  PartyA : GoString
  PartyB : GoString
  Status : Int
  MatchedAt : Option Nat
  BlockHeight : Option Int
  CreatedAt : Nat
  UpdatedAt : Nat
  deriving DecidableEq

/-- The persisted columns of `models.EventLog`; the JSON column `Data` is kept
as its text. -/
structure EventLog where
  ID : Nat
  EventType : GoString
  BizID : GoString
  TxHash : GoString
  BlockHeight : Int
  ContractAddress : GoString
  Data : GoString
  Processed : Int
  CreatedAt : Nat
  deriving DecidableEq

/-- `models.EventProcessed`. -/
def EventProcessed : Int := 1

/-- The store that the listener holds: the tables of `DB` with the tables
`reconciliations` and `event_logs`. -/
structure ListenerStore where
  db : DB
  reconciliations : List Reconciliation
  eventLogs : List EventLog
  deriving DecidableEq

/-- The case of the `select` in `EventListener.Start` that fires next. -/
inductive Wakeup where
  | done
  | tick
  deriving DecidableEq

/-- The loop of `EventListener.Start` over the wake-ups it receives: on
`ctx.Done()` it logs and returns, on a tick of the timer it logs and goes on.
Returns the store and the lines logged. -/
def listenerLoop : List Wakeup → ListenerStore → List String → ListenerStore × List String
  | [], store, log => (store, log)
  | .done :: _, store, log => (store, log ++ ["event listener stopped"])
  | .tick :: rest, store, log => listenerLoop rest store (log ++ ["event listener tick"])

/-- `EventListener.Start`. -/
def EventListener_Start (wakeups : List Wakeup) (store : ListenerStore) :
    ListenerStore × List String :=
  listenerLoop wakeups store ["event listener started"]

/-! ## `TransactionService.GetStatistics` -/

/-- `models.StatisticsResponse`; the match rate is the exact quotient, without
the rounding of `float64`. -/
structure StatisticsResponse where
  TotalTransactions : Nat
  MatchedCount : Nat
  MismatchCount : Nat
  MatchRate : ℚ
  PendingCount : Nat
  UploadedCount : Nat
  deriving DecidableEq

/-- The query `Model(&Transaction{}).Where("status = ?", status).Count(..)`. -/
def DB.countStatus (db : DB) (status : Int) : Nat :=
  (db.transactions.filter fun t => t.Status = status).length

/-- `TransactionService.GetStatistics`: the total is counted under the
institution filter, the four status counts on the whole table. -/
def GetStatistics (db : DB) (institutionID : GoString) : StatisticsResponse :=
  let total :=
    if institutionID ≠ [] then
      (db.transactions.filter fun t => t.InstitutionID = institutionID).length
    else db.transactions.length
  let matched := db.countStatus TxStatusMatched
  { TotalTransactions := total
    MatchedCount := matched
    MismatchCount := db.countStatus TxStatusMismatch
    PendingCount := db.countStatus TxStatusPending
    UploadedCount := db.countStatus TxStatusUploaded
    MatchRate := if total > 0 then (matched : ℚ) / (total : ℚ) * 100 else 0 }

/-! ## Instances for examples: import, clients, statistics -/

/-- The header of the import template. -/
def exampleHeader : List GoString := [colBizID, colAmount, colSender, colReceiver, colTxType]

/-- A workbook whose second data row has an empty amount. -/
def exampleWorkbook : Workbook :=
  .opened [some
    [exampleHeader,
     [bizTX001, [49, 48, 48], [65], [66], [49]],
     [bizTX002, [], [65], [66], [49]],
     [[84, 88, 48, 48, 51], [49, 48, 48], [65], [66], [49]]]]

/-- The institution id `"INST002"`. -/
def institution2 : GoString := [73, 78, 83, 84, 48, 48, 50]

/-- A store with one Pending record of `"INST001"` and two Matched records of
`"INST002"`. -/
def statisticsDB : DB :=
  { transactions :=
      [exampleRecord,
       { exampleRecord with
          ID := 2, BizID := bizTX002, InstitutionID := institution2,
          Status := TxStatusMatched },
       { exampleRecord with
          ID := 3, BizID := [84, 88, 48, 48, 51], InstitutionID := institution2,
          Status := TxStatusMatched }],
    chainReceipts := [], nextID := 4 }

/-- A FISCO client without a contract helper. -/
def clientWithoutHelper : Client :=
  { contractHelper := none, sendTransaction := fun _ => some exampleTxHash }

/-- A FISCO client with a contract helper. -/
def clientWithHelper : Client :=
  { contractHelper := some { packBatch := fun _ _ => some [] },
    sendTransaction := fun _ => some exampleTxHash }

/-- A Fabric client whose chaincode answers. -/
def exampleFabricClient : FabricClient :=
  { Execute := fun _ _ => some (exampleTxHash, some 0) }

/-! ## Auxiliary definitions for the claims on the import -/

/-- The required fields in the order in which `parseRow` reads them: the column
name and the name of the field in the errors. -/
def requiredFields : List (GoString × String) :=
  [(colBizID, "biz_id"), (colAmount, "amount"), (colSender, "sender"), (colReceiver, "receiver")]

/-- A row lacks a field when the column is not in the header, lies beyond the
end of the row, or holds an empty cell. -/
def lacksField (row : List GoString) (colIndexMap : GoString → Option Nat) (col : GoString) :
    Bool :=
  match colIndexMap col with
  | none => true
  | some idx => if idx ≥ row.length then true else if row.getD idx [] = [] then true else false

/-- The cell of a row under a column of the header; empty when the column is
not in the header or lies beyond the end of the row. -/
def cellOf (row : List GoString) (colIndexMap : GoString → Option Nat) (col : GoString) :
    GoString :=
  match colIndexMap col with
  | none => []
  | some idx => row.getD idx []

/-- The map of the header of the import template. -/
def exampleColIndexMap : GoString → Option Nat := fun name => colIndexLoop name 0 exampleHeader none

/-- The rows that the data rows of a sheet yield when none of them fails:
the empty rows are passed over. -/
def parsedRows (colIndexMap : GoString → Option Nat) (rows : List (List GoString)) :
    List ExcelRow :=
  rows.filterMap fun row =>
    if isEmptyRow row then none
    else
      match parseRow row colIndexMap with
      | .ok excelRow => some excelRow
      | .error _ => none

/-- The record of a row with a given transaction type. -/
def rowWith (row : List GoString) (colIndexMap : GoString → Option Nat) (txType : Int) :
    ExcelRow :=
  { BizID := cellOf row colIndexMap colBizID, Amount := cellOf row colIndexMap colAmount,
    Sender := cellOf row colIndexMap colSender, Receiver := cellOf row colIndexMap colReceiver,
    TxType := txType }

/-- A data row of the template with the transaction type `"300"`. -/
def rowWithType300 : List GoString := [bizTX001, [49, 48, 48], [65], [66], [51, 48, 48]]

/-- The ciphertext string that `EncryptAmount` returns for the amount `"100"`
under the key of the examples when the reader delivers sixteen bytes `9`. -/
def exampleCiphertext : GoString :=
  hex.EncodeToString (rawCiphertext exampleAES (List.replicate 16 9) exampleKey [49, 48, 48])

/-! ## Calls of `UploadToChain` that overlap -/

/-- A call of `UploadToChain` after the answer of the ledger gateway and before
its return: what it holds in its local variables, and whether it has made the
insert of the receipt. -/
structure InFlight where
  env : UploadEnv
  tx : Transaction
  contractAddress : GoString
  txHash : GoString
  receiptDone : Bool

/-- The steps 1 to 3 of `UploadToChain`, on the store as it is when the call
loads the transaction: the error it returns, its invocation of the ledger
gateway, and the call in flight when the ledger has accepted the upload. -/
def uploadBegin (env : UploadEnv) (db : DB) (bizId contractAddress : GoString) :
    Option UploadError × List GatewayCall × Option InFlight :=
  match db.First bizId with
  | .error e => (some (.transactionNotFound e), [], none)
  | .ok tx =>
    if tx.Status ≠ TxStatusPending then (some (.invalidTransactionStatus tx.Status), [], none)
    else
      match env.SendTransaction contractAddress tx.BizID tx.DataHash with
      | none =>
        (some .failedToUploadToChain,
          [{ contractAddress := contractAddress, bizId := tx.BizID, dataHash := tx.DataHash,
             txHash := none }], none)
      | some txHash =>
        (none,
          [{ contractAddress := contractAddress, bizId := tx.BizID, dataHash := tx.DataHash,
             txHash := some txHash }],
          some { env := env, tx := tx, contractAddress := contractAddress, txHash := txHash,
                 receiptDone := false })

/-- The steps 4 and 5 of `UploadToChain`, on the store as it is when the call
makes the insert of the receipt; a failure is logged and passed over. -/
def writeReceipt (w : InFlight) (db : DB) : DB :=
  let blockNumber : Int :=
    match w.env.GetBlockNumber with
    | some n => n
    | none => 0
  let receipt : ChainReceipt :=
    { ID := 0
      BizID := w.tx.BizID
      TxHash := w.txHash
      BlockHeight := blockNumber
      BlockHash := []
      ContractAddress := w.contractAddress
      GasUsed := 0
      Status := ChainReceiptStatusSuccess
      CreatedAt := 0 }
  match db.CreateReceipt receipt w.env.now w.env.receiptFault with
  | .ok d => d
  | .error _ => db

/-- The step 6 of `UploadToChain`, on the store as it is when the call makes
the update of the status, by the primary key of the record loaded earlier and
whatever the status then is; a failure is logged and passed over. -/
def writeStatus (w : InFlight) (db : DB) : DB :=
  match db.UpdateStatus w.tx.ID TxStatusUploaded w.env.now w.env.statusFault with
  | .ok d => d
  | .error _ => db

/-- What the service does next when requests run side by side: a request
enters `UploadToChain` and runs up to the answer of the ledger, the `k`-th call
in flight makes its insert of the receipt, or the `k`-th call in flight makes
its update of the status and returns. -/
inductive UploadStep where
  | start (env : UploadEnv) (bizId : GoString)
  | receipt (k : Nat)
  | status (k : Nat)

/-- The store, the calls in flight and the invocations of the ledger gateway
made so far. -/
structure UploadState where
  db : DB
  inFlight : List InFlight
  calls : List GatewayCall

/-- A run of calls of `UploadToChain` whose statements on the store are
interleaved as the list says; nothing in the code keeps a call from starting
while another is in flight.  A step that no call in flight can take is passed
over. -/
def runOverlapping (contractAddress : GoString) : List UploadStep → UploadState → UploadState
  | [], s => s
  | .start env bizId :: rest, s =>
    match uploadBegin env s.db bizId contractAddress with
    | (_, calls, w) =>
      runOverlapping contractAddress rest
        { s with inFlight := s.inFlight ++ w.toList, calls := s.calls ++ calls }
  | .receipt k :: rest, s =>
    match s.inFlight[k]? with
    | none => runOverlapping contractAddress rest s
    | some w =>
      if w.receiptDone then runOverlapping contractAddress rest s
      else
        runOverlapping contractAddress rest
          { s with db := writeReceipt w s.db,
                   inFlight := s.inFlight.set k { w with receiptDone := true } }
  | .status k :: rest, s =>
    match s.inFlight[k]? with
    | none => runOverlapping contractAddress rest s
    | some w =>
      if w.receiptDone then
        runOverlapping contractAddress rest
          { s with db := writeStatus w s.db, inFlight := s.inFlight.eraseIdx k }
      else runOverlapping contractAddress rest s

/-- The steps of calls that run one after another: each call returns before
the next one starts. -/
def oneByOne : (Nat → UploadEnv) → List GoString → List UploadStep
  | _, [] => []
  | envs, bizId :: rest =>
    .start (envs 0) bizId :: .receipt 0 :: .status 0 :: oneByOne (fun i => envs (i + 1)) rest

/-- The calls of a sequence of requests run one after another, from a store
with no call in flight. -/
def runOneByOne (contractAddress : GoString) (envs : Nat → UploadEnv) (db : DB)
    (ops : List UploadOp) : UploadState :=
  runOverlapping contractAddress (oneByOne envs (ops.flatMap UploadOp.ids))
    { db := db, inFlight := [], calls := [] }

/-- Two requests for `"TX001"` of which the second starts before the first has
written. -/
def overlappingUploads : List UploadStep :=
  [.start goodUpload bizTX001, .start goodUpload bizTX001, .receipt 0, .status 0, .receipt 0,
    .status 0]

/-! ## The wording of the specification: lowercase hexadecimal -/

/-- The lowercase hexadecimal digit of a value below sixteen:
`'0'`..`'9'` for 0..9 and `'a'`..`'f'` for 10..15. -/
def lowerHexDigit (d : Nat) : Byte :=
  if d < 10 then Fin.ofNat (48 + d) else Fin.ofNat (97 + (d - 10))

/-- The lowercase hexadecimal encoding of a byte string: two digits per byte,
the high nibble first. -/
def lowerHexEncoding (bs : List Byte) : GoString :=
  bs.flatMap fun b => [lowerHexDigit (b.val / 16), lowerHexDigit (b.val % 16)]

/-- A character in `0-9a-f`. -/
def isLowerHexChar (c : Byte) : Prop :=
  (48 ≤ c.val ∧ c.val ≤ 57) ∨ (97 ≤ c.val ∧ c.val ≤ 102)

instance (c : Byte) : Decidable (isLowerHexChar c) := by
  unfold isLowerHexChar; infer_instance

/-! # Theorems -/

/-! ## Lemmas on `encoding/hex` -/

set_option maxRecDepth 100000 in
theorem hex_pair_eq_lower (v : Byte) :
    hex.hextableAt (v.val >>> 4) = lowerHexDigit (v.val / 16) ∧
    hex.hextableAt (v.val &&& 0x0f) = lowerHexDigit (v.val % 16) := by
  revert v; decide

theorem EncodeToString_eq_lowerHexEncoding (bs : List Byte) :
    hex.EncodeToString bs = lowerHexEncoding bs := by
  induction bs with
  | nil => rfl
  | cons v rest ih =>
    simp only [hex.EncodeToString, lowerHexEncoding, List.flatMap_cons, List.cons_append,
      List.nil_append]
    rw [(hex_pair_eq_lower v).1, (hex_pair_eq_lower v).2, ih]
    rfl

theorem EncodeToString_length (bs : List Byte) :
    (hex.EncodeToString bs).length = 2 * bs.length := by
  induction bs with
  | nil => rfl
  | cons v rest ih => simp only [hex.EncodeToString, List.length_cons, ih]; omega

set_option maxRecDepth 100000 in
theorem hextableAt_lower (v : Byte) :
    isLowerHexChar (hex.hextableAt (v.val >>> 4)) ∧
    isLowerHexChar (hex.hextableAt (v.val &&& 0x0f)) := by
  revert v; decide

theorem EncodeToString_chars (bs : List Byte) :
    ∀ c ∈ hex.EncodeToString bs, isLowerHexChar c := by
  induction bs with
  | nil => intro c hc; simp [hex.EncodeToString] at hc
  | cons v rest ih =>
    intro c hc
    simp only [hex.EncodeToString, List.mem_cons] at hc
    rcases hc with h | h | h
    · rw [h]; exact (hextableAt_lower v).1
    · rw [h]; exact (hextableAt_lower v).2
    · exact ih c h

/-! ## Lemmas on padding and block chaining -/

theorem bxor_cancel (a b : Byte) : (a ^^^ b) ^^^ b = a := by
  apply Fin.ext
  show ((a.val ^^^ b.val) % 256 ^^^ b.val) % 256 = a.val
  have h1 : a.val ^^^ b.val < 256 := Nat.xor_lt_two_pow (n := 8) a.isLt b.isLt
  rw [Nat.mod_eq_of_lt h1, Nat.xor_assoc, Nat.xor_self, Nat.xor_zero]
  exact Nat.mod_eq_of_lt a.isLt

set_option maxRecDepth 100000 in
theorem decode_pair (v : Byte) :
    ¬ hex.reverseHexTable (hex.hextableAt (v.val >>> 4)) > 0x0f ∧
    ¬ hex.reverseHexTable (hex.hextableAt (v.val &&& 0x0f)) > 0x0f ∧
    (Fin.ofNat ((hex.reverseHexTable (hex.hextableAt (v.val >>> 4)) <<< 4) |||
      hex.reverseHexTable (hex.hextableAt (v.val &&& 0x0f))) : Byte) = v := by
  revert v; decide

theorem DecodeString_EncodeToString (bs : List Byte) :
    hex.DecodeString (hex.EncodeToString bs) = .ok bs := by
  induction bs with
  | nil => rfl
  | cons v rest ih =>
    obtain ⟨h1, h2, h3⟩ := decode_pair v
    simp only [hex.EncodeToString, hex.DecodeString, if_neg h1, if_neg h2, ih, h3]

theorem pad_amount (n : Nat) : 1 ≤ 16 - n % 16 ∧ 16 - n % 16 ≤ 16 := by
  have := Nat.mod_lt n (show 16 > 0 by decide); omega

theorem pkcs7Pad_eq (x : List Byte) :
    pkcs7Pad x 16 = x ++ List.replicate (16 - x.length % 16) (Fin.ofNat (16 - x.length % 16)) := rfl

theorem pkcs7Pad_length (x : List Byte) :
    (pkcs7Pad x 16).length = x.length + (16 - x.length % 16) := by
  simp [pkcs7Pad_eq]

theorem pkcs7Pad_length_mod (x : List Byte) : (pkcs7Pad x 16).length % 16 = 0 := by
  rw [pkcs7Pad_length]; have := Nat.mod_lt x.length (show 16 > 0 by decide); omega

theorem ofNat_val_small (p : Nat) (h : p ≤ 16) : ((Fin.ofNat p : Byte)).val = p := by
  show p % 256 = p
  omega

theorem pkcs7Unpad_append (x : List Byte) (p : Nat) (h1 : 1 ≤ p) (h16 : p ≤ 16) :
    pkcs7Unpad (x ++ List.replicate p (Fin.ofNat p)) 16 = .ok x := by
  have hv := ofNat_val_small p h16
  have hlen : (x ++ List.replicate p (Fin.ofNat p : Byte)).length = x.length + p := by simp
  have hlast : (x ++ List.replicate p (Fin.ofNat p : Byte)).getD (x.length + p - 1) 0
      = Fin.ofNat p := by
    rw [List.getD_eq_getElem?_getD, List.getElem?_append_right (by omega)]
    rw [List.getElem?_replicate]
    rw [if_pos (by omega)]
    rfl
  unfold pkcs7Unpad
  rw [hlen, hlast, hv]
  have e1 : ¬ (x.length + p = 0) := by omega
  have e2 : ¬ (p > 16 ∨ p > x.length + p) := by omega
  rw [if_neg e1]
  simp only [e2, if_false]
  have e3 : x.length + p - p = x.length := by omega
  rw [e3]
  simp [hv]

theorem pkcs7Unpad_pkcs7Pad (x : List Byte) : pkcs7Unpad (pkcs7Pad x 16) 16 = .ok x := by
  rw [pkcs7Pad_eq]
  exact pkcs7Unpad_append x _ (pad_amount x.length).1 (pad_amount x.length).2

theorem XORBytes_length (x y : List Byte) (h : x.length = y.length) :
    (XORBytes x y).length = x.length := by
  simp [XORBytes, h]

theorem XORBytes_cancel : ∀ (x y : List Byte), x.length = y.length →
    XORBytes (XORBytes x y) y = x
  | [], [], _ => rfl
  | [], _ :: _, h => by simp at h
  | _ :: _, [], h => by simp at h
  | a :: x, b :: y, h => by
    have ih := XORBytes_cancel x y (by simpa using h)
    simp only [XORBytes, List.zipWith_cons_cons] at ih ⊢
    rw [ih, bxor_cancel]

theorem take_block_length (src : List Byte) (n : Nat) (h : src.length = 16 * (n + 1)) :
    (src.take aes.BlockSize).length = 16 ∧ (src.drop aes.BlockSize).length = 16 * n := by
  simp only [aes.BlockSize, List.length_take, List.length_drop]; omega

theorem cbcEncryptLoop_length (b : Block)
    (hE : ∀ x, x.length = 16 → (b.Encrypt x).length = 16) :
    ∀ (n : Nat) (iv src : List Byte), iv.length = 16 → src.length = 16 * n →
      (cbcEncryptLoop b n iv src).length = 16 * n
  | 0, _, _, _, _ => rfl
  | n + 1, iv, src, hiv, hsrc => by
    obtain ⟨ht, hd⟩ := take_block_length src n hsrc
    have hx : (XORBytes (src.take aes.BlockSize) iv).length = 16 := by
      rw [XORBytes_length _ _ (by rw [ht, hiv]), ht]
    have hc := hE _ hx
    simp only [cbcEncryptLoop, List.length_append, hc,
      cbcEncryptLoop_length b hE n _ _ hc hd]
    omega

theorem cbcDecryptLoop_cbcEncryptLoop (b : Block)
    (hE : ∀ x, x.length = 16 → (b.Encrypt x).length = 16)
    (hDE : ∀ x, x.length = 16 → b.Decrypt (b.Encrypt x) = x) :
    ∀ (n : Nat) (iv src : List Byte), iv.length = 16 → src.length = 16 * n →
      cbcDecryptLoop b n iv (cbcEncryptLoop b n iv src) = src
  | 0, _, src, _, hsrc => by
    have : src = [] := List.eq_nil_of_length_eq_zero (by omega)
    simp [cbcDecryptLoop, this]
  | n + 1, iv, src, hiv, hsrc => by
    obtain ⟨ht, hd⟩ := take_block_length src n hsrc
    have hx : (XORBytes (src.take aes.BlockSize) iv).length = 16 := by
      rw [XORBytes_length _ _ (by rw [ht, hiv]), ht]
    have hc := hE _ hx
    have hc' : (b.Encrypt (XORBytes (src.take aes.BlockSize) iv)).length = aes.BlockSize := hc
    simp only [cbcEncryptLoop, cbcDecryptLoop]
    rw [List.take_left' hc', List.drop_left' hc', hDE _ hx,
      XORBytes_cancel _ _ (by rw [ht, hiv]),
      cbcDecryptLoop_cbcEncryptLoop b hE hDE n _ _ hc hd, List.take_append_drop]

theorem NewCipher_32 (A : AES) (key : List Byte) (hk : key.length = 32) :
    aes.NewCipher A key = .ok (blockOf A key) := by
  simp [aes.NewCipher, hk, blockOf]

theorem EncryptAmount_eq (A : AES) (reader key plaintext : List Byte)
    (hk : key.length = 32) (hr : 16 ≤ reader.length) :
    EncryptAmount A reader key plaintext =
      .ok (hex.EncodeToString (rawCiphertext A (reader.take 16) key plaintext)) := by
  have hiv : (reader.take 16).length = 16 := by simp [List.length_take]; omega
  have hp := pkcs7Pad_length_mod plaintext
  simp only [EncryptAmount, hk, ne_eq, not_true_eq_false, if_false, NewCipher_32 A key hk,
    ReadFull, aes.BlockSize, hr, if_true, CBCEncrypter_CryptBlocks, hiv, hp, rawCiphertext]

theorem pad_length_eq (x : List Byte) :
    (pkcs7Pad x 16).length = 16 * ((pkcs7Pad x 16).length / 16) := by
  have := pkcs7Pad_length_mod x
  omega

theorem rawCiphertext_length (A : AES) (hA : A.Lawful) (iv key plaintext : List Byte)
    (hk : key.length = 32) (hiv : iv.length = 16) :
    (rawCiphertext A iv key plaintext).length = 16 + (pkcs7Pad plaintext 16).length := by
  unfold rawCiphertext
  rw [List.length_append, hiv, cbcEncryptLoop_length (blockOf A key)
    (fun x hx => hA.encrypt_length key x hk hx) _ iv _ hiv (pad_length_eq plaintext)]
  rw [← pad_length_eq]

theorem DecryptAmount_raw (A : AES) (hA : A.Lawful) (iv key plaintext : List Byte)
    (hk : key.length = 32) (hiv : iv.length = 16) :
    DecryptAmount A key (hex.EncodeToString (rawCiphertext A iv key plaintext)) =
      .ok plaintext := by
  have hlen := rawCiphertext_length A hA iv key plaintext hk hiv
  have hp := pkcs7Pad_length_mod plaintext
  have hcl := cbcEncryptLoop_length (blockOf A key)
    (fun x hx => hA.encrypt_length key x hk hx) _ iv _ hiv (pad_length_eq plaintext)
  have htake : (rawCiphertext A iv key plaintext).take 16 = iv := by
    unfold rawCiphertext; exact List.take_left' hiv
  have hdrop : (rawCiphertext A iv key plaintext).drop 16 =
      cbcEncryptLoop (blockOf A key) ((pkcs7Pad plaintext 16).length / 16) iv
        (pkcs7Pad plaintext 16) := by
    unfold rawCiphertext; exact List.drop_left' hiv
  have h1 : ¬ ((rawCiphertext A iv key plaintext).length % 16 ≠ 0) := by omega
  have h2 : ¬ ((rawCiphertext A iv key plaintext).length < 16) := by omega
  simp only [DecryptAmount, hk, ne_eq, not_true_eq_false, if_false,
    DecodeString_EncodeToString, NewCipher_32 A key hk, aes.BlockSize]
  rw [if_neg h1, if_neg h2]
  simp only [htake, hdrop, CBCDecrypter_CryptBlocks, aes.BlockSize, hiv, ne_eq,
    not_true_eq_false, if_false, hcl]
  have h3 : ¬ ¬ (16 * ((pkcs7Pad plaintext 16).length / 16) % 16 = 0) := by omega
  rw [if_neg h3]
  have h4 : 16 * ((pkcs7Pad plaintext 16).length / 16) / 16 = (pkcs7Pad plaintext 16).length / 16 := by
    omega
  rw [h4, cbcDecryptLoop_cbcEncryptLoop (blockOf A key)
    (fun x hx => hA.encrypt_length key x hk hx)
    (fun x hx => hA.decrypt_encrypt key x hk hx) _ iv _ hiv (pad_length_eq plaintext)]
  simp only [pkcs7Unpad_pkcs7Pad]

theorem cbcDecryptLoop_length (b : Block)
    (hD : ∀ x, x.length = 16 → (b.Decrypt x).length = 16) :
    ∀ (n : Nat) (iv src : List Byte), iv.length = 16 → src.length = 16 * n →
      (cbcDecryptLoop b n iv src).length = 16 * n
  | 0, _, _, _, _ => rfl
  | n + 1, iv, src, hiv, hsrc => by
    obtain ⟨ht, hd⟩ := take_block_length src n hsrc
    have hx : (XORBytes (b.Decrypt (src.take aes.BlockSize)) iv).length = 16 := by
      rw [XORBytes_length _ _ (by rw [hD _ ht, hiv]), hD _ ht]
    simp only [cbcDecryptLoop, List.length_append, hx,
      cbcDecryptLoop_length b hD n _ _ ht hd]
    omega

theorem cbcEncryptLoop_cbcDecryptLoop (b : Block)
    (hD : ∀ x, x.length = 16 → (b.Decrypt x).length = 16)
    (hED : ∀ x, x.length = 16 → b.Encrypt (b.Decrypt x) = x) :
    ∀ (n : Nat) (iv src : List Byte), iv.length = 16 → src.length = 16 * n →
      cbcEncryptLoop b n iv (cbcDecryptLoop b n iv src) = src
  | 0, _, src, _, hsrc => by
    have : src = [] := List.eq_nil_of_length_eq_zero (by omega)
    simp [cbcEncryptLoop, this]
  | n + 1, iv, src, hiv, hsrc => by
    obtain ⟨ht, hd⟩ := take_block_length src n hsrc
    have hd16 := hD _ ht
    have hx : (XORBytes (b.Decrypt (src.take aes.BlockSize)) iv).length = aes.BlockSize := by
      rw [XORBytes_length _ _ (by rw [hd16, hiv]), hd16]; rfl
    simp only [cbcEncryptLoop, cbcDecryptLoop]
    rw [List.take_left' hx, List.drop_left' hx,
      XORBytes_cancel _ _ (by rw [hd16, hiv]), hED _ ht,
      cbcEncryptLoop_cbcDecryptLoop b hD hED n _ _ ht hd, List.take_append_drop]

theorem pkcs7Unpad_error (d : List Byte) (bs : Nat) (e : Error)
    (h : pkcs7Unpad d bs = .error e) : e = .ErrInvalidPKCSData := by
  unfold pkcs7Unpad at h
  split at h
  · cases h; rfl
  · simp only at h
    split at h
    · cases h; rfl
    · split at h
      · cases h
      · cases h; rfl

theorem eq_replicate_of_all_val (l : List Byte) (p : Nat) (hp : p < 256)
    (h : l.all (fun b => b.val == p) = true) :
    l = List.replicate l.length (Fin.ofNat p) := by
  induction l with
  | nil => rfl
  | cons a l ih =>
    simp only [List.all_cons, Bool.and_eq_true, beq_iff_eq] at h
    have ha : a = Fin.ofNat p := by
      apply Fin.ext
      show a.val = p % 256
      rw [Nat.mod_eq_of_lt hp]; exact h.1
    rw [List.length_cons, List.replicate_succ, ← ih h.2, ha]

theorem pkcs7Unpad_ok (d x : List Byte) (bs : Nat) (h : pkcs7Unpad d bs = .ok x) :
    ∃ p, p ≤ bs ∧ p ≤ d.length ∧ p < 256 ∧ x = d.take (d.length - p) ∧
      d = x ++ List.replicate p (Fin.ofNat p) := by
  unfold pkcs7Unpad at h
  split at h
  · cases h
  · simp only at h
    split at h
    · cases h
    · rename_i hle
      split at h
      · rename_i hall
        refine ⟨(d.getD (d.length - 1) 0).val, by omega, by omega, (d.getD _ 0).isLt, ?_, ?_⟩
        · cases h; rfl
        · have hx : x = d.take (d.length - (d.getD (d.length - 1) 0).val) := by cases h; rfl
          have hr := eq_replicate_of_all_val _ _ (d.getD (d.length - 1) 0).isLt hall
          rw [List.length_drop] at hr
          have e : d.length - (d.length - (d.getD (d.length - 1) 0).val) =
              (d.getD (d.length - 1) 0).val := by omega
          rw [e] at hr
          rw [hx, ← hr, List.take_append_drop]
      · cases h

theorem pkcs7Unpad_ok_aligned (d x : List Byte) (h : pkcs7Unpad d 16 = .ok x)
    (hl : d.length = (pkcs7Pad x 16).length) : d = pkcs7Pad x 16 := by
  obtain ⟨p, _, _, _, hx, hd⟩ := pkcs7Unpad_ok d x 16 h
  have h1 : d.length = x.length + p := by
    conv_lhs => rw [hd]
    simp
  rw [pkcs7Pad_length] at hl
  have hp : p = 16 - x.length % 16 := by omega
  rw [pkcs7Pad_eq, ← hp]; exact hd

theorem setLast_length (l : List Byte) (b : Byte) (h : 0 < l.length) :
    (setLast l b).length = l.length := by
  simp [setLast]; omega

theorem setLast_take (l : List Byte) (b : Byte) (k : Nat) (h : k < l.length) :
    (setLast l b).take k = l.take k := by
  unfold setLast
  rw [List.take_append_of_le_length (by simp; omega), List.dropLast_eq_take, List.take_take]
  congr 1; omega

theorem setLast_ne (l : List Byte) (b : Byte) (h : l.getLast? ≠ some b) : setLast l b ≠ l := by
  intro e
  apply h
  rw [← e, setLast]
  simp

theorem DecryptAmount_modified (A : AES) (hA : A.Lawful) (iv key plaintext : List Byte)
    (hk : key.length = 32) (hiv : iv.length = 16) (raw' c' : List Byte)
    (hl : raw'.length = (rawCiphertext A iv key plaintext).length)
    (ht : raw'.take 16 = iv) (hne : raw' ≠ rawCiphertext A iv key plaintext)
    (hc : hex.DecodeString c' = .ok raw') :
    DecryptAmount A key c' = .error (.failedToUnpad .ErrInvalidPKCSData) ∨
      ∃ p, DecryptAmount A key c' = .ok p ∧ p ≠ plaintext := by
  have hlen := rawCiphertext_length A hA iv key plaintext hk hiv
  have hp := pkcs7Pad_length_mod plaintext
  have hpe := pad_length_eq plaintext
  have h1 : ¬ (raw'.length % 16 ≠ 0) := by omega
  have h2 : ¬ (raw'.length < 16) := by omega
  have hdl : (raw'.drop 16).length = 16 * ((pkcs7Pad plaintext 16).length / 16) := by
    rw [List.length_drop]; omega
  have h3 : ¬ ¬ ((raw'.drop 16).length % 16 = 0) := by omega
  have h4 : (raw'.drop 16).length / 16 = (pkcs7Pad plaintext 16).length / 16 := by omega
  simp only [DecryptAmount, hk, ne_eq, not_true_eq_false, if_false, hc,
    NewCipher_32 A key hk, aes.BlockSize]
  rw [if_neg h1, if_neg h2]
  simp only [ht, CBCDecrypter_CryptBlocks, aes.BlockSize, hiv, ne_eq, not_true_eq_false,
    if_false]
  rw [if_neg h3, h4]
  simp only []
  cases hu : pkcs7Unpad (cbcDecryptLoop (blockOf A key) ((pkcs7Pad plaintext 16).length / 16) iv
      (raw'.drop 16)) 16 with
  | error e =>
    left
    rw [pkcs7Unpad_error _ _ _ hu]
  | ok p =>
    right
    refine ⟨p, rfl, ?_⟩
    intro hpp
    subst hpp
    have hD := cbcDecryptLoop_length (blockOf A key)
      (fun x hx => hA.decrypt_length key x hk hx) _ iv _ hiv hdl
    have hpad := pkcs7Unpad_ok_aligned _ _ hu (by rw [hD]; exact hpe.symm)
    have hinv := cbcEncryptLoop_cbcDecryptLoop (blockOf A key)
      (fun x hx => hA.decrypt_length key x hk hx)
      (fun x hx => hA.encrypt_decrypt key x hk hx) _ iv _ hiv hdl
    rw [hpad] at hinv
    apply hne
    rw [← List.take_append_drop 16 raw', ht, ← hinv]
    rfl

theorem DecryptAmount_setLast (A : AES) (hA : A.Lawful) (iv key plaintext : List Byte)
    (hk : key.length = 32) (hiv : iv.length = 16) (b : Byte) (c' : GoString)
    (hb : (rawCiphertext A iv key plaintext).getLast? ≠ some b)
    (hc : hex.DecodeString c' = .ok (setLast (rawCiphertext A iv key plaintext) b)) :
    DecryptAmount A key c' = .error (.failedToUnpad .ErrInvalidPKCSData) ∨
      ∃ p, DecryptAmount A key c' = .ok p ∧ p ≠ plaintext := by
  have hlen := rawCiphertext_length A hA iv key plaintext hk hiv
  have hpl := pkcs7Pad_length plaintext
  have hpa := pad_amount plaintext.length
  refine DecryptAmount_modified A hA iv key plaintext hk hiv _ c'
    (setLast_length _ b (by omega)) ?_ (setLast_ne _ b hb) hc
  rw [setLast_take _ b 16 (by omega)]
  unfold rawCiphertext
  exact List.take_left' hiv

theorem exampleAES_lawful : exampleAES.Lawful where
  encrypt_length k b _ hb := by simp [exampleAES, hb]
  decrypt_length k b _ hb := by simp [exampleAES, hb]
  decrypt_encrypt k b _ _ := by
    simp only [exampleAES, List.map_map]
    conv_rhs => rw [← List.map_id b]
    congr 1
    funext x
    simp
  encrypt_decrypt k b _ _ := by
    simp only [exampleAES, List.map_map]
    conv_rhs => rw [← List.map_id b]
    congr 1
    funext x
    simp

theorem EncodeToString_injective (a b : List Byte)
    (h : hex.EncodeToString a = hex.EncodeToString b) : a = b := by
  have ha := DecodeString_EncodeToString a
  rw [h, DecodeString_EncodeToString] at ha
  cases ha
  rfl

/-! ## The claims on the commitment generator -/

/-- C1: `CalculateDataHash(bizId, amount, salt)` is the lowercase hexadecimal
encoding of the SHA-256 digest of the byte string `bizId ++ amount ++ salt`;
it has exactly 64 characters and each of them lies in `0-9a-f`.  Being a
function of its three arguments only, it returns the same value on the same
inputs. -/
theorem CalculateDataHash_lowercase_hex_of_digest (H : Sha256) (bizId amount salt : GoString) :
    CalculateDataHash H bizId amount salt
        = lowerHexEncoding (H.Sum256 (bizId ++ amount ++ salt)) ∧
      (CalculateDataHash H bizId amount salt).length = 64 ∧
      ∀ c ∈ CalculateDataHash H bizId amount salt, isLowerHexChar c := by
  refine ⟨?_, ?_, ?_⟩
  · simp only [CalculateDataHash, Sprintf3, EncodeToString_eq_lowerHexEncoding]
  · simp only [CalculateDataHash, EncodeToString_length, H.size]
  · exact EncodeToString_chars _

/-- C2: `VerifyDataHash(bizId, amount, salt, expectedHash)` is true exactly
when `expectedHash` equals `CalculateDataHash(bizId, amount, salt)`, and so it
is true on the hash that `CalculateDataHash` returns for the same fields. -/
theorem VerifyDataHash_iff (H : Sha256) (bizId amount salt expectedHash : GoString) :
    (VerifyDataHash H bizId amount salt expectedHash = true ↔
        expectedHash = CalculateDataHash H bizId amount salt) ∧
      VerifyDataHash H bizId amount salt (CalculateDataHash H bizId amount salt) = true := by
  constructor
  · simp only [VerifyDataHash, beq_iff_eq]
    exact ⟨fun h => h.symm, fun h => h.symm⟩
  · simp only [VerifyDataHash, beq_self_eq_true]

/-- C3: for a 32-byte key, any plaintext and any initialization vector drawn
from a reader that delivers 16 bytes, `EncryptAmount` succeeds and
`DecryptAmount` under the same key returns exactly the plaintext, the block
decryption being the inverse of the block encryption. -/
theorem DecryptAmount_EncryptAmount (A : AES) (hA : A.Lawful) (reader key plaintext : GoString)
    (hk : key.length = 32) (hr : 16 ≤ reader.length) :
    ∃ c, EncryptAmount A reader key plaintext = .ok c ∧
      DecryptAmount A key c = .ok plaintext := by
  have hiv : (reader.take 16).length = 16 := by simp only [List.length_take]; omega
  exact ⟨_, EncryptAmount_eq A reader key plaintext hk hr,
    DecryptAmount_raw A hA (reader.take 16) key plaintext hk hiv⟩

/-- Witness of C3: the example cipher, a 32-byte key and the plaintext `"100"`. -/
theorem DecryptAmount_EncryptAmount_witness :
    ∃ c, EncryptAmount exampleAES (List.replicate 16 9) exampleKey [49, 48, 48] = .ok c ∧
      DecryptAmount exampleAES exampleKey c = .ok [49, 48, 48] :=
  DecryptAmount_EncryptAmount exampleAES exampleAES_lawful (List.replicate 16 9) exampleKey
    [49, 48, 48] (by decide) (by decide)

/-- C4: with a 32-byte key the string returned by `EncryptAmount` is the
hexadecimal encoding of the 16-byte initialization vector followed by the CBC
cipher blocks of the padded plaintext, and two calls on the same key and
plaintext that draw different initialization vectors return different
strings. -/
theorem EncryptAmount_encoding_and_iv (A : AES) (reader₁ reader₂ key plaintext : GoString)
    (hk : key.length = 32) (h₁ : 16 ≤ reader₁.length) (h₂ : 16 ≤ reader₂.length) :
    (∃ blocks, (reader₁.take 16).length = 16 ∧
        CBCEncrypter_CryptBlocks (blockOf A key) (reader₁.take 16) (pkcs7Pad plaintext 16)
          = some blocks ∧
        EncryptAmount A reader₁ key plaintext
          = .ok (hex.EncodeToString (reader₁.take 16 ++ blocks))) ∧
      (reader₁.take 16 ≠ reader₂.take 16 →
        EncryptAmount A reader₁ key plaintext ≠ EncryptAmount A reader₂ key plaintext) := by
  have hiv₁ : (reader₁.take 16).length = 16 := by simp only [List.length_take]; omega
  have hiv₂ : (reader₂.take 16).length = 16 := by simp only [List.length_take]; omega
  constructor
  · refine ⟨_, hiv₁, ?_, EncryptAmount_eq A reader₁ key plaintext hk h₁⟩
    simp only [CBCEncrypter_CryptBlocks, aes.BlockSize, hiv₁, pkcs7Pad_length_mod, ne_eq,
      not_true_eq_false, if_false]
  · intro hne heq
    rw [EncryptAmount_eq A reader₁ key plaintext hk h₁,
      EncryptAmount_eq A reader₂ key plaintext hk h₂] at heq
    have h := EncodeToString_injective _ _ (Res.ok.inj heq)
    unfold rawCiphertext at h
    exact hne (List.append_inj_left h (by rw [hiv₁, hiv₂]))

/-- Witness of C4: two readers whose first sixteen bytes differ. -/
theorem EncryptAmount_encoding_and_iv_witness :
    EncryptAmount exampleAES (List.replicate 16 9) exampleKey [49, 48, 48] ≠
      EncryptAmount exampleAES (List.replicate 16 8) exampleKey [49, 48, 48] :=
  (EncryptAmount_encoding_and_iv exampleAES (List.replicate 16 9) (List.replicate 16 8)
    exampleKey [49, 48, 48] (by decide) (by decide) (by decide)).2 (by decide)

/-- On the bytes that a ciphertext string encodes: let `c` be produced by
`EncryptAmount` under a 32-byte key, and let `c'` be any hexadecimal string
for the bytes of `c` with the last byte changed to another value.  Then
`DecryptAmount` on `c'` either fails with the padding error or returns a
string different from the plaintext. -/
theorem DecryptAmount_last_byte_changed (A : AES) (hA : A.Lawful)
    (reader key plaintext c raw c' : GoString) (b : Byte)
    (hk : key.length = 32) (hr : 16 ≤ reader.length)
    (hc : EncryptAmount A reader key plaintext = .ok c)
    (hraw : hex.DecodeString c = .ok raw)
    (hb : raw.getLast? ≠ some b)
    (hc' : hex.DecodeString c' = .ok (setLast raw b)) :
    (DecryptAmount A key c' = .error (.failedToUnpad .ErrInvalidPKCSData) ∨
        ∃ p, DecryptAmount A key c' = .ok p ∧ p ≠ plaintext) ∧
      DecryptAmount A key c' ≠ .ok plaintext := by
  have hiv : (reader.take 16).length = 16 := by simp only [List.length_take]; omega
  rw [EncryptAmount_eq A reader key plaintext hk hr] at hc
  have hce := Res.ok.inj hc
  rw [← hce, DecodeString_EncodeToString] at hraw
  have hre : rawCiphertext A (reader.take 16) key plaintext = raw := by cases hraw; rfl
  rw [← hre] at hb hc'
  have h := DecryptAmount_setLast A hA (reader.take 16) key plaintext hk hiv b c' hb hc'
  refine ⟨h, ?_⟩
  rcases h with h | ⟨p, hp, hne⟩
  · rw [h]; intro e; cases e
  · rw [hp]; intro e; exact hne (Res.ok.inj e)

/-- An instance: the last ciphertext byte of an encryption of `"100"` set to zero. -/
theorem DecryptAmount_last_byte_changed_witness :
    DecryptAmount exampleAES exampleKey
        (hex.EncodeToString
          (setLast (rawCiphertext exampleAES (List.replicate 16 9) exampleKey [49, 48, 48]) 0))
      ≠ .ok [49, 48, 48] :=
  (DecryptAmount_last_byte_changed exampleAES exampleAES_lawful (List.replicate 16 9)
    exampleKey [49, 48, 48]
    (hex.EncodeToString (rawCiphertext exampleAES (List.replicate 16 9) exampleKey [49, 48, 48]))
    (rawCiphertext exampleAES (List.replicate 16 9) exampleKey [49, 48, 48])
    (hex.EncodeToString
      (setLast (rawCiphertext exampleAES (List.replicate 16 9) exampleKey [49, 48, 48]) 0))
    0 (by decide) (by decide)
    (EncryptAmount_eq exampleAES (List.replicate 16 9) exampleKey [49, 48, 48] (by decide)
      (by decide))
    (DecodeString_EncodeToString _) (by decide) (DecodeString_EncodeToString _)).2

/-- C6 (the code differs): `pkcs7Unpad` accepts a block of sixteen zero bytes
and returns it whole, and `DecryptAmount` returns sixteen zero bytes for a
ciphertext that decrypts to them, although no `pkcs7Pad(x, 16)` ends in a zero
byte: a padding length of zero passes both range checks and the check loop
runs over no byte. -/
theorem pkcs7Unpad_accepts_zero_padding :
    pkcs7Unpad (List.replicate 16 0) 16 = .ok (List.replicate 16 0) ∧
      DecryptAmount exampleAES exampleKey
        (hex.EncodeToString (List.replicate 16 0 ++ List.replicate 16 7))
        = .ok (List.replicate 16 0) ∧
      ∀ x : List Byte, pkcs7Pad x 16 ≠ List.replicate 16 0 := by
  refine ⟨rfl, rfl, ?_⟩
  intro x h
  have hl := congrArg List.getLast? h
  rw [pkcs7Pad_eq] at hl
  have hp := pad_amount x.length
  obtain ⟨m, hm⟩ : ∃ m, 16 - x.length % 16 = m + 1 := ⟨16 - x.length % 16 - 1, by omega⟩
  rw [hm, List.replicate_succ', ← List.append_assoc, List.getLast?_concat] at hl
  have hv : ((Fin.ofNat (m + 1) : Byte)).val = m + 1 := ofNat_val_small _ (by omega)
  have h0 : (List.replicate 16 (0 : Byte)).getLast? = some 0 := by decide
  rw [h0] at hl
  have := congrArg (fun o : Option Byte => o.map Fin.val) hl
  simp only [Option.map_some', hv] at this
  cases this

/-- C7: with a key whose length is not 32 bytes both `EncryptAmount` and
`DecryptAmount` fail with the key-length error whatever the other arguments
are, and with a 32-byte key neither fails on the key: not with the key-length
error and not in the construction of the cipher. -/
theorem key_length_check (A : AES) (reader key plaintext ciphertextHex : GoString) :
    (key.length ≠ 32 →
        EncryptAmount A reader key plaintext = .error .keyMustBe32Bytes ∧
        DecryptAmount A key ciphertextHex = .error .keyMustBe32Bytes) ∧
      (key.length = 32 →
        EncryptAmount A reader key plaintext ≠ .error .keyMustBe32Bytes ∧
        DecryptAmount A key ciphertextHex ≠ .error .keyMustBe32Bytes ∧
        ∀ n, EncryptAmount A reader key plaintext ≠ .error (.failedToCreateCipher n) ∧
          DecryptAmount A key ciphertextHex ≠ .error (.failedToCreateCipher n)) := by
  constructor
  · intro hk
    simp only [EncryptAmount, DecryptAmount, hk, ne_eq, not_false_eq_true, if_true, and_self]
  · intro hk
    have hE : ∀ e, EncryptAmount A reader key plaintext = .error e → e = .failedToGenerateIV := by
      intro e h
      simp only [EncryptAmount, hk, ne_eq, not_true_eq_false, if_false,
        NewCipher_32 A key hk] at h
      split at h
      · cases h; rfl
      · split at h <;> cases h
    have hD : ∀ e, DecryptAmount A key ciphertextHex = .error e →
        (∃ d, e = .failedToDecodeHex d) ∨ e = .ErrInvalidBlockSize ∨ ∃ u, e = .failedToUnpad u := by
      intro e h
      simp only [DecryptAmount, hk, ne_eq, not_true_eq_false, if_false,
        NewCipher_32 A key hk] at h
      split at h
      · cases h; exact Or.inl ⟨_, rfl⟩
      · split at h
        · cases h; exact Or.inr (Or.inl rfl)
        · split at h
          · cases h
          · split at h
            · cases h
            · split at h
              · cases h; exact Or.inr (Or.inr ⟨_, rfl⟩)
              · cases h
    refine ⟨fun h => ?_, fun h => ?_, fun n => ⟨fun h => ?_, fun h => ?_⟩⟩
    · cases hE _ h
    · rcases hD _ h with ⟨d, e⟩ | e | ⟨u, e⟩ <;> cases e
    · cases hE _ h
    · rcases hD _ h with ⟨d, e⟩ | e | ⟨u, e⟩ <;> cases e

/-- Witness of C7: a 5-byte key is refused by both functions, and the 32-byte
example key is not refused for its length. -/
theorem key_length_check_witness :
    (EncryptAmount exampleAES [] bizTX001 [49] = .error .keyMustBe32Bytes ∧
        DecryptAmount exampleAES bizTX001 [] = .error .keyMustBe32Bytes) ∧
      (EncryptAmount exampleAES [] exampleKey [49] ≠ .error .keyMustBe32Bytes ∧
        DecryptAmount exampleAES exampleKey [48] ≠ .error .keyMustBe32Bytes) :=
  ⟨(key_length_check exampleAES [] bizTX001 [49] []).1 (by decide),
    ((key_length_check exampleAES [] exampleKey [49] [48]).2 (by decide)).1,
    ((key_length_check exampleAES [] exampleKey [49] [48]).2 (by decide)).2.1⟩

/-- C8: for a 32-byte key and a hexadecimal string whose decoded length is not
a multiple of the 16-byte block size, `DecryptAmount` fails with
`ErrInvalidBlockSize`. -/
theorem DecryptAmount_invalid_block_size (A : AES) (key ciphertextHex : GoString)
    (decoded : List Byte) (hk : key.length = 32)
    (hdec : hex.DecodeString ciphertextHex = .ok decoded)
    (hlen : decoded.length % 16 ≠ 0) :
    DecryptAmount A key ciphertextHex = .error .ErrInvalidBlockSize := by
  simp only [DecryptAmount, hk, ne_eq, not_true_eq_false, if_false, hdec,
    NewCipher_32 A key hk, aes.BlockSize, hlen, not_false_eq_true, if_true]

/-- Witness of C8: the string `"00"` decodes to a single byte. -/
theorem DecryptAmount_invalid_block_size_witness :
    DecryptAmount exampleAES exampleKey [48, 48] = .error .ErrInvalidBlockSize :=
  DecryptAmount_invalid_block_size exampleAES exampleKey [48, 48] [0] (by decide) rfl
    (by decide)

/-! ## The claims on the creation of transactions -/

theorem First_of_mem (db : DB) (bizId : GoString) (t : Transaction)
    (ht : t ∈ db.transactions) (hb : t.BizID = bizId) :
    ∃ t', db.First bizId = .ok t' := by
  unfold DB.First
  cases hf : db.transactions.find? (fun t => t.BizID == bizId) with
  | some t' => exact ⟨t', rfl⟩
  | none =>
    rw [List.find?_eq_none] at hf
    have := hf t ht
    simp [hb] at this

theorem Create_of_mem (db : DB) (tx : Transaction) (now : Nat) (t : Transaction)
    (ht : t ∈ db.transactions) (hb : t.BizID = tx.BizID) :
    db.Create tx now = .error .ErrDuplicatedKey := by
  unfold DB.Create
  have : db.transactions.any (fun t => t.BizID == tx.BizID) = true := by
    rw [List.any_eq_true]
    exact ⟨t, ht, by simp [hb]⟩
  rw [if_pos this]

/-- C9: when a record with the BizID of the request is already in the store,
`CreateTransaction` returns the duplicate result (no success, the message
"BizID already exists"), which the handler answers with `CodeDuplicate`, and
the store after the call is the store before it: no record is added and none
is changed. -/
theorem CreateTransaction_duplicate (H : Sha256) (A : AES) (encryptionKey : GoString)
    (env : Env) (db : DB) (req : CreateTransactionRequest) (institutionID : GoString)
    (t : Transaction) (ht : t ∈ db.transactions) (hb : t.BizID = req.BizID) :
    CreateTransaction H A encryptionKey env db req institutionID
        = (.ok { Success := false, BizID := req.BizID, Message := msgDuplicate }, db) ∧
      TransactionHandler_CreateTransaction H A encryptionKey env db (some req) institutionID
        = (some (Fail CodeDuplicate (.text msgDuplicate)), db) := by
  obtain ⟨t', ht'⟩ := First_of_mem db req.BizID t ht hb
  have h1 : ∀ inst, CreateTransaction H A encryptionKey env db req inst
      = (.ok { Success := false, BizID := req.BizID, Message := msgDuplicate }, db) := by
    intro inst
    simp only [CreateTransaction, ht']
  refine ⟨h1 _, ?_⟩
  simp only [TransactionHandler_CreateTransaction, h1, Bool.not_false, if_true]

/-- Witness of C9: a second request for `"TX001"` on the store that holds it. -/
theorem CreateTransaction_duplicate_witness :
    CreateTransaction exampleSha256 exampleAES exampleKey quietEnv exampleDB exampleRequest
        defaultInstitutionID
        = (.ok { Success := false, BizID := exampleRequest.BizID, Message := msgDuplicate },
            exampleDB) ∧
      TransactionHandler_CreateTransaction exampleSha256 exampleAES exampleKey quietEnv
        exampleDB (some exampleRequest) defaultInstitutionID
        = (some (Fail CodeDuplicate (.text msgDuplicate)), exampleDB) :=
  CreateTransaction_duplicate exampleSha256 exampleAES exampleKey quietEnv exampleDB
    exampleRequest defaultInstitutionID exampleRecord (by simp [exampleDB]) rfl

/-- C10, as stated, fails: on the empty store the existence check for `"TX001"`
finds nothing, another request commits `"TX001"` before the insert, the insert
is rejected by the unique index, and `CreateTransaction` returns the wrapped
persistence error, which the handler answers with `CodeServerError`, not with
`CodeDuplicate`. -/
theorem CreateTransaction_race_not_duplicate :
    emptyDB.First exampleRequest.BizID = .error .ErrRecordNotFound ∧
      (CreateTransaction exampleSha256 exampleAES exampleKey racingEnv emptyDB exampleRequest
          defaultInstitutionID).1 = .error (.failedToCreateTransaction .ErrDuplicatedKey) ∧
      (TransactionHandler_CreateTransaction exampleSha256 exampleAES exampleKey racingEnv
          emptyDB (some exampleRequest) []).1
        = some (Fail CodeServerError (.serviceError (.failedToCreateTransaction .ErrDuplicatedKey))) ∧
      (TransactionHandler_CreateTransaction exampleSha256 exampleAES exampleKey racingEnv
          emptyDB (some exampleRequest) []).1
        ≠ (TransactionHandler_CreateTransaction exampleSha256 exampleAES exampleKey quietEnv
          exampleDB (some exampleRequest) []).1 := by
  refine ⟨rfl, rfl, rfl, ?_⟩
  decide

/-- C10, amended: when the existence check finds no record, the salt and the
encryption succeed (a 32-byte key, 32 random bytes) and the store at the time
of the insert holds a record with the same BizID, `CreateTransaction` returns
the persistence error of the insert wrapped in "failed to create transaction",
which the handler answers with `CodeServerError`; the call itself writes
nothing to the store. -/
theorem CreateTransaction_insert_rejected (H : Sha256) (A : AES) (encryptionKey : GoString)
    (env : Env) (db : DB) (req : CreateTransactionRequest) (institutionID : GoString)
    (t : Transaction)
    (hfirst : db.First req.BizID = .error .ErrRecordNotFound)
    (hk : encryptionKey.length = 32) (hr : 32 ≤ env.reader.length)
    (ht : t ∈ (env.concurrent db).transactions) (hb : t.BizID = req.BizID) :
    CreateTransaction H A encryptionKey env db req institutionID
        = (.error (.failedToCreateTransaction .ErrDuplicatedKey), env.concurrent db) ∧
      TransactionHandler_CreateTransaction H A encryptionKey env db (some req) institutionID
        = (some (Fail CodeServerError
            (.serviceError (.failedToCreateTransaction .ErrDuplicatedKey))),
          env.concurrent db) := by
  have hsalt : GenerateRandomSalt env.reader
      = .ok (hex.EncodeToString (env.reader.take 16), env.reader.drop 16) := by
    have : 16 ≤ env.reader.length := by omega
    simp only [GenerateRandomSalt, ReadFull, this, if_true]
  have hrest : 16 ≤ (env.reader.drop 16).length := by rw [List.length_drop]; omega
  have h1 : ∀ inst, CreateTransaction H A encryptionKey env db req inst
      = (.error (.failedToCreateTransaction .ErrDuplicatedKey), env.concurrent db) := by
    intro inst
    simp only [CreateTransaction, hfirst, hsalt,
      EncryptAmount_eq A (env.reader.drop 16) encryptionKey req.Amount hk hrest]
    rw [Create_of_mem (env.concurrent db) _ env.now t ht hb]
  refine ⟨h1 _, ?_⟩
  simp only [TransactionHandler_CreateTransaction, h1]

/-- Witness of C10, amended: the racing call on the empty store. -/
theorem CreateTransaction_insert_rejected_witness :
    CreateTransaction exampleSha256 exampleAES exampleKey racingEnv emptyDB exampleRequest
        defaultInstitutionID
        = (.error (.failedToCreateTransaction .ErrDuplicatedKey), racingEnv.concurrent emptyDB) ∧
      TransactionHandler_CreateTransaction exampleSha256 exampleAES exampleKey racingEnv
        emptyDB (some exampleRequest) defaultInstitutionID
        = (some (Fail CodeServerError
            (.serviceError (.failedToCreateTransaction .ErrDuplicatedKey))),
          racingEnv.concurrent emptyDB) :=
  CreateTransaction_insert_rejected exampleSha256 exampleAES exampleKey racingEnv emptyDB
    exampleRequest defaultInstitutionID { exampleRecord with ID := 1 } rfl (by decide)
    (by decide) (by simp [racingEnv, emptyDB]) rfl

/-! ## Lemmas on `UploadToChain` and `BatchUploadToChain` -/

theorem First_ok_BizID (db : DB) (bizId : GoString) (tx : Transaction)
    (h : db.First bizId = .ok tx) : tx.BizID = bizId ∧ tx ∈ db.transactions := by
  unfold DB.First at h
  cases hf : db.transactions.find? (fun t => t.BizID == bizId) with
  | none => rw [hf] at h; cases h
  | some t =>
    rw [hf] at h
    cases h
    exact ⟨by simpa using List.find?_some hf, List.mem_of_find?_eq_some hf⟩

theorem First_error (db : DB) (bizId : GoString) (e : DBError)
    (h : db.First bizId = .error e) :
    e = .ErrRecordNotFound ∧ ∀ t ∈ db.transactions, t.BizID ≠ bizId := by
  unfold DB.First at h
  cases hf : db.transactions.find? (fun t => t.BizID == bizId) with
  | some t => rw [hf] at h; cases h
  | none =>
    rw [hf] at h
    cases h
    refine ⟨rfl, fun t ht hb => ?_⟩
    rw [List.find?_eq_none] at hf
    have := hf t ht
    simp [hb] at this

theorem First_of_not_mem (db : DB) (bizId : GoString)
    (h : ∀ t ∈ db.transactions, t.BizID ≠ bizId) : db.First bizId = .error .ErrRecordNotFound := by
  unfold DB.First
  have : db.transactions.find? (fun t => t.BizID == bizId) = none := by
    rw [List.find?_eq_none]
    intro t ht
    simpa using h t ht
  rw [this]

theorem UploadToChain_not_found (env : UploadEnv) (db : DB) (bizId addr : GoString)
    (e : DBError) (h : db.First bizId = .error e) :
    UploadToChain env db bizId addr =
      { err := some (.transactionNotFound e), db := db, calls := [] } := by
  simp only [UploadToChain, h]

theorem UploadToChain_not_pending (env : UploadEnv) (db : DB) (bizId addr : GoString)
    (tx : Transaction) (h : db.First bizId = .ok tx) (hs : tx.Status ≠ TxStatusPending) :
    UploadToChain env db bizId addr =
      { err := some (.invalidTransactionStatus tx.Status), db := db, calls := [] } := by
  simp only [UploadToChain, h, hs, ne_eq, not_false_eq_true, if_true]

theorem UploadToChain_gateway_error (env : UploadEnv) (db : DB) (bizId addr : GoString)
    (tx : Transaction) (h : db.First bizId = .ok tx) (hs : tx.Status = TxStatusPending)
    (hg : env.SendTransaction addr tx.BizID tx.DataHash = none) :
    UploadToChain env db bizId addr =
      { err := some .failedToUploadToChain, db := db,
        calls := [{ contractAddress := addr, bizId := tx.BizID, dataHash := tx.DataHash,
                    txHash := none }] } := by
  simp only [UploadToChain, h, hs, ne_eq, not_true_eq_false, if_false, hg]

theorem UploadToChain_sent (env : UploadEnv) (db : DB) (bizId addr : GoString)
    (tx : Transaction) (txHash : GoString) (h : db.First bizId = .ok tx)
    (hs : tx.Status = TxStatusPending)
    (hg : env.SendTransaction addr tx.BizID tx.DataHash = some txHash) :
    UploadToChain env db bizId addr =
      { err := none, db := afterWrites env db tx addr txHash,
        calls := [{ contractAddress := addr, bizId := tx.BizID, dataHash := tx.DataHash,
                    txHash := some txHash }] } := by
  simp only [UploadToChain, h, hs, ne_eq, not_true_eq_false, if_false, hg, afterWrites,
    receiptOf]
  rfl

/-- The four ways a call of `UploadToChain` can go. -/
theorem UploadToChain_cases (env : UploadEnv) (db : DB) (bizId addr : GoString) :
    (∃ e, db.First bizId = .error e ∧ UploadToChain env db bizId addr =
        { err := some (.transactionNotFound e), db := db, calls := [] }) ∨
    (∃ tx, db.First bizId = .ok tx ∧ tx.Status ≠ TxStatusPending ∧
      UploadToChain env db bizId addr =
        { err := some (.invalidTransactionStatus tx.Status), db := db, calls := [] }) ∨
    (∃ tx, db.First bizId = .ok tx ∧ tx.Status = TxStatusPending ∧
      env.SendTransaction addr tx.BizID tx.DataHash = none ∧
      UploadToChain env db bizId addr =
        { err := some .failedToUploadToChain, db := db,
          calls := [{ contractAddress := addr, bizId := tx.BizID, dataHash := tx.DataHash,
                      txHash := none }] }) ∨
    (∃ tx txHash, db.First bizId = .ok tx ∧ tx.Status = TxStatusPending ∧
      env.SendTransaction addr tx.BizID tx.DataHash = some txHash ∧
      UploadToChain env db bizId addr =
        { err := none, db := afterWrites env db tx addr txHash,
          calls := [{ contractAddress := addr, bizId := tx.BizID, dataHash := tx.DataHash,
                      txHash := some txHash }] }) := by
  cases hf : db.First bizId with
  | error e => exact Or.inl ⟨e, rfl, UploadToChain_not_found env db bizId addr e hf⟩
  | ok tx =>
    by_cases hs : tx.Status = TxStatusPending
    · cases hg : env.SendTransaction addr tx.BizID tx.DataHash with
      | none =>
        exact Or.inr (Or.inr (Or.inl ⟨tx, rfl, hs, hg,
          UploadToChain_gateway_error env db bizId addr tx hf hs hg⟩))
      | some txHash =>
        exact Or.inr (Or.inr (Or.inr ⟨tx, txHash, rfl, hs, hg,
          UploadToChain_sent env db bizId addr tx txHash hf hs hg⟩))
    · exact Or.inr (Or.inl ⟨tx, rfl, hs, UploadToChain_not_pending env db bizId addr tx hf hs⟩)

theorem setUploaded_BizID (id now : Nat) (t : Transaction) :
    (setUploaded id now t).BizID = t.BizID := by
  unfold setUploaded; split <;> rfl

theorem setUploaded_ID (id now : Nat) (t : Transaction) :
    (setUploaded id now t).ID = t.ID := by
  unfold setUploaded; split <;> rfl

theorem setUploaded_DataHash (id now : Nat) (t : Transaction) :
    (setUploaded id now t).DataHash = t.DataHash := by
  unfold setUploaded; split <;> rfl

theorem keepOnError_ok (db d : DB) : keepOnError db (.ok d) = d := rfl

theorem keepOnError_error (db : DB) (e : DBError) : keepOnError db (.error e) = db := rfl

theorem CreateReceipt_transactions (db : DB) (r : ChainReceipt) (now : Nat) (fault : Bool) :
    (keepOnError db (db.CreateReceipt r now fault)).transactions = db.transactions := by
  unfold DB.CreateReceipt
  split_ifs <;> rfl

theorem UpdateStatus_chainReceipts (db : DB) (id : Nat) (s : Int) (now : Nat) (fault : Bool) :
    (keepOnError db (db.UpdateStatus id s now fault)).chainReceipts = db.chainReceipts := by
  unfold DB.UpdateStatus
  split_ifs <;> rfl

theorem UpdateStatus_transactions (db : DB) (id now : Nat) (fault : Bool) :
    (keepOnError db (db.UpdateStatus id TxStatusUploaded now fault)).transactions =
      if fault = true ∨ id = 0 then db.transactions
      else db.transactions.map (setUploaded id now) := by
  unfold DB.UpdateStatus
  by_cases hf : fault = true
  · rw [if_pos hf, if_pos (Or.inl hf)]; rfl
  · by_cases hz : id = 0
    · rw [if_neg hf, if_pos hz, if_pos (Or.inr hz)]; rfl
    · rw [if_neg hf, if_neg hz, if_neg (by tauto)]; rfl

theorem CreateReceipt_chainReceipts (db : DB) (r : ChainReceipt) (now : Nat) (fault : Bool) :
    (keepOnError db (db.CreateReceipt r now fault)).chainReceipts =
      if fault = true ∨ db.chainReceipts.any (fun x => x.BizID == r.BizID) = true
      then db.chainReceipts
      else db.chainReceipts ++
        [{ r with ID := if r.ID = 0 then db.chainReceipts.length + 1 else r.ID,
                  CreatedAt := now }] := by
  unfold DB.CreateReceipt
  by_cases hf : fault = true
  · simp [hf, keepOnError]
  · by_cases hd : db.chainReceipts.any (fun x => x.BizID == r.BizID) = true
    · simp [hf, hd, keepOnError]
    · simp [hf, hd, keepOnError]

theorem afterWrites_transactions (env : UploadEnv) (db : DB) (tx : Transaction)
    (addr txHash : GoString) :
    (afterWrites env db tx addr txHash).transactions =
      if env.statusFault = true ∨ tx.ID = 0 then db.transactions
      else db.transactions.map (setUploaded tx.ID env.now) := by
  unfold afterWrites
  simp only [UpdateStatus_transactions, CreateReceipt_transactions]

theorem afterWrites_chainReceipts (env : UploadEnv) (db : DB) (tx : Transaction)
    (addr txHash : GoString) :
    (afterWrites env db tx addr txHash).chainReceipts =
      if env.receiptFault = true ∨ db.chainReceipts.any (fun r => r.BizID == tx.BizID) = true
      then db.chainReceipts
      else db.chainReceipts ++
        [{ receiptOf env tx addr txHash with
            ID := db.chainReceipts.length + 1, CreatedAt := env.now }] := by
  unfold afterWrites
  simp only [UpdateStatus_chainReceipts, CreateReceipt_chainReceipts]
  rfl

theorem First_of_map (db db' : DB) (f : Transaction → Transaction)
    (hf : ∀ t, (f t).BizID = t.BizID) (h : db'.transactions = db.transactions.map f)
    (bizId : GoString) :
    db'.First bizId = (db.First bizId).map f := by
  unfold DB.First
  rw [h, List.find?_map]
  have : ((fun t : Transaction => t.BizID == bizId) ∘ f) = fun t => t.BizID == bizId := by
    funext t
    simp only [Function.comp_apply, hf]
  rw [this]
  cases db.transactions.find? (fun t => t.BizID == bizId) <;> rfl

theorem First_congr (db db' : DB) (h : db'.transactions = db.transactions) (bizId : GoString) :
    db'.First bizId = db.First bizId := by
  unfold DB.First
  rw [h]

theorem afterWrites_First (env : UploadEnv) (db : DB) (tx : Transaction)
    (addr txHash bizId : GoString) :
    (afterWrites env db tx addr txHash).First bizId =
      if env.statusFault = true ∨ tx.ID = 0 then db.First bizId
      else (db.First bizId).map (setUploaded tx.ID env.now) := by
  have ht := afterWrites_transactions env db tx addr txHash
  by_cases h : env.statusFault = true ∨ tx.ID = 0
  · rw [if_pos h] at ht ⊢
    exact First_congr _ _ ht bizId
  · rw [if_neg h] at ht ⊢
    exact First_of_map _ _ _ (setUploaded_BizID _ _) ht bizId

theorem KeysValid_eq_of_ID (db : DB) (hk : db.KeysValid) (t t' : Transaction)
    (ht : t ∈ db.transactions) (ht' : t' ∈ db.transactions) (h : t.ID = t'.ID) : t = t' :=
  List.inj_on_of_nodup_map hk.1 ht ht' h

theorem TxStatusUploaded_ne_Pending : TxStatusUploaded ≠ TxStatusPending := by decide

theorem setUploaded_status_ne (id now : Nat) (t : Transaction)
    (h : t.Status ≠ TxStatusPending) : (setUploaded id now t).Status ≠ TxStatusPending := by
  unfold setUploaded
  split
  · exact TxStatusUploaded_ne_Pending
  · exact h

theorem setUploaded_statusStep (id now : Nat) (t : Transaction)
    (h : t.ID = id → t.Status = TxStatusPending) : statusStep t (setUploaded id now t) := by
  unfold setUploaded
  split
  · rename_i hid
    exact Or.inr ⟨h hid, now, rfl⟩
  · exact Or.inl rfl

theorem Forall₂_map_right_self {α : Type} (R : α → α → Prop) (f : α → α) :
    ∀ l : List α, (∀ a ∈ l, R a (f a)) → List.Forall₂ R l (l.map f)
  | [], _ => List.Forall₂.nil
  | a :: l, h =>
    List.Forall₂.cons (h a (List.mem_cons_self a l))
      (Forall₂_map_right_self R f l (fun b hb => h b (List.mem_cons_of_mem a hb)))

theorem Forall₂_statusStep_refl (l : List Transaction) : List.Forall₂ statusStep l l := by
  induction l with
  | nil => exact List.Forall₂.nil
  | cons a l ih => exact List.Forall₂.cons (Or.inl rfl) ih

theorem statusStep_trans (a b c : Transaction) (h₁ : statusStep a b) (h₂ : statusStep b c) :
    statusStep a c := by
  rcases h₁ with rfl | ⟨hp, n, rfl⟩
  · exact h₂
  · rcases h₂ with rfl | ⟨hp', _, _⟩
    · exact Or.inr ⟨hp, n, rfl⟩
    · exact absurd hp' TxStatusUploaded_ne_Pending

theorem Forall₂_statusStep_trans :
    ∀ (l₁ l₂ l₃ : List Transaction), List.Forall₂ statusStep l₁ l₂ →
      List.Forall₂ statusStep l₂ l₃ → List.Forall₂ statusStep l₁ l₃
  | _, _, _, .nil, .nil => .nil
  | _, _, _, .cons h₁ t₁, .cons h₂ t₂ =>
    .cons (statusStep_trans _ _ _ h₁ h₂) (Forall₂_statusStep_trans _ _ _ t₁ t₂)

/-- What a call of `UploadToChain` does to the table of transactions. -/
theorem UploadToChain_transactions (env : UploadEnv) (db : DB) (bizId addr : GoString) :
    (UploadToChain env db bizId addr).db.transactions = db.transactions ∨
      ∃ tx, db.First bizId = .ok tx ∧ tx.Status = TxStatusPending ∧ tx.ID ≠ 0 ∧
        env.statusFault = false ∧ (UploadToChain env db bizId addr).err = none ∧
        (UploadToChain env db bizId addr).db.transactions
          = db.transactions.map (setUploaded tx.ID env.now) := by
  rcases UploadToChain_cases env db bizId addr with ⟨e, _, h⟩ | ⟨tx, _, _, h⟩ |
    ⟨tx, _, _, _, h⟩ | ⟨tx, txHash, hf, hs, _, h⟩
  · rw [h]; exact Or.inl rfl
  · rw [h]; exact Or.inl rfl
  · rw [h]; exact Or.inl rfl
  · have herr : (UploadToChain env db bizId addr).err = none := by rw [h]
    have htx : (UploadToChain env db bizId addr).db.transactions =
        if env.statusFault = true ∨ tx.ID = 0 then db.transactions
        else db.transactions.map (setUploaded tx.ID env.now) := by
      rw [h]; exact afterWrites_transactions env db tx addr txHash
    by_cases hc : env.statusFault = true ∨ tx.ID = 0
    · rw [if_pos hc] at htx; exact Or.inl htx
    · rw [if_neg hc] at htx
      refine Or.inr ⟨tx, hf, hs, fun hz => hc (Or.inr hz), ?_, herr, htx⟩
      cases hsf : env.statusFault
      · rfl
      · exact absurd (Or.inl hsf) hc

theorem UploadToChain_KeysValid (env : UploadEnv) (db : DB) (bizId addr : GoString)
    (hk : db.KeysValid) : (UploadToChain env db bizId addr).db.KeysValid := by
  rcases UploadToChain_transactions env db bizId addr with h | ⟨tx, _, _, _, _, _, h⟩
  · unfold DB.KeysValid; rw [h]; exact hk
  · unfold DB.KeysValid
    rw [h]
    constructor
    · rw [List.map_map]
      have : ((fun t : Transaction => t.ID) ∘ setUploaded tx.ID env.now) = fun t => t.ID := by
        funext t; simp only [Function.comp_apply, setUploaded_ID]
      rw [this]; exact hk.1
    · intro t ht
      rw [List.mem_map] at ht
      obtain ⟨t₀, ht₀, rfl⟩ := ht
      rw [setUploaded_ID]
      exact hk.2 t₀ ht₀

theorem UploadToChain_statusStep (env : UploadEnv) (db : DB) (bizId addr : GoString)
    (hk : db.KeysValid) :
    List.Forall₂ statusStep db.transactions (UploadToChain env db bizId addr).db.transactions := by
  rcases UploadToChain_transactions env db bizId addr with h | ⟨tx, hf, hs, _, _, _, h⟩
  · rw [h]; exact Forall₂_statusStep_refl _
  · rw [h]
    apply Forall₂_map_right_self
    intro t ht
    apply setUploaded_statusStep
    intro hid
    have := KeysValid_eq_of_ID db hk t tx ht (First_ok_BizID db bizId tx hf).2 hid
    rw [this]; exact hs

theorem batchUploadLoop_eq (addr : GoString) :
    ∀ (ids : List GoString) (envs : Nat → UploadEnv) (acc : BatchOutcome),
      batchUploadLoop addr envs ids acc =
        { result := tally acc.result (uploadEach addr envs acc.db ids).1,
          db := (uploadEach addr envs acc.db ids).2.1,
          calls := acc.calls ++ (uploadEach addr envs acc.db ids).2.2 }
  | [], _, acc => by simp [batchUploadLoop, uploadEach, tally]
  | bizId :: rest, envs, acc => by
    rw [batchUploadLoop, batchUploadLoop_eq addr rest]
    simp only [uploadEach, List.append_assoc]
    cases h : (UploadToChain (envs 0) acc.db bizId addr).err <;> simp [tally]

theorem tally_spec (errs : List (GoString × Option UploadError)) :
    ∀ result : BatchUploadResult,
      (tally result errs).Total = result.Total ∧
      (tally result errs).Success = result.Success + (errs.filter (fun p => p.2.isNone)).length ∧
      (tally result errs).Failed = result.Failed + (errs.filter (fun p => p.2.isSome)).length ∧
      (tally result errs).SuccessIDs
        = result.SuccessIDs ++ (errs.filter (fun p => p.2.isNone)).map (·.1) ∧
      (tally result errs).FailedIDs
        = result.FailedIDs ++ (errs.filter (fun p => p.2.isSome)).map (·.1) := by
  induction errs with
  | nil => intro result; simp [tally]
  | cons p rest ih =>
    intro result
    obtain ⟨b, e⟩ := p
    cases e with
    | none =>
      obtain ⟨h1, h2, h3, h4, h5⟩ := ih { result with
        Success := result.Success + 1, SuccessIDs := result.SuccessIDs ++ [b] }
      simp only [tally, h1, h2, h3, h4, h5]
      simp
      omega
    | some e =>
      obtain ⟨h1, h2, h3, h4, h5⟩ := ih { result with
        Failed := result.Failed + 1, FailedIDs := result.FailedIDs ++ [b] }
      simp only [tally, h1, h2, h3, h4, h5]
      simp
      omega

theorem uploadEach_ids (addr : GoString) :
    ∀ (ids : List GoString) (envs : Nat → UploadEnv) (db : DB),
      (uploadEach addr envs db ids).1.map (·.1) = ids
  | [], _, _ => rfl
  | bizId :: rest, envs, db => by
    simp only [uploadEach, List.map_cons, uploadEach_ids addr rest]

theorem BatchUploadToChain_eq (addr : GoString) (envs : Nat → UploadEnv) (db : DB)
    (ids : List GoString) :
    (BatchUploadToChain envs db ids addr).db = (uploadEach addr envs db ids).2.1 ∧
    (BatchUploadToChain envs db ids addr).calls = (uploadEach addr envs db ids).2.2 ∧
    (BatchUploadToChain envs db ids addr).result.Total = ids.length ∧
    (BatchUploadToChain envs db ids addr).result.Success
      = ((uploadEach addr envs db ids).1.filter (fun p => p.2.isNone)).length ∧
    (BatchUploadToChain envs db ids addr).result.Failed
      = ((uploadEach addr envs db ids).1.filter (fun p => p.2.isSome)).length ∧
    (BatchUploadToChain envs db ids addr).result.SuccessIDs
      = ((uploadEach addr envs db ids).1.filter (fun p => p.2.isNone)).map (·.1) ∧
    (BatchUploadToChain envs db ids addr).result.FailedIDs
      = ((uploadEach addr envs db ids).1.filter (fun p => p.2.isSome)).map (·.1) := by
  unfold BatchUploadToChain
  rw [batchUploadLoop_eq]
  obtain ⟨h1, h2, h3, h4, h5⟩ := tally_spec (uploadEach addr envs db ids).1
    { Total := ids.length, Success := 0, Failed := 0, SuccessIDs := [], FailedIDs := [] }
  simp only [h1, h2, h3, h4, h5, List.nil_append, Nat.zero_add, and_self]

theorem partition_perm (errs : List (GoString × Option UploadError)) :
    ((errs.filter (fun p => p.2.isNone)).map (·.1) ++
      (errs.filter (fun p => p.2.isSome)).map (·.1)).Perm (errs.map (·.1)) := by
  rw [← List.map_append]
  apply List.Perm.map
  have h : (fun p : GoString × Option UploadError => p.2.isSome)
      = fun p => !(fun p : GoString × Option UploadError => p.2.isNone) p := by
    funext p
    obtain ⟨b, e⟩ := p
    cases e <;> rfl
  rw [h]
  exact List.filter_append_perm _ errs

theorem UploadToChain_First_other (env : UploadEnv) (db : DB) (bizId other addr : GoString)
    (hk : db.KeysValid) (hne : bizId ≠ other) :
    (UploadToChain env db bizId addr).db.First other = db.First other := by
  rcases UploadToChain_transactions env db bizId addr with h | ⟨tx, hf, _, _, _, _, h⟩
  · exact First_congr _ _ h other
  · rw [First_of_map db _ _ (setUploaded_BizID _ _) h other]
    cases ho : db.First other with
    | error e => rfl
    | ok t =>
      have ht := First_ok_BizID db other t ho
      have htx := First_ok_BizID db bizId tx hf
      have hid : ¬ t.ID = tx.ID := by
        intro hid
        have := KeysValid_eq_of_ID db hk t tx ht.2 htx.2 hid
        rw [this, htx.1] at ht
        exact hne ht.1
      simp only [Except.map, setUploaded, hid, if_false]

theorem gatewayFailures_congr (addr : GoString) (db db' : DB) :
    ∀ (ids : List GoString) (envs : Nat → UploadEnv),
      (∀ b ∈ ids, db'.First b = db.First b) →
      gatewayFailures addr db' envs ids = gatewayFailures addr db envs ids
  | [], _, _ => rfl
  | b :: rest, envs, h => by
    simp only [gatewayFailures, h b (List.mem_cons_self b rest),
      gatewayFailures_congr addr db db' rest _
        (fun c hc => h c (List.mem_cons_of_mem b hc))]

theorem failed_eq_gatewayFailures (addr : GoString) :
    ∀ (ids : List GoString) (envs : Nat → UploadEnv) (db : DB), db.KeysValid → ids.Nodup →
      (∀ b ∈ ids, ∃ tx, db.First b = .ok tx ∧ tx.Status = TxStatusPending) →
      ((uploadEach addr envs db ids).1.filter (fun p => p.2.isSome)).length
        = gatewayFailures addr db envs ids
  | [], _, _, _, _, _ => rfl
  | b :: rest, envs, db, hk, hnd, hp => by
    obtain ⟨tx, hf, hs⟩ := hp b (List.mem_cons_self b rest)
    have hnd' := List.nodup_cons.mp hnd
    have hother : ∀ c ∈ rest, (UploadToChain (envs 0) db b addr).db.First c = db.First c := by
      intro c hc
      apply UploadToChain_First_other _ _ _ _ _ hk
      intro e
      rw [e] at hnd'
      exact hnd'.1 hc
    have ih := failed_eq_gatewayFailures addr rest (fun i => envs (i + 1))
      (UploadToChain (envs 0) db b addr).db (UploadToChain_KeysValid _ _ _ _ hk) hnd'.2
      (fun c hc => by
        rw [hother c hc]
        exact hp c (List.mem_cons_of_mem b hc))
    rw [gatewayFailures_congr addr db _ rest _ hother] at ih
    simp only [uploadEach, gatewayFailures, hf]
    cases hg : (envs 0).SendTransaction addr tx.BizID tx.DataHash with
    | none =>
      have := UploadToChain_gateway_error (envs 0) db b addr tx hf hs hg
      rw [this] at ih ⊢
      simp only [List.filter_cons, Option.isSome_some, if_true, List.length_cons, ih,
        Option.isNone_none]
      omega
    | some txHash =>
      have := UploadToChain_sent (envs 0) db b addr tx txHash hf hs hg
      rw [this] at ih ⊢
      simp only [List.filter_cons, Option.isSome_none, Bool.false_eq_true, if_false, ih,
        Option.isNone_some]
      omega

theorem UploadToChain_NonPending (env : UploadEnv) (db : DB) (bizId b addr : GoString)
    (h : NonPending db b) : NonPending (UploadToChain env db bizId addr).db b := by
  obtain ⟨t, ht, hs⟩ := h
  rcases UploadToChain_transactions env db bizId addr with h | ⟨tx, _, _, _, _, _, h⟩
  · exact ⟨t, by rw [First_congr _ _ h b]; exact ht, hs⟩
  · refine ⟨setUploaded tx.ID env.now t, ?_, setUploaded_status_ne _ _ _ hs⟩
    rw [First_of_map db _ _ (setUploaded_BizID _ _) h b, ht]
    rfl

theorem successfulUploads_append (b : GoString) (l₁ l₂ : List GatewayCall) :
    successfulUploads b (l₁ ++ l₂) = successfulUploads b l₁ + successfulUploads b l₂ := by
  simp [successfulUploads]

theorem UploadToChain_successful_of_NonPending (env : UploadEnv) (db : DB)
    (bizId b addr : GoString) (h : NonPending db b) :
    successfulUploads b (UploadToChain env db bizId addr).calls = 0 := by
  obtain ⟨t, ht, hs⟩ := h
  rcases UploadToChain_cases env db bizId addr with ⟨e, _, h⟩ | ⟨tx, _, _, h⟩ |
    ⟨tx, _, _, _, h⟩ | ⟨tx, txHash, hf, hp, _, h⟩
  · rw [h]; rfl
  · rw [h]; rfl
  · rw [h]; simp [successfulUploads]
  · rw [h]
    have hb : tx.BizID ≠ b := by
      intro e
      have h1 := (First_ok_BizID db bizId tx hf).1
      rw [e] at h1
      rw [← h1, ht] at hf
      cases hf
      exact hs hp
    simp [successfulUploads, hb]

theorem UploadToChain_successful (env : UploadEnv) (db : DB) (bizId b addr : GoString)
    (hk : db.KeysValid) (hsf : env.statusFault = false) :
    successfulUploads b (UploadToChain env db bizId addr).calls ≤ 1 ∧
      (successfulUploads b (UploadToChain env db bizId addr).calls = 1 →
        NonPending (UploadToChain env db bizId addr).db b) := by
  rcases UploadToChain_cases env db bizId addr with ⟨e, _, h⟩ | ⟨tx, _, _, h⟩ |
    ⟨tx, _, _, _, h⟩ | ⟨tx, txHash, hf, hp, _, h⟩
  · rw [h]; simp [successfulUploads]
  · rw [h]; simp [successfulUploads]
  · rw [h]; simp [successfulUploads]
  · rw [h]
    have htx := First_ok_BizID db bizId tx hf
    constructor
    · simp only [successfulUploads, List.filter_cons, List.filter_nil]
      split <;> simp
    · intro h1
      have hb : tx.BizID = b := by
        by_contra hne
        simp [successfulUploads, hne] at h1
      have hz : ¬ (env.statusFault = true ∨ tx.ID = 0) := by
        rw [hsf]
        simp only [Bool.false_eq_true, false_or]
        exact hk.2 tx htx.2
      refine ⟨setUploaded tx.ID env.now tx, ?_, ?_⟩
      · rw [afterWrites_First, if_neg hz, ← hb, htx.1, hf]
        rfl
      · simp only [setUploaded, if_true]
        exact TxStatusUploaded_ne_Pending

theorem uploadEach_of_NonPending (addr b : GoString) :
    ∀ (ids : List GoString) (envs : Nat → UploadEnv) (db : DB), NonPending db b →
      successfulUploads b (uploadEach addr envs db ids).2.2 = 0 ∧
        NonPending (uploadEach addr envs db ids).2.1 b
  | [], _, _, h => ⟨rfl, h⟩
  | bizId :: rest, envs, db, h => by
    have h1 := UploadToChain_successful_of_NonPending (envs 0) db bizId b addr h
    have h2 := UploadToChain_NonPending (envs 0) db bizId b addr h
    obtain ⟨h3, h4⟩ := uploadEach_of_NonPending addr b rest (fun i => envs (i + 1)) _ h2
    refine ⟨?_, ?_⟩
    · simp only [uploadEach, successfulUploads_append, h1, h3]
    · simp only [uploadEach]; exact h4

theorem uploadEach_at_most_once (addr b : GoString) :
    ∀ (ids : List GoString) (envs : Nat → UploadEnv) (db : DB), db.KeysValid →
      (∀ i, (envs i).statusFault = false) →
      successfulUploads b (uploadEach addr envs db ids).2.2 ≤ 1 ∧
        (1 ≤ successfulUploads b (uploadEach addr envs db ids).2.2 →
          NonPending (uploadEach addr envs db ids).2.1 b)
  | [], _, _, _, _ => by simp [uploadEach, successfulUploads]
  | bizId :: rest, envs, db, hk, hs => by
    obtain ⟨h1, h2⟩ := UploadToChain_successful (envs 0) db bizId b addr hk (hs 0)
    have hk' := UploadToChain_KeysValid (envs 0) db bizId addr hk
    simp only [uploadEach, successfulUploads_append]
    by_cases hone : successfulUploads b (UploadToChain (envs 0) db bizId addr).calls = 1
    · obtain ⟨h3, h4⟩ := uploadEach_of_NonPending addr b rest (fun i => envs (i + 1)) _ (h2 hone)
      rw [h3, hone]
      exact ⟨by decide, fun _ => h4⟩
    · have hzero : successfulUploads b (UploadToChain (envs 0) db bizId addr).calls = 0 := by
        omega
      obtain ⟨h3, h4⟩ := uploadEach_at_most_once addr b rest (fun i => envs (i + 1)) _ hk'
        (fun i => hs (i + 1))
      rw [hzero, Nat.zero_add]
      exact ⟨h3, h4⟩

theorem uploadEach_append (addr : GoString) :
    ∀ (l₁ l₂ : List GoString) (envs : Nat → UploadEnv) (db : DB),
      (uploadEach addr envs db (l₁ ++ l₂)).2.1
          = (uploadEach addr (fun i => envs (i + l₁.length)) (uploadEach addr envs db l₁).2.1
              l₂).2.1 ∧
        (uploadEach addr envs db (l₁ ++ l₂)).2.2
          = (uploadEach addr envs db l₁).2.2 ++
            (uploadEach addr (fun i => envs (i + l₁.length)) (uploadEach addr envs db l₁).2.1
              l₂).2.2
  | [], l₂, envs, db => by simp [uploadEach]
  | b :: l₁, l₂, envs, db => by
    obtain ⟨h1, h2⟩ := uploadEach_append addr l₁ l₂ (fun i => envs (i + 1))
      (UploadToChain (envs 0) db b addr).db
    have he : (fun i => envs (i + l₁.length + 1)) = fun i => envs (i + (l₁.length + 1)) := by
      funext i; rfl
    rw [he] at h1 h2
    rw [List.cons_append]
    simp only [uploadEach, List.length_cons, List.append_assoc]
    exact ⟨h1, by rw [h2]⟩

theorem runUploads_eq (addr : GoString) :
    ∀ (ops : List UploadOp) (envs : Nat → UploadEnv) (db : DB),
      runUploads addr envs db ops =
        ((uploadEach addr envs db (ops.flatMap UploadOp.ids)).2.1,
          (uploadEach addr envs db (ops.flatMap UploadOp.ids)).2.2)
  | [], _, _ => rfl
  | .single b :: rest, envs, db => by
    have hl : (UploadOp.single b :: rest).flatMap UploadOp.ids
        = b :: rest.flatMap UploadOp.ids := by
      simp [List.flatMap_cons, UploadOp.ids]
    rw [hl]
    simp only [runUploads, runUploads_eq addr rest, uploadEach]
  | .batch bs :: rest, envs, db => by
    obtain ⟨h1, h2⟩ := uploadEach_append addr bs (rest.flatMap UploadOp.ids) envs db
    obtain ⟨hb1, hb2, _⟩ := BatchUploadToChain_eq addr envs db bs
    have hl : (UploadOp.batch bs :: rest).flatMap UploadOp.ids
        = bs ++ rest.flatMap UploadOp.ids := by
      simp [List.flatMap_cons, UploadOp.ids]
    rw [hl, h1, h2]
    simp only [runUploads, runUploads_eq addr rest, hb1, hb2]

theorem UploadToChain_chainReceipts (env : UploadEnv) (db : DB) (bizId addr : GoString) :
    (UploadToChain env db bizId addr).db.chainReceipts = db.chainReceipts ∨
      ∃ r, r.BizID = bizId ∧ (∀ x ∈ db.chainReceipts, x.BizID ≠ bizId) ∧
        (UploadToChain env db bizId addr).db.chainReceipts = db.chainReceipts ++ [r] := by
  rcases UploadToChain_cases env db bizId addr with ⟨e, _, h⟩ | ⟨tx, _, _, h⟩ |
    ⟨tx, _, _, _, h⟩ | ⟨tx, txHash, hf, hs, _, h⟩
  · rw [h]; exact Or.inl rfl
  · rw [h]; exact Or.inl rfl
  · rw [h]; exact Or.inl rfl
  · have hb := (First_ok_BizID db bizId tx hf).1
    have hr : (UploadToChain env db bizId addr).db.chainReceipts =
        if env.receiptFault = true ∨
            db.chainReceipts.any (fun r => r.BizID == tx.BizID) = true
        then db.chainReceipts
        else db.chainReceipts ++
          [{ receiptOf env tx addr txHash with
              ID := db.chainReceipts.length + 1, CreatedAt := env.now }] := by
      rw [h]; exact afterWrites_chainReceipts env db tx addr txHash
    by_cases hc : env.receiptFault = true ∨
        db.chainReceipts.any (fun r => r.BizID == tx.BizID) = true
    · rw [if_pos hc] at hr; exact Or.inl hr
    · rw [if_neg hc] at hr
      refine Or.inr ⟨_, hb, ?_, hr⟩
      intro x hx hxb
      apply hc
      right
      rw [List.any_eq_true]
      exact ⟨x, hx, by simp [hxb, hb]⟩

theorem UploadToChain_receipts_nodup (env : UploadEnv) (db : DB) (bizId addr : GoString)
    (h : (db.chainReceipts.map (·.BizID)).Nodup) :
    ((UploadToChain env db bizId addr).db.chainReceipts.map (·.BizID)).Nodup := by
  rcases UploadToChain_chainReceipts env db bizId addr with h1 | ⟨r, hr, hn, h1⟩
  · rw [h1]; exact h
  · rw [h1, List.map_append, List.map_singleton]
    rw [List.nodup_append]
    refine ⟨h, List.nodup_singleton _, ?_⟩
    intro a ha hb
    rw [List.mem_singleton] at hb
    rw [List.mem_map] at ha
    obtain ⟨x, hx, hxa⟩ := ha
    exact hn x hx (by rw [hxa, hb, hr])

theorem uploadEach_invariants (addr : GoString) :
    ∀ (ids : List GoString) (envs : Nat → UploadEnv) (db : DB),
      ((db.chainReceipts.map (·.BizID)).Nodup →
        ((uploadEach addr envs db ids).2.1.chainReceipts.map (·.BizID)).Nodup) ∧
      (db.KeysValid → (uploadEach addr envs db ids).2.1.KeysValid ∧
        List.Forall₂ statusStep db.transactions (uploadEach addr envs db ids).2.1.transactions)
  | [], _, db => ⟨fun h => h, fun h => ⟨h, Forall₂_statusStep_refl _⟩⟩
  | b :: rest, envs, db => by
    obtain ⟨h1, h2⟩ := uploadEach_invariants addr rest (fun i => envs (i + 1))
      (UploadToChain (envs 0) db b addr).db
    simp only [uploadEach]
    refine ⟨fun h => h1 (UploadToChain_receipts_nodup _ _ _ _ h), fun hk => ?_⟩
    obtain ⟨h3, h4⟩ := h2 (UploadToChain_KeysValid _ _ _ _ hk)
    exact ⟨h3, Forall₂_statusStep_trans _ _ _ (UploadToChain_statusStep _ _ _ _ hk) h4⟩

theorem GenerateRandomSalt_ok (reader salt rest : List Byte)
    (h : GenerateRandomSalt reader = .ok (salt, rest)) :
    salt = hex.EncodeToString (reader.take 16) := by
  unfold GenerateRandomSalt ReadFull at h
  split at h
  · cases h
  · rename_i s r hs
    split at hs
    · cases hs; cases h; rfl
    · cases hs

theorem Create_ok (db db' : DB) (tx : Transaction) (now : Nat)
    (h : db.Create tx now = .ok db') :
    (∀ t ∈ db.transactions, t.BizID ≠ tx.BizID) ∧
      db'.transactions = db.transactions ++
        [{ tx with ID := if tx.ID = 0 then db.nextID else tx.ID,
                   CreatedAt := now, UpdatedAt := now }] := by
  unfold DB.Create at h
  split at h
  · cases h
  · rename_i hn
    cases h
    refine ⟨fun t ht hb => hn ?_, rfl⟩
    rw [List.any_eq_true]
    exact ⟨t, ht, by simp [hb]⟩

/-- How a call of `CreateTransaction` can end. -/
theorem CreateTransaction_cases (H : Sha256) (A : AES) (key : GoString) (env : Env) (db : DB)
    (req : CreateTransactionRequest) (inst : GoString) :
    (CreateTransaction H A key env db req inst
        = (.ok { Success := false, BizID := req.BizID, Message := msgDuplicate }, db)) ∨
      ((CreateTransaction H A key env db req inst).2 = env.concurrent db ∧
        ∀ r, (CreateTransaction H A key env db req inst).1 ≠ .ok r) ∨
      (∃ salt cipher id,
        (CreateTransaction H A key env db req inst).1
          = .ok { Success := true, BizID := req.BizID, Message := msgCreated } ∧
        (∀ t ∈ (env.concurrent db).transactions, t.BizID ≠ req.BizID) ∧
        (CreateTransaction H A key env db req inst).2.transactions
          = (env.concurrent db).transactions ++
            [{ ID := id, BizID := req.BizID, InstitutionID := inst, AmountCipher := cipher,
               AmountHash := HashPassword H req.Amount,
               DataHash := CalculateDataHash H req.BizID req.Amount salt, Salt := salt,
               Receiver := req.Receiver, Sender := req.Sender, TxType := req.TxType,
               Status := TxStatusPending, CreatedAt := env.now, UpdatedAt := env.now }]) := by
  unfold CreateTransaction
  cases hf : db.First req.BizID with
  | ok t => exact Or.inl rfl
  | error e =>
    simp only []
    cases hs : GenerateRandomSalt env.reader with
    | error e => exact Or.inr (Or.inl ⟨rfl, fun r h => by cases h⟩)
    | ok p =>
      obtain ⟨salt, reader⟩ := p
      simp only []
      cases he : EncryptAmount A reader key req.Amount with
      | error e => exact Or.inr (Or.inl ⟨rfl, fun r h => by cases h⟩)
      | panic => exact Or.inr (Or.inl ⟨rfl, fun r h => by cases h⟩)
      | ok cipher =>
        simp only []
        cases hc : (env.concurrent db).Create
            { ID := 0, BizID := req.BizID, InstitutionID := inst, AmountCipher := cipher,
              AmountHash := HashPassword H req.Amount,
              DataHash := CalculateDataHash H req.BizID req.Amount salt, Salt := salt,
              Receiver := req.Receiver, Sender := req.Sender, TxType := req.TxType,
              Status := TxStatusPending, CreatedAt := 0, UpdatedAt := 0 } env.now with
        | error e => exact Or.inr (Or.inl ⟨rfl, fun r h => by cases h⟩)
        | ok db' =>
          obtain ⟨h1, h2⟩ := Create_ok _ _ _ _ hc
          exact Or.inr (Or.inr ⟨salt, cipher, (env.concurrent db).nextID, rfl, h1, h2⟩)

theorem Forall₂_mem_right {α : Type} (R : α → α → Prop) (l₁ l₂ : List α)
    (h : List.Forall₂ R l₁ l₂) : ∀ b ∈ l₂, ∃ a ∈ l₁, R a b := by
  induction h with
  | nil => intro b hb; cases hb
  | @cons a b' l₁ l₂ hab _ ih =>
    intro b hb
    rcases List.mem_cons.mp hb with rfl | hb'
    · exact ⟨a, List.mem_cons_self _ _, hab⟩
    · obtain ⟨a', ha', hr⟩ := ih b hb'
      exact ⟨a', List.mem_cons_of_mem _ ha', hr⟩

theorem Forall₂_statusStep_get (l₁ l₂ : List Transaction)
    (h : List.Forall₂ statusStep l₁ l₂) : ∀ (i : Nat) (t : Transaction),
      l₁[i]? = some t → t.Status ≠ TxStatusPending → l₂[i]? = some t := by
  induction h with
  | nil => intro i t h _; simp at h
  | @cons a b l₁ l₂ hab _ ih =>
    intro i t hi hs
    cases i with
    | zero =>
      simp only [List.getElem?_cons_zero, Option.some.injEq] at hi ⊢
      subst hi
      rcases hab with rfl | ⟨hp, _⟩
      · rfl
      · exact absurd hp hs
    | succ j =>
      simp only [List.getElem?_cons_succ] at hi ⊢
      exact ih j t hi hs

theorem onlyPendingToUploaded_spec (pre post : List Transaction)
    (h : onlyPendingToUploaded pre post) :
    (∀ (i : Nat) (t : Transaction), pre[i]? = some t → t.Status ≠ TxStatusPending →
        post[i]? = some t) ∧
      ∀ t' ∈ post, t'.Status = TxStatusMatched ∨ t'.Status = TxStatusMismatch → t' ∈ pre := by
  obtain ⟨kept, added, rfl, hk, ha⟩ := h
  constructor
  · intro i t hi hs
    have := Forall₂_statusStep_get pre kept hk i t hi hs
    have hlt : i < kept.length := by
      rcases List.getElem?_eq_some_iff.mp this with ⟨hlt, _⟩
      exact hlt
    rw [List.getElem?_append_left hlt]
    exact this
  · intro t' ht' hs
    rcases List.mem_append.mp ht' with hkept | hadded
    · obtain ⟨t, ht, hstep⟩ := Forall₂_mem_right statusStep pre kept hk t' hkept
      rcases hstep with rfl | ⟨_, n, rfl⟩
      · exact ht
      · rcases hs with hs | hs
        · exact absurd hs (by decide : TxStatusUploaded ≠ TxStatusMatched)
        · exact absurd hs (by decide : TxStatusUploaded ≠ TxStatusMismatch)
    · have := ha t' hadded
      rw [this] at hs
      rcases hs with hs | hs
      · exact absurd hs (by decide : TxStatusPending ≠ TxStatusMatched)
      · exact absurd hs (by decide : TxStatusPending ≠ TxStatusMismatch)

theorem statusOf_of_First (db : DB) (bizId : GoString) (t : Transaction)
    (h : db.First bizId = .ok t) : db.statusOf bizId = some t.Status := by
  simp only [DB.statusOf, h]

/-! ## The claims on the stored record and on the upload to the ledger -/

/-- C11: after a successful `CreateTransaction` the record that the store
returns for the BizID of the request is Pending, and its DataHash is
`CalculateDataHash` of its BizID, the requested amount and its own stored Salt,
so that `VerifyDataHash` holds for it. -/
theorem CreateTransaction_stored_record (H : Sha256) (A : AES) (encryptionKey : GoString)
    (env : Env) (db db' : DB) (req : CreateTransactionRequest) (institutionID : GoString)
    (result : CreateTransactionResult)
    (h : CreateTransaction H A encryptionKey env db req institutionID = (.ok result, db'))
    (hs : result.Success = true) :
    ∃ t, db'.First req.BizID = .ok t ∧ t.BizID = req.BizID ∧ t.Status = TxStatusPending ∧
      t.DataHash = CalculateDataHash H t.BizID req.Amount t.Salt ∧
      VerifyDataHash H t.BizID req.Amount t.Salt t.DataHash = true := by
  rcases CreateTransaction_cases H A encryptionKey env db req institutionID with
    hd | ⟨_, hn⟩ | ⟨salt, cipher, id, _, hnone, htx⟩
  · rw [h] at hd
    have := (Prod.mk.inj hd).1
    cases this
    cases hs
  · rw [h] at hn
    exact absurd rfl (hn result)
  · rw [h] at htx
    simp only at htx
    refine ⟨{ ID := id, BizID := req.BizID, InstitutionID := institutionID,
              AmountCipher := cipher, AmountHash := HashPassword H req.Amount,
              DataHash := CalculateDataHash H req.BizID req.Amount salt, Salt := salt,
              Receiver := req.Receiver, Sender := req.Sender, TxType := req.TxType,
              Status := TxStatusPending, CreatedAt := env.now, UpdatedAt := env.now },
      ?_, rfl, rfl, rfl, ?_⟩
    · unfold DB.First
      rw [htx, List.find?_append]
      have : (env.concurrent db).transactions.find? (fun t => t.BizID == req.BizID) = none := by
        rw [List.find?_eq_none]
        intro t ht
        simpa using hnone t ht
      rw [this]
      simp
    · simp only [VerifyDataHash, beq_self_eq_true]

/-- Witness of C11: the creation of `"TX001"` on the empty store. -/
theorem CreateTransaction_stored_record_witness :
    ∃ t, (CreateTransaction exampleSha256 exampleAES exampleKey quietEnv emptyDB exampleRequest
          defaultInstitutionID).2.First exampleRequest.BizID = .ok t ∧
      t.BizID = exampleRequest.BizID ∧ t.Status = TxStatusPending ∧
      t.DataHash = CalculateDataHash exampleSha256 t.BizID exampleRequest.Amount t.Salt ∧
      VerifyDataHash exampleSha256 t.BizID exampleRequest.Amount t.Salt t.DataHash = true :=
  CreateTransaction_stored_record exampleSha256 exampleAES exampleKey quietEnv emptyDB _
    exampleRequest defaultInstitutionID
    { Success := true, BizID := exampleRequest.BizID, Message := msgCreated } rfl rfl

/-- C12: `UploadToChain` fails with the not-found error when no transaction
has the BizID, and with the invalid-status error when the transaction found is
not Pending; in both cases the ledger gateway is not invoked and the store is
left as it was. -/
theorem UploadToChain_rejects (env : UploadEnv) (db : DB) (bizId contractAddress : GoString) :
    ((∀ t ∈ db.transactions, t.BizID ≠ bizId) →
        UploadToChain env db bizId contractAddress =
          { err := some (.transactionNotFound .ErrRecordNotFound), db := db, calls := [] }) ∧
      ∀ tx, db.First bizId = .ok tx → tx.Status ≠ TxStatusPending →
        UploadToChain env db bizId contractAddress =
          { err := some (.invalidTransactionStatus tx.Status), db := db, calls := [] } :=
  ⟨fun h => UploadToChain_not_found env db bizId contractAddress _ (First_of_not_mem db bizId h),
    fun tx hf hs => UploadToChain_not_pending env db bizId contractAddress tx hf hs⟩

/-- Witness of C12: `"TX001"` on the empty store and on the store that holds it Uploaded. -/
theorem UploadToChain_rejects_witness :
    UploadToChain goodUpload emptyDB bizTX001 [] =
        { err := some (.transactionNotFound .ErrRecordNotFound), db := emptyDB, calls := [] } ∧
      UploadToChain goodUpload uploadedDB bizTX001 [] =
        { err := some (.invalidTransactionStatus TxStatusUploaded), db := uploadedDB,
          calls := [] } :=
  ⟨(UploadToChain_rejects goodUpload emptyDB bizTX001 []).1 (by simp [emptyDB]),
    (UploadToChain_rejects goodUpload uploadedDB bizTX001 []).2
      { exampleRecord with Status := TxStatusUploaded } rfl (by decide)⟩

/-- C13: when the ledger gateway fails during `UploadToChain` on a Pending
transaction, the call returns an error and leaves the store as it was: the
status is still Pending and no receipt has been written. -/
theorem UploadToChain_gateway_failure (env : UploadEnv) (db : DB)
    (bizId contractAddress : GoString) (tx : Transaction)
    (hf : db.First bizId = .ok tx) (hs : tx.Status = TxStatusPending)
    (hg : env.SendTransaction contractAddress tx.BizID tx.DataHash = none) :
    (UploadToChain env db bizId contractAddress).err = some .failedToUploadToChain ∧
      (UploadToChain env db bizId contractAddress).db = db ∧
      (UploadToChain env db bizId contractAddress).db.statusOf bizId = some TxStatusPending ∧
      (UploadToChain env db bizId contractAddress).db.chainReceipts = db.chainReceipts := by
  rw [UploadToChain_gateway_error env db bizId contractAddress tx hf hs hg]
  refine ⟨rfl, rfl, ?_, rfl⟩
  simp only [statusOf_of_First db bizId tx hf, hs]

/-- Witness of C13: the ledger is down while `"TX001"` is uploaded. -/
theorem UploadToChain_gateway_failure_witness :
    (UploadToChain ledgerDown exampleDB bizTX001 []).err = some .failedToUploadToChain ∧
      (UploadToChain ledgerDown exampleDB bizTX001 []).db = exampleDB ∧
      (UploadToChain ledgerDown exampleDB bizTX001 []).db.statusOf bizTX001
        = some TxStatusPending ∧
      (UploadToChain ledgerDown exampleDB bizTX001 []).db.chainReceipts
        = exampleDB.chainReceipts :=
  UploadToChain_gateway_failure ledgerDown exampleDB bizTX001 [] exampleRecord rfl rfl rfl

/-- C14, as stated, fails: when the insert of the receipt fails at the store,
`UploadToChain` logs the failure and returns success although the store holds
no receipt; when the update of the status fails, it returns success although
the status is still Pending. -/
theorem UploadToChain_success_without_writes :
    (UploadToChain receiptWriteFails exampleDB bizTX001 []).err = none ∧
      (UploadToChain receiptWriteFails exampleDB bizTX001 []).db.chainReceipts = [] ∧
      (UploadToChain statusWriteFails exampleDB bizTX001 []).err = none ∧
      (UploadToChain statusWriteFails exampleDB bizTX001 []).db.statusOf bizTX001
        = some TxStatusPending := by
  decide

/-- C14, amended: whenever `UploadToChain` returns success for a BizID and
neither store write of the call fails (the store is in order and holds no
receipt for the BizID yet), the status afterwards is Uploaded and the store
holds a receipt with the BizID of the transaction, the hash returned by the
ledger gateway and the status Success. -/
theorem UploadToChain_success_writes (env : UploadEnv) (db : DB)
    (bizId contractAddress : GoString)
    (herr : (UploadToChain env db bizId contractAddress).err = none)
    (hk : db.KeysValid) (hrf : env.receiptFault = false) (hsf : env.statusFault = false)
    (hnr : ∀ r ∈ db.chainReceipts, r.BizID ≠ bizId) :
    ∃ tx txHash, db.First bizId = .ok tx ∧
      env.SendTransaction contractAddress tx.BizID tx.DataHash = some txHash ∧
      (UploadToChain env db bizId contractAddress).db.statusOf bizId = some TxStatusUploaded ∧
      ∃ r ∈ (UploadToChain env db bizId contractAddress).db.chainReceipts,
        r.BizID = tx.BizID ∧ r.TxHash = txHash ∧ r.Status = ChainReceiptStatusSuccess := by
  rcases UploadToChain_cases env db bizId contractAddress with ⟨e, _, h⟩ | ⟨tx, _, _, h⟩ |
    ⟨tx, _, _, _, h⟩ | ⟨tx, txHash, hf, hs, hg, h⟩
  · rw [h] at herr; cases herr
  · rw [h] at herr; cases herr
  · rw [h] at herr; cases herr
  · have htx := First_ok_BizID db bizId tx hf
    refine ⟨tx, txHash, hf, hg, ?_, ?_⟩
    · have hz : ¬ (env.statusFault = true ∨ tx.ID = 0) := by
        rw [hsf]
        simp only [Bool.false_eq_true, false_or]
        exact hk.2 tx htx.2
      rw [h]
      simp only [DB.statusOf, afterWrites_First, if_neg hz, hf, Except.map, setUploaded, if_true]
    · have hd : ¬ (env.receiptFault = true ∨
          db.chainReceipts.any (fun r => r.BizID == tx.BizID) = true) := by
        rw [hrf]
        simp only [Bool.false_eq_true, false_or, List.any_eq_true, not_exists, not_and]
        intro r hr
        rw [htx.1]
        simpa using hnr r hr
      rw [h]
      simp only [afterWrites_chainReceipts, if_neg hd]
      exact ⟨_, List.mem_append_right _ (List.mem_singleton_self _), rfl, rfl, rfl⟩

/-- Witness of C14, amended: the upload of `"TX001"` while ledger and store work. -/
theorem UploadToChain_success_writes_witness :
    ∃ tx txHash, exampleDB.First bizTX001 = .ok tx ∧
      goodUpload.SendTransaction [] tx.BizID tx.DataHash = some txHash ∧
      (UploadToChain goodUpload exampleDB bizTX001 []).db.statusOf bizTX001
        = some TxStatusUploaded ∧
      ∃ r ∈ (UploadToChain goodUpload exampleDB bizTX001 []).db.chainReceipts,
        r.BizID = tx.BizID ∧ r.TxHash = txHash ∧ r.Status = ChainReceiptStatusSuccess :=
  UploadToChain_success_writes goodUpload exampleDB bizTX001 [] rfl
    ⟨by decide, by decide⟩ rfl rfl (by simp [exampleDB])

/-- C15, as stated, fails: after a failed insert of the receipt the store shows
the status Uploaded without a receipt, and after a failed update of the status
it shows the new receipt while the status is still Pending. -/
theorem UploadToChain_partial_write :
    ((UploadToChain receiptWriteFails exampleDB bizTX001 []).db.statusOf bizTX001
        = some TxStatusUploaded ∧
      (UploadToChain receiptWriteFails exampleDB bizTX001 []).db.chainReceipts = []) ∧
    ((UploadToChain statusWriteFails exampleDB bizTX001 []).db.statusOf bizTX001
        = some TxStatusPending ∧
      (UploadToChain statusWriteFails exampleDB bizTX001 []).db.chainReceipts.map (·.BizID)
        = [bizTX001]) := by
  decide

/-- C15, amended: on a store that holds no receipt for the BizID, a call of
`UploadToChain` that returns an error leaves the store as it was; a call that
returns success leaves a receipt for the BizID exactly when the insert of the
receipt did not fail, and the status Uploaded exactly when the update of the
status did not fail (the status stays Pending otherwise).  So the store shows
both or neither whenever no store write fails, and one of the two alone when
one write fails. -/
theorem UploadToChain_both_or_neither (env : UploadEnv) (db : DB)
    (bizId contractAddress : GoString) (hk : db.KeysValid)
    (hnr : ∀ r ∈ db.chainReceipts, r.BizID ≠ bizId) :
    ((UploadToChain env db bizId contractAddress).err ≠ none →
        (UploadToChain env db bizId contractAddress).db = db) ∧
      ((UploadToChain env db bizId contractAddress).err = none →
        ((UploadToChain env db bizId contractAddress).db.hasReceipt bizId ↔
          env.receiptFault = false) ∧
        ((UploadToChain env db bizId contractAddress).db.statusOf bizId
            = some TxStatusUploaded ↔ env.statusFault = false) ∧
        (env.statusFault = true →
          (UploadToChain env db bizId contractAddress).db.statusOf bizId
            = some TxStatusPending)) := by
  rcases UploadToChain_cases env db bizId contractAddress with ⟨e, _, h⟩ | ⟨tx, _, _, h⟩ |
    ⟨tx, _, _, _, h⟩ | ⟨tx, txHash, hf, hs, hg, h⟩
  · rw [h]; exact ⟨fun _ => rfl, fun h' => by cases h'⟩
  · rw [h]; exact ⟨fun _ => rfl, fun h' => by cases h'⟩
  · rw [h]; exact ⟨fun _ => rfl, fun h' => by cases h'⟩
  · have htx := First_ok_BizID db bizId tx hf
    have hany : ¬ db.chainReceipts.any (fun r => r.BizID == tx.BizID) = true := by
      simp only [List.any_eq_true, not_exists, not_and]
      intro r hr
      rw [htx.1]
      simpa using hnr r hr
    have hid : tx.ID ≠ 0 := hk.2 tx htx.2
    rw [h]
    refine ⟨fun h' => absurd rfl h', fun _ => ⟨?_, ?_, ?_⟩⟩
    · unfold DB.hasReceipt
      rw [afterWrites_chainReceipts]
      cases hrf : env.receiptFault
      · simp only [Bool.false_eq_true, false_or, hany, if_false, iff_true]
        exact ⟨_, List.mem_append_right _ (List.mem_singleton_self _), htx.1⟩
      · simp only [true_or, if_true, Bool.true_eq_false, iff_false]
        rintro ⟨r, hr, hb⟩
        exact hnr r hr hb
    · cases hsf : env.statusFault
      · simp only [DB.statusOf, afterWrites_First, hsf, Bool.false_eq_true, false_or, hid,
          if_false, hf, Except.map, setUploaded, if_true]
      · simp only [DB.statusOf, afterWrites_First, hsf, true_or, if_true, hf, hs,
          Bool.true_eq_false, iff_false, Option.some.injEq]
        decide
    · intro hsf
      simp only [DB.statusOf, afterWrites_First, hsf, true_or, if_true, hf, hs]

/-- Witness of C15, amended: the upload of `"TX001"` while ledger and store work. -/
theorem UploadToChain_both_or_neither_witness :
    (UploadToChain goodUpload exampleDB bizTX001 []).db.hasReceipt bizTX001 ∧
      (UploadToChain goodUpload exampleDB bizTX001 []).db.statusOf bizTX001
        = some TxStatusUploaded :=
  ⟨(((UploadToChain_both_or_neither goodUpload exampleDB bizTX001 []
      ⟨by decide, by decide⟩ (by simp [exampleDB])).2 rfl).1).2 rfl,
    (((UploadToChain_both_or_neither goodUpload exampleDB bizTX001 []
      ⟨by decide, by decide⟩ (by simp [exampleDB])).2 rfl).2.1).2 rfl⟩

/-- When the update of the status fails at the store after a successful upload
of `"TX001"`, the transaction stays Pending and the next call uploads it to the
ledger a second time. -/
theorem upload_twice_after_status_fault :
    successfulUploads bizTX001
        (runUploads [] (fun i => if i = 0 then statusWriteFails else goodUpload) exampleDB
          [.single bizTX001, .single bizTX001]).2 = 2 := by
  decide

/-- Calls that run one after another: over any sequence of calls of
`UploadToChain` and `BatchUploadToChain` run by `runUploads` in which no update
of the status fails at the store, the upload to the ledger succeeds at most
once per BizID; once it has succeeded,
every later call for the BizID fails with the invalid-status error without
invoking the ledger gateway and without touching the store; and the store
never holds two receipts for one BizID. -/
theorem uploads_at_most_once (contractAddress : GoString) (envs : Nat → UploadEnv) (db : DB)
    (ops : List UploadOp) (bizId : GoString) (hk : db.KeysValid)
    (hs : ∀ i, (envs i).statusFault = false)
    (hr : (db.chainReceipts.map (·.BizID)).Nodup) :
    successfulUploads bizId (runUploads contractAddress envs db ops).2 ≤ 1 ∧
      (1 ≤ successfulUploads bizId (runUploads contractAddress envs db ops).2 →
        ∀ env, ∃ status,
          UploadToChain env (runUploads contractAddress envs db ops).1 bizId contractAddress =
            { err := some (.invalidTransactionStatus status),
              db := (runUploads contractAddress envs db ops).1, calls := [] }) ∧
      ((runUploads contractAddress envs db ops).1.chainReceipts.map (·.BizID)).Nodup := by
  rw [runUploads_eq]
  obtain ⟨h1, h2⟩ := uploadEach_at_most_once contractAddress bizId
    (ops.flatMap UploadOp.ids) envs db hk hs
  refine ⟨h1, fun hone env => ?_,
    (uploadEach_invariants contractAddress (ops.flatMap UploadOp.ids) envs db).1 hr⟩
  obtain ⟨t, ht, hst⟩ := h2 hone
  exact ⟨t.Status, UploadToChain_not_pending env _ bizId contractAddress t ht hst⟩

/-- An instance: `"TX001"` uploaded alone and then again in a batch. -/
theorem uploads_at_most_once_witness :
    successfulUploads bizTX001
        (runUploads [] (fun _ => goodUpload) twoPendingDB
          [.single bizTX001, .batch [bizTX001, bizTX002]]).2 ≤ 1 :=
  (uploads_at_most_once [] (fun _ => goodUpload) twoPendingDB
    [.single bizTX001, .batch [bizTX001, bizTX002]] bizTX001 ⟨by decide, by decide⟩
    (fun _ => rfl) (by decide)).1

theorem onlyPendingToUploaded_of_steps (pre post : List Transaction)
    (h : List.Forall₂ statusStep pre post) : onlyPendingToUploaded pre post :=
  ⟨post, [], (List.append_nil post).symm, h, fun _ ht => by cases ht⟩

theorem CreateTransaction_onlyPendingToUploaded (H : Sha256) (A : AES) (key : GoString)
    (env : Env) (db : DB) (req : CreateTransactionRequest) (inst : GoString) :
    onlyPendingToUploaded db.transactions
        (CreateTransaction H A key env db req inst).2.transactions ∨
      onlyPendingToUploaded (env.concurrent db).transactions
        (CreateTransaction H A key env db req inst).2.transactions := by
  rcases CreateTransaction_cases H A key env db req inst with h | ⟨h, _⟩ | ⟨_, _, _, _, _, h⟩
  · left; rw [h]
    exact onlyPendingToUploaded_of_steps _ _ (Forall₂_statusStep_refl _)
  · right; rw [h]
    exact onlyPendingToUploaded_of_steps _ _ (Forall₂_statusStep_refl _)
  · right; rw [h]
    refine ⟨_, _, rfl, Forall₂_statusStep_refl _, ?_⟩
    intro t ht
    rw [List.mem_singleton] at ht
    rw [ht]

/-- C17: the operations of the service change the status of a transaction
only from Pending to Uploaded.  `CreateTransaction` leaves the records of the
store as they are and at most adds a Pending one; `UploadToChain` and
`BatchUploadToChain` leave every record as it is or turn a Pending record into
an Uploaded one.  So a record that is Uploaded, Matched or Mismatch stays as
it is, and every Matched or Mismatch record after a call was there before. -/
theorem status_only_pending_to_uploaded (H : Sha256) (A : AES) (encryptionKey : GoString)
    (env : Env) (req : CreateTransactionRequest) (institutionID : GoString)
    (uenv : UploadEnv) (envs : Nat → UploadEnv) (db : DB) (bizId : GoString)
    (bizIds : List GoString) (contractAddress : GoString) (hk : db.KeysValid) :
    (onlyPendingToUploaded db.transactions
          (CreateTransaction H A encryptionKey env db req institutionID).2.transactions ∨
        onlyPendingToUploaded (env.concurrent db).transactions
          (CreateTransaction H A encryptionKey env db req institutionID).2.transactions) ∧
      onlyPendingToUploaded db.transactions
        (UploadToChain uenv db bizId contractAddress).db.transactions ∧
      onlyPendingToUploaded db.transactions
        (BatchUploadToChain envs db bizIds contractAddress).db.transactions ∧
      ∀ pre post, onlyPendingToUploaded pre post →
        (∀ (i : Nat) (t : Transaction), pre[i]? = some t → t.Status ≠ TxStatusPending →
            post[i]? = some t) ∧
          ∀ t ∈ post, t.Status = TxStatusMatched ∨ t.Status = TxStatusMismatch → t ∈ pre := by
  refine ⟨CreateTransaction_onlyPendingToUploaded H A encryptionKey env db req institutionID,
    onlyPendingToUploaded_of_steps _ _ (UploadToChain_statusStep uenv db bizId contractAddress hk),
    ?_, onlyPendingToUploaded_spec⟩
  rw [(BatchUploadToChain_eq contractAddress envs db bizIds).1]
  exact onlyPendingToUploaded_of_steps _ _
    ((uploadEach_invariants contractAddress bizIds envs db).2 hk).2

/-- Witness of C17: the Matched record `"TX002"` stays as it is through a batch
upload of `"TX001"` and `"TX002"`. -/
theorem status_only_pending_to_uploaded_witness :
    (BatchUploadToChain (fun _ => goodUpload) mixedDB [bizTX001, bizTX002]
        []).db.transactions[1]?
      = some { exampleRecord with ID := 2, BizID := bizTX002, Status := TxStatusMatched } :=
  ((status_only_pending_to_uploaded exampleSha256 exampleAES exampleKey quietEnv exampleRequest
      defaultInstitutionID goodUpload (fun _ => goodUpload) mixedDB bizTX001
      [bizTX001, bizTX002] [] ⟨by decide, by decide⟩).2.2.2 _ _
    (status_only_pending_to_uploaded exampleSha256 exampleAES exampleKey quietEnv exampleRequest
      defaultInstitutionID goodUpload (fun _ => goodUpload) mixedDB bizTX001
      [bizTX001, bizTX002] [] ⟨by decide, by decide⟩).2.2.1).1 1 _ rfl (by decide)

/-- C18, as stated, fails: when an id occurs twice in the input and its first
upload succeeds, the second one fails on the status, and the id is reported
both in `SuccessIDs` and in `FailedIDs`. -/
theorem BatchUploadToChain_id_in_both :
    (BatchUploadToChain (fun _ => goodUpload) exampleDB [bizTX001, bizTX001] []).result.SuccessIDs
        = [bizTX001] ∧
      (BatchUploadToChain (fun _ => goodUpload) exampleDB [bizTX001, bizTX001] []).result.FailedIDs
        = [bizTX001] := by
  decide

/-- C18, amended: for every input list, `SuccessIDs` followed by `FailedIDs`
is a rearrangement of the input, so every occurrence of an id is reported
exactly once and the ids reported are exactly the input ids; when the input
ids are pairwise different, no id is in both lists. -/
theorem BatchUploadToChain_partition (envs : Nat → UploadEnv) (db : DB)
    (bizIds : List GoString) (contractAddress : GoString) :
    ((BatchUploadToChain envs db bizIds contractAddress).result.SuccessIDs ++
        (BatchUploadToChain envs db bizIds contractAddress).result.FailedIDs).Perm bizIds ∧
      (∀ id, (id ∈ (BatchUploadToChain envs db bizIds contractAddress).result.SuccessIDs ∨
          id ∈ (BatchUploadToChain envs db bizIds contractAddress).result.FailedIDs) ↔
        id ∈ bizIds) ∧
      (bizIds.Nodup →
        ∀ id, id ∈ (BatchUploadToChain envs db bizIds contractAddress).result.SuccessIDs →
          id ∉ (BatchUploadToChain envs db bizIds contractAddress).result.FailedIDs) := by
  obtain ⟨_, _, _, _, _, hS, hF⟩ := BatchUploadToChain_eq contractAddress envs db bizIds
  have hperm : ((BatchUploadToChain envs db bizIds contractAddress).result.SuccessIDs ++
      (BatchUploadToChain envs db bizIds contractAddress).result.FailedIDs).Perm bizIds := by
    rw [hS, hF]
    have := partition_perm (uploadEach contractAddress envs db bizIds).1
    rw [uploadEach_ids] at this
    exact this
  refine ⟨hperm, fun id => ?_, fun hnd id hs hf => ?_⟩
  · rw [← List.mem_append]
    exact hperm.mem_iff
  · have h := (List.Perm.nodup_iff hperm).mpr hnd
    exact (List.nodup_append.mp h).2.2 hs hf

/-- Witness of C18, amended: two different ids, the second of them unknown. -/
theorem BatchUploadToChain_partition_witness :
    ∀ id, id ∈ (BatchUploadToChain (fun _ => goodUpload) exampleDB [bizTX001, bizTX002]
        []).result.SuccessIDs →
      id ∉ (BatchUploadToChain (fun _ => goodUpload) exampleDB [bizTX001, bizTX002]
        []).result.FailedIDs :=
  (BatchUploadToChain_partition (fun _ => goodUpload) exampleDB [bizTX001, bizTX002] []).2.2
    (by decide)

/-- C19: `BatchUploadToChain` returns `Total = len(bizIds)`,
`Success = len(SuccessIDs)`, `Failed = len(FailedIDs)` and
`Success + Failed = Total`; when the ids are pairwise different and each of
them is Pending in the store, `Failed` is the number of ids for which the
ledger gateway fails and `Success` is `Total` less that number. -/
theorem BatchUploadToChain_counts (envs : Nat → UploadEnv) (db : DB)
    (bizIds : List GoString) (contractAddress : GoString) :
    (BatchUploadToChain envs db bizIds contractAddress).result.Total = bizIds.length ∧
      (BatchUploadToChain envs db bizIds contractAddress).result.Success
        = (BatchUploadToChain envs db bizIds contractAddress).result.SuccessIDs.length ∧
      (BatchUploadToChain envs db bizIds contractAddress).result.Failed
        = (BatchUploadToChain envs db bizIds contractAddress).result.FailedIDs.length ∧
      (BatchUploadToChain envs db bizIds contractAddress).result.Success +
          (BatchUploadToChain envs db bizIds contractAddress).result.Failed
        = (BatchUploadToChain envs db bizIds contractAddress).result.Total ∧
      (db.KeysValid → bizIds.Nodup →
        (∀ b ∈ bizIds, ∃ tx, db.First b = .ok tx ∧ tx.Status = TxStatusPending) →
        (BatchUploadToChain envs db bizIds contractAddress).result.Failed
            = gatewayFailures contractAddress db envs bizIds ∧
          (BatchUploadToChain envs db bizIds contractAddress).result.Success
            = (BatchUploadToChain envs db bizIds contractAddress).result.Total
              - gatewayFailures contractAddress db envs bizIds) := by
  obtain ⟨_, _, hT, hSn, hFn, hS, hF⟩ := BatchUploadToChain_eq contractAddress envs db bizIds
  have hlen := (partition_perm (uploadEach contractAddress envs db bizIds).1).length_eq
  rw [uploadEach_ids, List.length_append, List.length_map, List.length_map] at hlen
  have hsum : (BatchUploadToChain envs db bizIds contractAddress).result.Success +
      (BatchUploadToChain envs db bizIds contractAddress).result.Failed
        = (BatchUploadToChain envs db bizIds contractAddress).result.Total := by
    rw [hSn, hFn, hT]; exact hlen
  refine ⟨hT, ?_, ?_, hsum, fun hk hnd hp => ?_⟩
  · rw [hSn, hS, List.length_map]
  · rw [hFn, hF, List.length_map]
  · have hfail : (BatchUploadToChain envs db bizIds contractAddress).result.Failed
        = gatewayFailures contractAddress db envs bizIds := by
      rw [hFn]
      exact failed_eq_gatewayFailures contractAddress bizIds envs db hk hnd hp
    refine ⟨hfail, ?_⟩
    rw [← hfail]
    omega

/-- Witness of C19: two Pending ids, the ledger fails for the first of them. -/
theorem BatchUploadToChain_counts_witness :
    (BatchUploadToChain (fun i => if i = 0 then ledgerDown else goodUpload) twoPendingDB
        [bizTX001, bizTX002] []).result.Failed
        = gatewayFailures [] twoPendingDB (fun i => if i = 0 then ledgerDown else goodUpload)
            [bizTX001, bizTX002] ∧
      (BatchUploadToChain (fun i => if i = 0 then ledgerDown else goodUpload) twoPendingDB
        [bizTX001, bizTX002] []).result.Success
        = (BatchUploadToChain (fun i => if i = 0 then ledgerDown else goodUpload) twoPendingDB
            [bizTX001, bizTX002] []).result.Total
          - gatewayFailures [] twoPendingDB (fun i => if i = 0 then ledgerDown else goodUpload)
              [bizTX001, bizTX002] :=
  (BatchUploadToChain_counts (fun i => if i = 0 then ledgerDown else goodUpload) twoPendingDB
    [bizTX001, bizTX002] []).2.2.2.2 ⟨by decide, by decide⟩ (by decide)
    (by
      intro b hb
      simp only [List.mem_cons, List.mem_singleton, List.not_mem_nil, or_false] at hb
      rcases hb with rfl | rfl
      · exact ⟨exampleRecord, rfl, rfl⟩
      · exact ⟨{ exampleRecord with ID := 2, BizID := bizTX002 }, rfl, rfl⟩)

/-- C20: `BatchUploadToChain` does what one call of `UploadToChain` per id in
input order does: every id is attempted, the store and the invocations of
the ledger gateway are those of the calls one after the other, an id is in
`FailedIDs` exactly when its own call returns an error and in `SuccessIDs`
exactly when it returns none; and a call that returns an error leaves the
store as the calls before it left it. -/
theorem BatchUploadToChain_refines_uploadEach (envs : Nat → UploadEnv) (db : DB)
    (bizIds : List GoString) (contractAddress : GoString) :
    (uploadEach contractAddress envs db bizIds).1.map (·.1) = bizIds ∧
      (BatchUploadToChain envs db bizIds contractAddress).db
        = (uploadEach contractAddress envs db bizIds).2.1 ∧
      (BatchUploadToChain envs db bizIds contractAddress).calls
        = (uploadEach contractAddress envs db bizIds).2.2 ∧
      (BatchUploadToChain envs db bizIds contractAddress).result.FailedIDs
        = ((uploadEach contractAddress envs db bizIds).1.filter (fun p => p.2.isSome)).map (·.1) ∧
      (BatchUploadToChain envs db bizIds contractAddress).result.SuccessIDs
        = ((uploadEach contractAddress envs db bizIds).1.filter (fun p => p.2.isNone)).map (·.1) ∧
      ∀ (env : UploadEnv) (store : DB) (bizId : GoString),
        (UploadToChain env store bizId contractAddress).err = none ∨
          (UploadToChain env store bizId contractAddress).db = store := by
  obtain ⟨h1, h2, _, _, _, hS, hF⟩ := BatchUploadToChain_eq contractAddress envs db bizIds
  refine ⟨uploadEach_ids contractAddress bizIds envs db, h1, h2, hF, hS, ?_⟩
  intro env store bizId
  rcases UploadToChain_cases env store bizId contractAddress with ⟨e, _, h⟩ | ⟨tx, _, _, h⟩ |
    ⟨tx, _, _, _, h⟩ | ⟨tx, txHash, _, _, _, h⟩
  · right; rw [h]
  · right; rw [h]
  · right; rw [h]
  · left; rw [h]

/-! ## The claims on the response, the binding of the commitment and the key -/

/-- C21: the response of `Transaction.ToResponse` does not depend on the
secret fields: a transaction and the same transaction with any other `Salt`,
`AmountCipher` and `AmountHash` have the same response, and `GetTransaction`
returns the same result on a store and on the store in which these three fields
of every record are replaced. -/
theorem ToResponse_independent_of_secrets (t : Transaction)
    (salt amountCipher amountHash : GoString) (db : DB)
    (secrets : Transaction → GoString × GoString × GoString) (bizId : GoString) :
    ({ t with Salt := salt, AmountCipher := amountCipher,
              AmountHash := amountHash }).ToResponse = t.ToResponse ∧
      GetTransaction
          { db with
            transactions := db.transactions.map fun t =>
              { t with Salt := (secrets t).1, AmountCipher := (secrets t).2.1,
                       AmountHash := (secrets t).2.2 } } bizId
        = GetTransaction db bizId := by
  refine ⟨rfl, ?_⟩
  unfold GetTransaction
  rw [First_of_map db _ (fun t =>
    { t with Salt := (secrets t).1, AmountCipher := (secrets t).2.1,
             AmountHash := (secrets t).2.2 }) (fun _ => rfl) rfl bizId]
  cases db.First bizId <;> rfl

/-- C22, counterexample: the triples `("TX1", "23", "s")` and
`("TX12", "3", "s")` are different, yet the byte strings hashed for them are
the same, so `VerifyDataHash` is true for the second triple on the hash of the
first, whatever the digest function. -/
theorem CalculateDataHash_concatenation_ambiguous :
    (([84, 88, 49], [50, 51], [115]) : GoString × GoString × GoString)
        ≠ ([84, 88, 49, 50], [51], [115]) ∧
      Sprintf3 [84, 88, 49] [50, 51] [115] = Sprintf3 [84, 88, 49, 50] [51] [115] ∧
      ∀ H : Sha256,
        VerifyDataHash H [84, 88, 49, 50] [51] [115]
          (CalculateDataHash H [84, 88, 49] [50, 51] [115]) = true := by
  refine ⟨by decide, rfl, fun H => ?_⟩
  simp [VerifyDataHash, CalculateDataHash, Sprintf3]

/-- C22, amended: for triples whose business ids have the same length and
whose amounts have the same length, different triples give different byte
strings to hash, and `VerifyDataHash` on the hash of the other triple is true
only when these two different strings have the same SHA-256 digest. -/
theorem CalculateDataHash_binds_fields_of_equal_length (H : Sha256)
    (bizId amount salt bizId' amount' salt' : GoString)
    (hb : bizId.length = bizId'.length) (ha : amount.length = amount'.length)
    (hne : (bizId, amount, salt) ≠ (bizId', amount', salt')) :
    Sprintf3 bizId amount salt ≠ Sprintf3 bizId' amount' salt' ∧
      (VerifyDataHash H bizId' amount' salt' (CalculateDataHash H bizId amount salt) = true →
        H.Sum256 (Sprintf3 bizId' amount' salt') = H.Sum256 (Sprintf3 bizId amount salt)) := by
  constructor
  · intro h
    apply hne
    unfold Sprintf3 at h
    rw [List.append_assoc, List.append_assoc] at h
    obtain ⟨h1, h2⟩ := List.append_inj h hb
    obtain ⟨h3, h4⟩ := List.append_inj h2 ha
    rw [h1, h3, h4]
  · intro h
    simp only [VerifyDataHash, CalculateDataHash, beq_iff_eq] at h
    exact EncodeToString_injective _ _ h

theorem CalculateDataHash_binds_fields_of_equal_length_witness :
    Sprintf3 [84, 88, 49] [50, 51] [115] ≠ Sprintf3 [84, 88, 50] [50, 51] [115] ∧
      (VerifyDataHash exampleSha256 [84, 88, 50] [50, 51] [115]
          (CalculateDataHash exampleSha256 [84, 88, 49] [50, 51] [115]) = true →
        exampleSha256.Sum256 (Sprintf3 [84, 88, 50] [50, 51] [115])
          = exampleSha256.Sum256 (Sprintf3 [84, 88, 49] [50, 51] [115])) :=
  CalculateDataHash_binds_fields_of_equal_length exampleSha256
    [84, 88, 49] [50, 51] [115] [84, 88, 50] [50, 51] [115] rfl rfl (by decide)

/-- C23: the key that `main` passes to the service is 29 bytes long, not 32:
with it no call of `CreateTransaction` stores a transaction (a call returns
the duplicate result or an error), and a call for a new BizID, with random
bytes available, fails at the encryption step with the key-length error. -/
theorem CreateTransaction_with_api_key_fails :
    apiEncryptionKey.length = 29 ∧
      (∀ (H : Sha256) (A : AES) (env : Env) (db : DB) (req : CreateTransactionRequest)
          (inst : GoString) (r : CreateTransactionResult),
        (CreateTransaction H A apiEncryptionKey env db req inst).1 = .ok r →
          r.Success = false) ∧
      (∀ (A : AES) (reader : List Byte) (plaintext : GoString),
        EncryptAmount A reader apiEncryptionKey plaintext = .error .keyMustBe32Bytes) ∧
      CreateTransaction exampleSha256 exampleAES apiEncryptionKey quietEnv emptyDB
          exampleRequest defaultInstitutionID
        = (.error (.failedToEncryptAmount .keyMustBe32Bytes), emptyDB) := by
  have hk : ∀ (A : AES) (reader plaintext : GoString),
      EncryptAmount A reader apiEncryptionKey plaintext = .error .keyMustBe32Bytes := by
    intro A reader plaintext
    unfold EncryptAmount
    rw [if_pos (by decide)]
  refine ⟨rfl, ?_, ?_, ?_⟩
  · intro H A env db req inst r h
    unfold CreateTransaction at h
    cases hf : db.First req.BizID with
    | ok t =>
      rw [hf] at h
      simp only [ServiceRes.ok.injEq] at h
      rw [← h]
    | error e =>
      rw [hf] at h
      simp only [] at h
      cases hs : GenerateRandomSalt env.reader with
      | error e => rw [hs] at h; cases h
      | ok p =>
        obtain ⟨salt, reader⟩ := p
        rw [hs] at h
        simp only [hk] at h
        cases h
  · exact hk
  · rfl

/-! ## Lemmas on the import -/

theorem parseRow_error_of_lacksField (row : List GoString) (m : GoString → Option Nat)
    (col : GoString) (field : String)
    (h : requiredFields.find? (fun p => lacksField row m p.1) = some (col, field)) :
    parseRow row m = .error (.invalidColumn field) ∨
      parseRow row m = .error (.fieldIsEmpty field) := by
  unfold parseRow
  simp only [requiredFields, List.find?, lacksField] at h
  rcases h1 : m colBizID with _ | i1
  · simp only [h1] at h ⊢
    cases h
    exact Or.inl rfl
  simp only [h1] at h ⊢
  by_cases c1 : i1 ≥ row.length
  · rw [if_pos c1] at h ⊢
    cases h
    exact Or.inl rfl
  rw [if_neg c1] at h ⊢
  by_cases e1 : row.getD i1 [] = []
  · rw [if_pos e1] at h ⊢
    cases h
    exact Or.inr rfl
  rw [if_neg e1] at h ⊢
  simp only [] at h
  rcases h2 : m colAmount with _ | i2
  · simp only [h2] at h ⊢
    cases h
    exact Or.inl rfl
  simp only [h2] at h ⊢
  by_cases c2 : i2 ≥ row.length
  · rw [if_pos c2] at h ⊢
    cases h
    exact Or.inl rfl
  rw [if_neg c2] at h ⊢
  by_cases e2 : row.getD i2 [] = []
  · rw [if_pos e2] at h ⊢
    cases h
    exact Or.inr rfl
  rw [if_neg e2] at h ⊢
  simp only [] at h
  rcases h3 : m colSender with _ | i3
  · simp only [h3] at h ⊢
    cases h
    exact Or.inl rfl
  simp only [h3] at h ⊢
  by_cases c3 : i3 ≥ row.length
  · rw [if_pos c3] at h ⊢
    cases h
    exact Or.inl rfl
  rw [if_neg c3] at h ⊢
  by_cases e3 : row.getD i3 [] = []
  · rw [if_pos e3] at h ⊢
    cases h
    exact Or.inr rfl
  rw [if_neg e3] at h ⊢
  simp only [] at h
  rcases h4 : m colReceiver with _ | i4
  · simp only [h4] at h ⊢
    cases h
    exact Or.inl rfl
  simp only [h4] at h ⊢
  by_cases c4 : i4 ≥ row.length
  · rw [if_pos c4] at h ⊢
    cases h
    exact Or.inl rfl
  rw [if_neg c4] at h ⊢
  by_cases e4 : row.getD i4 [] = []
  · rw [if_pos e4] at h ⊢
    cases h
    exact Or.inr rfl
  rw [if_neg e4] at h ⊢
  simp only [] at h
  cases h

theorem parseRow_of_fields_present (row : List GoString) (m : GoString → Option Nat)
    (h : ∀ p ∈ requiredFields, lacksField row m p.1 = false) :
    parseRow row m =
      match m colTxType with
      | none =>
        .ok { BizID := cellOf row m colBizID, Amount := cellOf row m colAmount,
              Sender := cellOf row m colSender, Receiver := cellOf row m colReceiver,
              TxType := 1 }
      | some txTypeIdx =>
        if txTypeIdx < row.length ∧ row.getD txTypeIdx [] ≠ [] then
          match Atoi (row.getD txTypeIdx []) with
          | none => .error .invalidTxType
          | some txType =>
            .ok { BizID := cellOf row m colBizID, Amount := cellOf row m colAmount,
                  Sender := cellOf row m colSender, Receiver := cellOf row m colReceiver,
                  TxType := toInt8 txType }
        else
          .ok { BizID := cellOf row m colBizID, Amount := cellOf row m colAmount,
                Sender := cellOf row m colSender, Receiver := cellOf row m colReceiver,
                TxType := 1 } := by
  have g1 := h (colBizID, "biz_id") (by simp [requiredFields])
  have g2 := h (colAmount, "amount") (by simp [requiredFields])
  have g3 := h (colSender, "sender") (by simp [requiredFields])
  have g4 := h (colReceiver, "receiver") (by simp [requiredFields])
  unfold parseRow cellOf
  simp only [lacksField] at g1 g2 g3 g4
  rcases h1 : m colBizID with _ | i1
  · rw [h1] at g1
    cases g1
  simp only [h1] at g1 ⊢
  by_cases c1 : i1 ≥ row.length
  · rw [if_pos c1] at g1
    cases g1
  rw [if_neg c1] at g1 ⊢
  by_cases e1 : row.getD i1 [] = []
  · rw [if_pos e1] at g1
    cases g1
  rw [if_neg e1]
  rcases h2 : m colAmount with _ | i2
  · rw [h2] at g2
    cases g2
  simp only [h2] at g2 ⊢
  by_cases c2 : i2 ≥ row.length
  · rw [if_pos c2] at g2
    cases g2
  rw [if_neg c2] at g2 ⊢
  by_cases e2 : row.getD i2 [] = []
  · rw [if_pos e2] at g2
    cases g2
  rw [if_neg e2]
  rcases h3 : m colSender with _ | i3
  · rw [h3] at g3
    cases g3
  simp only [h3] at g3 ⊢
  by_cases c3 : i3 ≥ row.length
  · rw [if_pos c3] at g3
    cases g3
  rw [if_neg c3] at g3 ⊢
  by_cases e3 : row.getD i3 [] = []
  · rw [if_pos e3] at g3
    cases g3
  rw [if_neg e3]
  rcases h4 : m colReceiver with _ | i4
  · rw [h4] at g4
    cases g4
  simp only [h4] at g4 ⊢
  by_cases c4 : i4 ≥ row.length
  · rw [if_pos c4] at g4
    cases g4
  rw [if_neg c4] at g4 ⊢
  by_cases e4 : row.getD i4 [] = []
  · rw [if_pos e4] at g4
    cases g4
  exact (if_neg e4).trans rfl

theorem parseDataRows_abort (m : GoString → Option Nat) (pre post : List (List GoString))
    (row : List GoString) (e : ExcelError)
    (hpre : ∀ r ∈ pre, isEmptyRow r = true ∨ ∃ x, parseRow r m = .ok x)
    (hrow : isEmptyRow row = false) (he : parseRow row m = .error e)
    (i : Nat) (acc : List ExcelRow) :
    parseDataRows m i (pre ++ row :: post) acc
      = .error (.failedToParseRow (i + pre.length + 1) e) := by
  induction pre generalizing i acc with
  | nil =>
    simp only [List.nil_append, parseDataRows, hrow, he, List.length_nil, Nat.add_zero]
    rfl
  | cons r pre ih =>
    have hpre' : ∀ r ∈ pre, isEmptyRow r = true ∨ ∃ x, parseRow r m = .ok x :=
      fun r hr => hpre r (List.mem_cons_of_mem _ hr)
    have hlen : i + (r :: pre).length + 1 = (i + 1) + pre.length + 1 := by
      simp only [List.length_cons]; omega
    rw [hlen, List.cons_append]
    rcases hpre r (List.mem_cons_self _ _) with hr | ⟨x, hx⟩
    · simp only [parseDataRows, hr, if_true]
      exact ih hpre' _ _
    · cases hr : isEmptyRow r with
      | true =>
        simp only [parseDataRows, hr, if_true]
        exact ih hpre' _ _
      | false =>
        simp only [parseDataRows, hr, hx]
        exact ih hpre' _ _

theorem parseDataRows_ok (m : GoString → Option Nat) (rows : List (List GoString))
    (h : ∀ r ∈ rows, isEmptyRow r = true ∨ ∃ x, parseRow r m = .ok x)
    (i : Nat) (acc : List ExcelRow) :
    parseDataRows m i rows acc = .ok (acc ++ parsedRows m rows) := by
  induction rows generalizing i acc with
  | nil => simp [parseDataRows, parsedRows]
  | cons r rows ih =>
    have h' : ∀ r ∈ rows, isEmptyRow r = true ∨ ∃ x, parseRow r m = .ok x :=
      fun r hr => h r (List.mem_cons_of_mem _ hr)
    cases hr : isEmptyRow r with
    | true =>
      simp only [parseDataRows, hr, if_true]
      rw [ih h']
      simp [parsedRows, List.filterMap_cons, hr]
    | false =>
      rcases h r (List.mem_cons_self _ _) with hr' | ⟨x, hx⟩
      · rw [hr] at hr'; cases hr'
      · have e1 : parseDataRows m i (r :: rows) acc = parseDataRows m (i + 1) rows (acc ++ [x]) := by
          simp only [parseDataRows, hr, hx]
          rfl
        have e2 : parsedRows m (r :: rows) = x :: parsedRows m rows := by
          simp [parsedRows, List.filterMap_cons, hr, hx]
        rw [e1, e2, ih h' (i + 1) (acc ++ [x]), List.append_assoc]
        rfl

/-- How `parseRow` sets the transaction type of a row whose four required
fields are present. -/
theorem parseRow_TxType (row : List GoString) (m : GoString → Option Nat)
    (h : ∀ p ∈ requiredFields, lacksField row m p.1 = false) :
    (m colTxType = none → parseRow row m = .ok (rowWith row m 1)) ∧
      (∀ idx, m colTxType = some idx → idx ≥ row.length ∨ row.getD idx [] = [] →
        parseRow row m = .ok (rowWith row m 1)) ∧
      (∀ idx, m colTxType = some idx → idx < row.length → row.getD idx [] ≠ [] →
        Atoi (row.getD idx []) = none → parseRow row m = .error .invalidTxType) ∧
      (∀ idx n, m colTxType = some idx → idx < row.length → row.getD idx [] ≠ [] →
        Atoi (row.getD idx []) = some n → parseRow row m = .ok (rowWith row m (toInt8 n))) := by
  rw [parseRow_of_fields_present row m h]
  refine ⟨?_, ?_, ?_, ?_⟩
  · intro h0
    rw [h0]
    rfl
  · intro idx h0 hc
    rw [h0]
    simp only []
    rw [if_neg]
    · rfl
    · rintro ⟨h1, h2⟩
      rcases hc with hc | hc
      · omega
      · exact h2 hc
  · intro idx h0 h1 h2 h3
    rw [h0]
    simp only []
    rw [if_pos ⟨h1, h2⟩, h3]
  · intro idx n h0 h1 h2 h3
    rw [h0]
    simp only []
    rw [if_pos ⟨h1, h2⟩, h3]
    rfl

theorem toInt8_eq_iff (n : Int) : toInt8 n = n ↔ -128 ≤ n ∧ n ≤ 127 := by
  unfold toInt8
  omega

/-! ## The claims on the import -/

/-- C24, counterexample: in a sheet whose data rows 2 and 4 are valid and whose
data row 3 has an empty amount, `ParseExcelFile` returns the error of row 3 and
no row at all, although rows 2 and 4 parse. -/
theorem ParseExcelFile_returns_no_row_after_bad_row :
    ParseExcelFile exampleWorkbook = .error (.failedToParseRow 3 (.fieldIsEmpty "amount")) ∧
      parseRow [bizTX001, [49, 48, 48], [65], [66], [49]] exampleColIndexMap
        = .ok { BizID := bizTX001, Amount := [49, 48, 48], Sender := [65], Receiver := [66],
                TxType := 1 } ∧
      parseRow [[84, 88, 48, 48, 51], [49, 48, 48], [65], [66], [49]] exampleColIndexMap
        = .ok { BizID := [84, 88, 48, 48, 51], Amount := [49, 48, 48], Sender := [65],
                Receiver := [66], TxType := 1 } :=
  ⟨rfl, rfl, rfl⟩

/-- C24, amended: when a non-empty data row lacks a required field and the
data rows before it are empty or valid, `ParseExcelFile` rejects the whole
sheet: it returns no row and the error that names the first field the row
lacks and the number of the row (counted from 1 with the header); the rows
before it would have been returned had the sheet ended there. -/
theorem ParseExcelFile_rejects_sheet_on_row_lacking_field
    (header : List GoString) (pre post : List (List GoString)) (row : List GoString)
    (m : GoString → Option Nat) (col : GoString) (field : String)
    (others : List (Option (List (List GoString))))
    (hh : parseHeader header = .ok m)
    (hpre : ∀ r ∈ pre, isEmptyRow r = true ∨ ∃ x, parseRow r m = .ok x)
    (hrow : isEmptyRow row = false)
    (hf : requiredFields.find? (fun p => lacksField row m p.1) = some (col, field)) :
    (ParseExcelFile (.opened (some (header :: (pre ++ row :: post)) :: others))
          = .error (.failedToParseRow (pre.length + 2) (.invalidColumn field)) ∨
        ParseExcelFile (.opened (some (header :: (pre ++ row :: post)) :: others))
          = .error (.failedToParseRow (pre.length + 2) (.fieldIsEmpty field))) ∧
      (pre ≠ [] →
        ParseExcelFile (.opened (some (header :: pre) :: others)) = .ok (parsedRows m pre)) := by
  constructor
  · have hlen : ¬ (header :: (pre ++ row :: post)).length ≤ 1 := by
      simp only [List.length_cons, List.length_append]; omega
    have key : ∀ e, parseRow row m = .error e →
        ParseExcelFile (.opened (some (header :: (pre ++ row :: post)) :: others))
          = .error (.failedToParseRow (pre.length + 2) e) := by
      intro e he
      simp only [ParseExcelFile, if_neg hlen, List.headD_cons, hh, List.drop_succ_cons,
        List.drop_zero]
      rw [parseDataRows_abort m pre post row e hpre hrow he 1 []]
      have : 1 + pre.length + 1 = pre.length + 2 := by omega
      rw [this]
    rcases parseRow_error_of_lacksField row m col field hf with he | he
    · exact Or.inl (key _ he)
    · exact Or.inr (key _ he)
  · intro hne
    have hlen : ¬ (header :: pre).length ≤ 1 := by
      cases pre with
      | nil => exact absurd rfl hne
      | cons r rs => simp only [List.length_cons]; omega
    simp only [ParseExcelFile, if_neg hlen, List.headD_cons, hh, List.drop_succ_cons,
      List.drop_zero]
    rw [parseDataRows_ok m pre hpre 1 []]
    rfl

theorem ParseExcelFile_rejects_sheet_on_row_lacking_field_witness :
    (ParseExcelFile exampleWorkbook = .error (.failedToParseRow 3 (.invalidColumn "amount")) ∨
        ParseExcelFile exampleWorkbook = .error (.failedToParseRow 3 (.fieldIsEmpty "amount"))) ∧
      (([[bizTX001, [49, 48, 48], [65], [66], [49]]] : List (List GoString)) ≠ [] →
        ParseExcelFile
            (.opened [some [exampleHeader, [bizTX001, [49, 48, 48], [65], [66], [49]]]])
          = .ok (parsedRows exampleColIndexMap [[bizTX001, [49, 48, 48], [65], [66], [49]]])) :=
  ParseExcelFile_rejects_sheet_on_row_lacking_field exampleHeader
    [[bizTX001, [49, 48, 48], [65], [66], [49]]]
    [[[84, 88, 48, 48, 51], [49, 48, 48], [65], [66], [49]]]
    [bizTX002, [], [65], [66], [49]] exampleColIndexMap colAmount "amount" [] rfl
    (by
      intro r hr
      rw [List.mem_singleton] at hr
      rw [hr]
      exact Or.inr ⟨_, rfl⟩)
    rfl rfl

/-- C25: for the cell `"300"` in the transaction-type column of a row with its
four required fields, `parseRow` returns the transaction type 44, not 300:
`strconv.Atoi` reads 300 and the conversion `int8(txType)` keeps its low
eight bits; the same holds through `ParseExcelFile`. -/
theorem parseRow_TxType_wraps :
    Atoi [51, 48, 48] = some 300 ∧
      parseRow rowWithType300 exampleColIndexMap
        = .ok { BizID := bizTX001, Amount := [49, 48, 48], Sender := [65], Receiver := [66],
                TxType := 44 } ∧
      ParseExcelFile (.opened [some [exampleHeader, rowWithType300]])
        = .ok [{ BizID := bizTX001, Amount := [49, 48, 48], Sender := [65], Receiver := [66],
                 TxType := 44 }] :=
  ⟨rfl, rfl, rfl⟩

/-! ## Lemmas on the ledger clients, the listener and the statistics -/

theorem DecodeString_ok_length (n : Nat) :
    ∀ (c : GoString), c.length ≤ n → ∀ bs, hex.DecodeString c = .ok bs →
      c.length = 2 * bs.length := by
  induction n with
  | zero =>
    intro c hc bs h
    cases c with
    | nil =>
      simp only [hex.DecodeString] at h
      cases h
      rfl
    | cons p rest => simp at hc
  | succ n ih =>
    intro c hc bs h
    match c, hc, h with
    | [], _, h =>
      simp only [hex.DecodeString] at h
      cases h
      rfl
    | [p], _, h =>
      simp only [hex.DecodeString] at h
      split at h <;> cases h
    | p :: q :: rest, hc, h =>
      simp only [hex.DecodeString] at h
      split at h
      · cases h
      · split at h
        · cases h
        · cases hr : hex.DecodeString rest with
          | error e => rw [hr] at h; cases h
          | ok bs' =>
            rw [hr] at h
            cases h
            have := ih rest (by simp only [List.length_cons] at hc; omega) bs' hr
            simp only [List.length_cons]
            omega

theorem stringToBytes32_length (s : GoString) : (stringToBytes32 s).length = 32 := by
  simp only [stringToBytes32, List.length_append, List.length_take, List.length_replicate]
  omega

theorem padded_length_eq (s s' : GoString) (hle : s.length ≤ s'.length) (hs' : s'.length ≤ 32)
    (hz' : (0 : Byte) ∉ s')
    (h : s ++ List.replicate (32 - s.length) (0 : Byte)
      = s' ++ List.replicate (32 - s'.length) (0 : Byte)) :
    s.length = s'.length := by
  by_contra hne
  have hlt : s.length < s'.length := by omega
  have h1 : (s ++ List.replicate (32 - s.length) (0 : Byte))[s.length]? = some 0 := by
    rw [List.getElem?_append_right (Nat.le_refl _), Nat.sub_self]
    have : 32 - s.length = (32 - s.length - 1) + 1 := by omega
    rw [this, List.replicate_succ]
    simp
  have h2 : (s' ++ List.replicate (32 - s'.length) (0 : Byte))[s.length]? = s'[s.length]? :=
    List.getElem?_append_left hlt
  rw [h, h2] at h1
  exact hz' (List.mem_iff_getElem?.mpr ⟨_, h1⟩)

theorem countStatus_sum (l : List Transaction)
    (h : ∀ t ∈ l, t.Status = TxStatusPending ∨ t.Status = TxStatusUploaded ∨
      t.Status = TxStatusMatched ∨ t.Status = TxStatusMismatch) :
    (l.filter fun t => t.Status = TxStatusPending).length
        + (l.filter fun t => t.Status = TxStatusUploaded).length
        + (l.filter fun t => t.Status = TxStatusMatched).length
        + (l.filter fun t => t.Status = TxStatusMismatch).length = l.length := by
  induction l with
  | nil => rfl
  | cons t l ih =>
    have ih' := ih fun u hu => h u (List.mem_cons_of_mem _ hu)
    have hP : TxStatusPending = 0 := rfl
    have hU : TxStatusUploaded = 1 := rfl
    have hM : TxStatusMatched = 2 := rfl
    have hX : TxStatusMismatch = 3 := rfl
    rw [hP, hU, hM, hX] at ih' ⊢
    rcases h t (List.mem_cons_self _ _) with ht | ht | ht | ht <;>
      simp only [hP, hU, hM, hX] at ht <;>
      simp [List.filter_cons, ht] <;> omega

/-- Without an institution filter, and with every status one of the four
named ones, the four status counts of `GetStatistics` add up to the total. -/
theorem GetStatistics_unfiltered_sum (db : DB)
    (h : ∀ t ∈ db.transactions, t.Status = TxStatusPending ∨ t.Status = TxStatusUploaded ∨
      t.Status = TxStatusMatched ∨ t.Status = TxStatusMismatch) :
    (GetStatistics db []).PendingCount + (GetStatistics db []).UploadedCount
        + (GetStatistics db []).MatchedCount + (GetStatistics db []).MismatchCount
      = (GetStatistics db []).TotalTransactions := by
  simp only [GetStatistics, DB.countStatus, ne_eq, not_true_eq_false, if_false]
  exact countStatus_sum db.transactions h

/-! ## The claims on the ledger clients, the listener, decryption and the statistics -/

/-- C26, counterexample: a FISCO client without a contract helper answers a
call with one BizID and no data hash with the error "contract helper not
initialized", not with the length-mismatch error. -/
theorem BatchUploadTransactions_without_helper :
    ([bizTX001] : List GoString).length ≠ ([] : List GoString).length ∧
      clientWithoutHelper.BatchUploadTransactions [bizTX001] []
        = (.error .contractHelperNotInitialized, []) :=
  ⟨by decide, rfl⟩

/-- C26, amended: whenever the two lists differ in length,
`EncodeBatchUploadTransactions` and `BatchUploadTransactions` of the Fabric
client fail with the length-mismatch error, and so does
`BatchUploadTransactions` of a FISCO client that has a contract helper; a
FISCO client without one fails with "contract helper not initialized"; in
every case nothing is sent to the ledger. -/
theorem BatchUploadTransactions_length_mismatch (c : Client) (f : FabricClient)
    (helper : ContractHelper) (bizIds dataHashes : List GoString)
    (hne : bizIds.length ≠ dataHashes.length) :
    helper.EncodeBatchUploadTransactions bizIds dataHashes = .error .lengthMismatch ∧
      f.BatchUploadTransactions bizIds dataHashes = (.error .lengthMismatch, []) ∧
      (c.contractHelper.isSome = true →
        c.BatchUploadTransactions bizIds dataHashes = (.error .lengthMismatch, [])) ∧
      (c.contractHelper.isSome = false →
        c.BatchUploadTransactions bizIds dataHashes
          = (.error .contractHelperNotInitialized, [])) := by
  refine ⟨?_, ?_, ?_, ?_⟩
  · unfold ContractHelper.EncodeBatchUploadTransactions
    rw [if_pos hne]
  · unfold FabricClient.BatchUploadTransactions
    rw [if_pos hne]
  · intro hc
    unfold Client.BatchUploadTransactions
    cases hh : c.contractHelper with
    | none => rw [hh] at hc; cases hc
    | some helper' =>
      simp only []
      rw [if_pos hne]
  · intro hc
    unfold Client.BatchUploadTransactions
    cases hh : c.contractHelper with
    | none => rfl
    | some helper' => rw [hh] at hc; cases hc

theorem BatchUploadTransactions_length_mismatch_witness :
    ContractHelper.EncodeBatchUploadTransactions ⟨fun _ _ => some []⟩ [bizTX001] []
        = .error .lengthMismatch ∧
      exampleFabricClient.BatchUploadTransactions [bizTX001] [] = (.error .lengthMismatch, []) ∧
      (clientWithHelper.contractHelper.isSome = true →
        clientWithHelper.BatchUploadTransactions [bizTX001] [] = (.error .lengthMismatch, [])) ∧
      (clientWithHelper.contractHelper.isSome = false →
        clientWithHelper.BatchUploadTransactions [bizTX001] []
          = (.error .contractHelperNotInitialized, [])) :=
  BatchUploadTransactions_length_mismatch clientWithHelper exampleFabricClient
    ⟨fun _ _ => some []⟩ [bizTX001] [] (by decide)

/-- C27: whatever wake-ups `EventListener.Start` receives (any number of ticks,
ended or not by the cancellation of its context), the store after the run is
the store before it: no transaction status, no reconciliation record and no
event log is changed, whether or not the `Processed` flag of an event is set. -/
theorem EventListener_Start_store_unchanged (wakeups : List Wakeup) (store : ListenerStore) :
    (EventListener_Start wakeups store).1 = store ∧
      ∀ n : Nat, (EventListener_Start (List.replicate n .tick) store).1 = store := by
  have key : ∀ (ws : List Wakeup) (log : List String), (listenerLoop ws store log).1 = store := by
    intro ws
    induction ws with
    | nil => intro log; rfl
    | cons w ws ih =>
      intro log
      cases w with
      | done => rfl
      | tick => exact ih _
  exact ⟨key _ _, fun n => key _ _⟩

/-- C28: `DecryptAmount` panics exactly for a 32-byte key and the empty
ciphertext string: the decoded ciphertext has length 0, which passes the test
`len(ciphertext) % aes.BlockSize != 0`, and the slice `ciphertext[:aes.BlockSize]`
is then out of range. -/
theorem DecryptAmount_panics_on_empty_ciphertext (A : AES) (key ciphertextHex : GoString) :
    (DecryptAmount A key ciphertextHex = .panic ↔ key.length = 32 ∧ ciphertextHex = []) ∧
      DecryptAmount exampleAES exampleKey [] = .panic := by
  refine ⟨?_, rfl⟩
  unfold DecryptAmount
  by_cases hk : key.length = 32
  swap
  · rw [if_pos hk]
    constructor
    · intro h; cases h
    · intro h; exact absurd h.1 hk
  rw [if_neg (not_not.mpr hk)]
  cases hd : hex.DecodeString ciphertextHex with
  | error e =>
    simp only []
    constructor
    · intro h; cases h
    · rintro ⟨_, h⟩
      rw [h] at hd
      simp only [hex.DecodeString] at hd
      cases hd
  | ok ct =>
    have hlen := DecodeString_ok_length _ ciphertextHex (Nat.le_refl _) ct hd
    simp only [NewCipher_32 A key hk, aes.BlockSize]
    by_cases hm : ct.length % 16 ≠ 0
    · rw [if_pos hm]
      constructor
      · intro h; cases h
      · rintro ⟨_, h⟩
        rw [h] at hlen
        simp only [List.length_nil] at hlen
        omega
    · rw [if_neg hm]
      by_cases hl : ct.length < 16
      · rw [if_pos hl]
        refine ⟨fun _ => ⟨hk, ?_⟩, fun _ => rfl⟩
        have : ciphertextHex.length = 0 := by omega
        exact List.length_eq_zero.mp this
      · rw [if_neg hl]
        have hiv : (ct.take 16).length = 16 := by
          simp only [List.length_take]; omega
        have hsrc : (ct.drop 16).length % 16 = 0 := by
          simp only [List.length_drop]; omega
        simp only [CBCDecrypter_CryptBlocks, aes.BlockSize, hiv, hsrc, ne_eq, not_true_eq_false,
          if_false]
        constructor
        · intro h
          cases hu : pkcs7Unpad (cbcDecryptLoop (blockOf A key) ((ct.drop 16).length / 16)
              (ct.take 16) (ct.drop 16)) 16 with
          | error e => rw [hu] at h; cases h
          | ok x => rw [hu] at h; cases h
        · rintro ⟨_, h⟩
          rw [h] at hlen
          simp only [List.length_nil] at hlen
          omega

/-- C29, counterexample: two different BizIDs of 33 bytes with the same first
32 bytes have the same ledger key, and so have `"A"` and `"A"` followed by a
zero byte. -/
theorem stringToBytes32_not_injective :
    (List.replicate 32 65 ++ [49] : GoString) ≠ List.replicate 32 65 ++ [50] ∧
      (List.replicate 32 65 ++ [49] : GoString).length ≤ 64 ∧
      (List.replicate 32 65 ++ [50] : GoString).length ≤ 64 ∧
      BizIdToBytes32 (List.replicate 32 65 ++ [49]) = BizIdToBytes32 (List.replicate 32 65 ++ [50]) ∧
      ([65] : GoString) ≠ [65, 0] ∧
      stringToBytes32 [65] = stringToBytes32 [65, 0] := by
  refine ⟨by decide, by decide, by decide, by decide, by decide, by decide⟩

/-- C29, amended: `stringToBytes32` and `BizIdToBytes32` map any two different
BizIDs of at most 32 bytes that contain no zero byte to different values of 32
bytes; a longer BizID has the value of its first 32 bytes. -/
theorem stringToBytes32_injective_on_short (s s' : GoString)
    (hs : s.length ≤ 32) (hs' : s'.length ≤ 32)
    (hz : (0 : Byte) ∉ s) (hz' : (0 : Byte) ∉ s') (hne : s ≠ s') :
    stringToBytes32 s ≠ stringToBytes32 s' ∧ BizIdToBytes32 s ≠ BizIdToBytes32 s' ∧
      (stringToBytes32 s).length = 32 ∧
      ∀ long : GoString, stringToBytes32 long = stringToBytes32 (long.take 32) := by
  have key : stringToBytes32 s ≠ stringToBytes32 s' := by
    intro h
    apply hne
    unfold stringToBytes32 at h
    rw [List.take_of_length_le hs, List.take_of_length_le hs'] at h
    have hl : s.length = s'.length := by
      rcases Nat.le_total s.length s'.length with hle | hle
      · exact padded_length_eq s s' hle hs' hz' h
      · exact (padded_length_eq s' s hle hs hz h.symm).symm
    exact (List.append_inj h hl).1
  refine ⟨key, key, stringToBytes32_length s, ?_⟩
  intro long
  unfold stringToBytes32
  rw [List.take_take, Nat.min_self, List.length_take]
  congr 2
  omega

theorem stringToBytes32_injective_on_short_witness :
    stringToBytes32 bizTX001 ≠ stringToBytes32 bizTX002 ∧
      BizIdToBytes32 bizTX001 ≠ BizIdToBytes32 bizTX002 ∧
      (stringToBytes32 bizTX001).length = 32 ∧
      ∀ long : GoString, stringToBytes32 long = stringToBytes32 (long.take 32) :=
  stringToBytes32_injective_on_short bizTX001 bizTX002 (by decide) (by decide) (by decide)
    (by decide) (by decide)

/-- C30: on a store with one Pending record of `"INST001"` and two Matched
records of `"INST002"`, `GetStatistics("INST001")` returns the total 1 with the
counts Pending 1, Uploaded 0, Matched 2 and Mismatch 0, which add up to 3, and
a match rate of 200: the institution filter is applied to the total only. -/
theorem GetStatistics_counts_ignore_institution_filter :
    (GetStatistics statisticsDB defaultInstitutionID).TotalTransactions = 1 ∧
      (GetStatistics statisticsDB defaultInstitutionID).PendingCount = 1 ∧
      (GetStatistics statisticsDB defaultInstitutionID).UploadedCount = 0 ∧
      (GetStatistics statisticsDB defaultInstitutionID).MatchedCount = 2 ∧
      (GetStatistics statisticsDB defaultInstitutionID).MismatchCount = 0 ∧
      (GetStatistics statisticsDB defaultInstitutionID).MatchRate = 200 := by
  refine ⟨by decide, by decide, by decide, by decide, by decide, ?_⟩
  have ht : (GetStatistics statisticsDB defaultInstitutionID).MatchRate
      = if 1 > 0 then ((2 : Nat) : ℚ) / ((1 : Nat) : ℚ) * 100 else 0 := rfl
  rw [ht]
  norm_num

/-! ## Lemmas on a ciphertext string with its last character replaced -/

theorem EncodeToString_append (a b : List Byte) :
    hex.EncodeToString (a ++ b) = hex.EncodeToString a ++ hex.EncodeToString b := by
  induction a with
  | nil => rfl
  | cons v rest ih =>
    have e : (v :: rest) ++ b = v :: (rest ++ b) := rfl
    rw [e]
    simp only [hex.EncodeToString, ih, List.cons_append]

theorem DecodeString_EncodeToString_append (a : List Byte) (rest : GoString) :
    hex.DecodeString (hex.EncodeToString a ++ rest) =
      match hex.DecodeString rest with
      | .error e => .error e
      | .ok bs => .ok (a ++ bs) := by
  induction a with
  | nil =>
    simp only [hex.EncodeToString, List.nil_append]
    cases hex.DecodeString rest <;> rfl
  | cons v a ih =>
    obtain ⟨h1, h2, h3⟩ := decode_pair v
    have e : hex.EncodeToString (v :: a) ++ rest =
        hex.hextableAt (v.val >>> 4) :: hex.hextableAt (v.val &&& 0x0f)
          :: (hex.EncodeToString a ++ rest) := rfl
    rw [e]
    simp only [hex.DecodeString, if_neg h1, if_neg h2, ih, h3]
    cases hex.DecodeString rest <;> rfl

set_option maxRecDepth 100000 in
theorem low_digit_determines_byte :
    ∀ (v : Byte) (x : Fin 16),
      ((Fin.ofNat ((hex.reverseHexTable (hex.hextableAt (v.val >>> 4)) <<< 4) ||| x.val) : Byte)
          = v ↔ x.val = hex.reverseHexTable (hex.hextableAt (v.val &&& 0x0f))) := by
  decide

theorem DecryptAmount_congr (A : AES) (key c₁ c₂ : GoString)
    (h : hex.DecodeString c₁ = hex.DecodeString c₂) :
    DecryptAmount A key c₁ = DecryptAmount A key c₂ := by
  unfold DecryptAmount
  rw [h]

theorem setLast_concat (l : List Byte) (a b : Byte) : setLast (l ++ [a]) b = l ++ [b] := by
  simp [setLast]

/-- The decoding of a hexadecimal string of `d ++ [v]` whose last character is
replaced by `ch`. -/
theorem DecodeString_setLast (d : List Byte) (v ch : Byte) :
    (hex.EncodeToString (d ++ [v])).getLast?
        = some (hex.hextableAt (v.val &&& 0x0f)) ∧
      hex.DecodeString (setLast (hex.EncodeToString (d ++ [v])) ch) =
        if hex.reverseHexTable ch > 0x0f then .error (.InvalidByteError ch)
        else .ok (d ++ [Fin.ofNat
          ((hex.reverseHexTable (hex.hextableAt (v.val >>> 4)) <<< 4) |||
            hex.reverseHexTable ch)]) := by
  have he : hex.EncodeToString (d ++ [v]) =
      (hex.EncodeToString d ++ [hex.hextableAt (v.val >>> 4)])
        ++ [hex.hextableAt (v.val &&& 0x0f)] := by
    rw [EncodeToString_append]
    simp [hex.EncodeToString]
  constructor
  · rw [he]
    simp
  · rw [he, setLast_concat, List.append_assoc, DecodeString_EncodeToString_append]
    obtain ⟨h1, _, _⟩ := decode_pair v
    simp only [List.singleton_append, hex.DecodeString, if_neg h1]
    by_cases hch : hex.reverseHexTable ch > 0x0f
    · rw [if_pos hch, if_pos hch]
    · rw [if_neg hch, if_neg hch]

/-! ## The claim on a changed ciphertext -/

/-- C5, as stated, fails: the ciphertext string of `"100"` ends in the
character `b`; with this character replaced by `B` the string decodes to the
same bytes and `DecryptAmount` returns the plaintext `"100"`, and with it
replaced by `g` `DecryptAmount` fails with the error of the hexadecimal
decoding, which is neither a padding error nor a plaintext. -/
theorem DecryptAmount_last_character_uppercase :
    EncryptAmount exampleAES (List.replicate 16 9) exampleKey [49, 48, 48]
        = .ok exampleCiphertext ∧
      exampleCiphertext.getLast? = some 98 ∧
      DecryptAmount exampleAES exampleKey (setLast exampleCiphertext 66) = .ok [49, 48, 48] ∧
      DecryptAmount exampleAES exampleKey (setLast exampleCiphertext 103)
        = .error (.failedToDecodeHex (.InvalidByteError 103)) := by
  refine ⟨?_, by decide, by decide, by decide⟩
  exact EncryptAmount_eq exampleAES (List.replicate 16 9) exampleKey [49, 48, 48] (by decide)
    (by decide)

/-- C5, amended: let `c` be the string that `EncryptAmount` returns under a
32-byte key, `last` its last character and `c'` the string `c` with its last
character replaced by `ch`.  When `ch` is not a hexadecimal digit,
`DecryptAmount` on `c'` fails with the error of the hexadecimal decoding; when
`ch` has the value of `last` as a hexadecimal digit (`last` itself or its
upper-case form), it returns the plaintext; when `ch` is a hexadecimal digit
of another value, so that the last byte of the ciphertext is changed, it fails
with the padding error or returns a string different from the plaintext. -/
theorem DecryptAmount_last_character_changed (A : AES) (hA : A.Lawful)
    (reader key plaintext c : GoString) (last ch : Byte)
    (hk : key.length = 32) (hr : 16 ≤ reader.length)
    (hc : EncryptAmount A reader key plaintext = .ok c)
    (hlast : c.getLast? = some last) :
    (hex.reverseHexTable ch > 0x0f →
        DecryptAmount A key (setLast c ch)
          = .error (.failedToDecodeHex (.InvalidByteError ch))) ∧
      (hex.reverseHexTable ch = hex.reverseHexTable last →
        DecryptAmount A key (setLast c ch) = .ok plaintext) ∧
      (hex.reverseHexTable ch ≤ 0x0f → hex.reverseHexTable ch ≠ hex.reverseHexTable last →
        (DecryptAmount A key (setLast c ch) = .error (.failedToUnpad .ErrInvalidPKCSData) ∨
            ∃ p, DecryptAmount A key (setLast c ch) = .ok p ∧ p ≠ plaintext) ∧
          DecryptAmount A key (setLast c ch) ≠ .ok plaintext) := by
  have hiv : (reader.take 16).length = 16 := by simp only [List.length_take]; omega
  rw [EncryptAmount_eq A reader key plaintext hk hr] at hc
  have hce := Res.ok.inj hc
  have hlen := rawCiphertext_length A hA (reader.take 16) key plaintext hk hiv
  have hne : rawCiphertext A (reader.take 16) key plaintext ≠ [] := by
    intro h
    rw [h] at hlen
    simp only [List.length_nil] at hlen
    omega
  obtain ⟨d, v, hdv⟩ : ∃ d v, rawCiphertext A (reader.take 16) key plaintext = d ++ [v] :=
    ⟨_, _, (List.dropLast_append_getLast hne).symm⟩
  obtain ⟨hl, hd⟩ := DecodeString_setLast d v ch
  rw [← hdv, hce] at hl hd
  rw [hlast] at hl
  have hlast' : last = hex.hextableAt (v.val &&& 0x0f) := Option.some.inj hl
  obtain ⟨_, hlo, _⟩ := decode_pair v
  refine ⟨fun hch => ?_, fun hch => ?_, fun hch hval => ?_⟩
  · rw [if_pos hch] at hd
    simp only [DecryptAmount, hk, ne_eq, not_true_eq_false, if_false, hd]
  · have hch' : ¬ hex.reverseHexTable ch > 0x0f := by
      rw [hch, hlast']
      exact hlo
    rw [if_neg hch'] at hd
    have hb := (low_digit_determines_byte v ⟨hex.reverseHexTable ch, by omega⟩).mpr
      (by show hex.reverseHexTable ch = _; rw [hch, hlast'])
    simp only [] at hb
    rw [hb, ← hdv] at hd
    rw [DecryptAmount_congr A key _ _ (hd.trans (DecodeString_EncodeToString _).symm)]
    exact DecryptAmount_raw A hA (reader.take 16) key plaintext hk hiv
  · have hch' : ¬ hex.reverseHexTable ch > 0x0f := by omega
    rw [if_neg hch'] at hd
    have hb : (Fin.ofNat ((hex.reverseHexTable (hex.hextableAt (v.val >>> 4)) <<< 4) |||
        hex.reverseHexTable ch) : Byte) ≠ v := by
      intro e
      apply hval
      rw [hlast']
      exact (low_digit_determines_byte v ⟨hex.reverseHexTable ch, by omega⟩).mp e
    have hs : d ++ [(Fin.ofNat ((hex.reverseHexTable (hex.hextableAt (v.val >>> 4)) <<< 4) |||
        hex.reverseHexTable ch) : Byte)]
        = setLast (rawCiphertext A (reader.take 16) key plaintext)
            (Fin.ofNat ((hex.reverseHexTable (hex.hextableAt (v.val >>> 4)) <<< 4) |||
              hex.reverseHexTable ch)) := by
      rw [hdv, setLast_concat]
    rw [hs] at hd
    have h := DecryptAmount_setLast A hA (reader.take 16) key plaintext hk hiv _ _
      (by
        rw [hdv, List.getLast?_concat]
        exact fun e => hb (Option.some.inj e).symm) hd
    refine ⟨h, ?_⟩
    rcases h with h | ⟨p, hp, hpne⟩
    · rw [h]; intro e; cases e
    · rw [hp]; intro e; exact hpne (Res.ok.inj e)

/-- Witness of C5, amended: the last character `b` of the ciphertext string of
`"100"` replaced by `0`. -/
theorem DecryptAmount_last_character_changed_witness :
    DecryptAmount exampleAES exampleKey (setLast exampleCiphertext 48) ≠ .ok [49, 48, 48] :=
  ((DecryptAmount_last_character_changed exampleAES exampleAES_lawful (List.replicate 16 9)
    exampleKey [49, 48, 48] exampleCiphertext 98 48 (by decide) (by decide)
    (EncryptAmount_eq exampleAES (List.replicate 16 9) exampleKey [49, 48, 48] (by decide)
      (by decide))
    (by decide)).2.2 (by decide) (by decide)).2

/-! ## Lemmas on overlapping calls -/

theorem writeReceipt_eq (w : InFlight) (db : DB) :
    writeReceipt w db = keepOnError db
      (db.CreateReceipt (receiptOf w.env w.tx w.contractAddress w.txHash) w.env.now
        w.env.receiptFault) := by
  simp only [writeReceipt, receiptOf]
  rfl

theorem writeStatus_eq (w : InFlight) (db : DB) :
    writeStatus w db = keepOnError db
      (db.UpdateStatus w.tx.ID TxStatusUploaded w.env.now w.env.statusFault) := rfl

theorem writes_eq_afterWrites (w : InFlight) (b : Bool) (db : DB) :
    writeStatus { w with receiptDone := b } (writeReceipt w db)
      = afterWrites w.env db w.tx w.contractAddress w.txHash := by
  rw [writeStatus_eq, writeReceipt_eq]
  rfl

/-- A call of `UploadToChain` is its three parts run at once on one store. -/
theorem UploadToChain_eq_begin_finish (env : UploadEnv) (db : DB) (bizId addr : GoString) :
    UploadToChain env db bizId addr =
      { err := (uploadBegin env db bizId addr).1,
        db := match (uploadBegin env db bizId addr).2.2 with
          | none => db
          | some w => writeStatus w (writeReceipt w db),
        calls := (uploadBegin env db bizId addr).2.1 } := by
  rcases UploadToChain_cases env db bizId addr with ⟨e, h1, h2⟩ | ⟨tx, h1, h2, h3⟩ |
    ⟨tx, h1, h2, h3, h4⟩ | ⟨tx, txHash, h1, h2, h3, h4⟩
  · rw [h2]
    simp only [uploadBegin, h1]
  · rw [h3]
    simp only [uploadBegin, h1, if_pos h2]
  · rw [h4]
    simp only [uploadBegin, h1, h2, ne_eq, not_true_eq_false, if_false, h3]
  · rw [h4]
    simp only [uploadBegin, h1, h2, ne_eq, not_true_eq_false, if_false, h3]
    rw [writeStatus_eq, writeReceipt_eq]
    rfl

theorem uploadBegin_receiptDone (env : UploadEnv) (db : DB) (bizId addr : GoString)
    (w : InFlight) (h : (uploadBegin env db bizId addr).2.2 = some w) :
    w.receiptDone = false := by
  unfold uploadBegin at h
  cases hf : db.First bizId with
  | error e => rw [hf] at h; cases h
  | ok tx =>
    rw [hf] at h
    simp only [] at h
    by_cases hs : tx.Status ≠ TxStatusPending
    · rw [if_pos hs] at h; cases h
    · rw [if_neg hs] at h
      cases hg : env.SendTransaction addr tx.BizID tx.DataHash with
      | none => rw [hg] at h; cases h
      | some txHash =>
        rw [hg] at h
        cases h
        rfl

theorem runOverlapping_oneByOne (addr : GoString) :
    ∀ (ids : List GoString) (envs : Nat → UploadEnv) (db : DB) (calls : List GatewayCall),
      runOverlapping addr (oneByOne envs ids) { db := db, inFlight := [], calls := calls } =
        { db := (uploadEach addr envs db ids).2.1, inFlight := [],
          calls := calls ++ (uploadEach addr envs db ids).2.2 }
  | [], _, _, _ => by simp [oneByOne, runOverlapping, uploadEach]
  | bizId :: rest, envs, db, calls => by
    have hu := UploadToChain_eq_begin_finish (envs 0) db bizId addr
    have hd := uploadBegin_receiptDone (envs 0) db bizId addr
    have ih := runOverlapping_oneByOne addr rest (fun i => envs (i + 1))
      (UploadToChain (envs 0) db bizId addr).db
      (calls ++ (UploadToChain (envs 0) db bizId addr).calls)
    simp only [uploadEach, List.append_assoc] at ih ⊢
    rw [← ih]
    simp only [oneByOne, runOverlapping, List.nil_append]
    rcases hb : uploadBegin (envs 0) db bizId addr with ⟨err, cs, w⟩
    rw [hb] at hu hd
    simp only [] at hu hd
    rw [hu]
    cases w with
    | none => simp [runOverlapping]
    | some w =>
      have hw := hd w rfl
      have e : writeStatus { w with receiptDone := true } (writeReceipt w db)
          = writeStatus w (writeReceipt w db) := rfl
      simp [runOverlapping, hw, e]

theorem writeReceipt_receipts_nodup (w : InFlight) (db : DB)
    (h : (db.chainReceipts.map (·.BizID)).Nodup) :
    ((writeReceipt w db).chainReceipts.map (·.BizID)).Nodup := by
  rw [writeReceipt_eq, CreateReceipt_chainReceipts]
  by_cases hc : w.env.receiptFault = true ∨ db.chainReceipts.any
      (fun r => r.BizID == (receiptOf w.env w.tx w.contractAddress w.txHash).BizID) = true
  · rw [if_pos hc]
    exact h
  · rw [if_neg hc]
    have hno : ∀ r ∈ db.chainReceipts,
        r.BizID ≠ (receiptOf w.env w.tx w.contractAddress w.txHash).BizID := by
      intro r hr e
      apply hc
      right
      rw [List.any_eq_true]
      exact ⟨r, hr, by simp [e]⟩
    rw [List.map_append, List.nodup_append]
    refine ⟨h, by simp, ?_⟩
    intro a ha hb
    simp only [List.map_cons, List.map_nil, List.mem_singleton] at hb
    rw [List.mem_map] at ha
    obtain ⟨r, hr, hra⟩ := ha
    exact hno r hr (hra.trans hb)

theorem runOverlapping_receipts_nodup (addr : GoString) :
    ∀ (steps : List UploadStep) (s : UploadState),
      (s.db.chainReceipts.map (·.BizID)).Nodup →
        ((runOverlapping addr steps s).db.chainReceipts.map (·.BizID)).Nodup
  | [], _, h => h
  | .start env bizId :: rest, s, h => by
    simp only [runOverlapping]
    exact runOverlapping_receipts_nodup addr rest _ h
  | .receipt k :: rest, s, h => by
    simp only [runOverlapping]
    cases hk : s.inFlight[k]? with
    | none => exact runOverlapping_receipts_nodup addr rest _ h
    | some w =>
      simp only []
      by_cases hw : w.receiptDone = true
      · rw [if_pos hw]
        exact runOverlapping_receipts_nodup addr rest _ h
      · rw [if_neg hw]
        exact runOverlapping_receipts_nodup addr rest _ (writeReceipt_receipts_nodup w s.db h)
  | .status k :: rest, s, h => by
    simp only [runOverlapping]
    cases hk : s.inFlight[k]? with
    | none => exact runOverlapping_receipts_nodup addr rest _ h
    | some w =>
      simp only []
      by_cases hw : w.receiptDone = true
      · rw [if_pos hw]
        refine runOverlapping_receipts_nodup addr rest _ ?_
        simp only [writeStatus_eq, UpdateStatus_chainReceipts]
        exact h
      · rw [if_neg hw]
        exact runOverlapping_receipts_nodup addr rest _ h

/-! ## The claim on uploads at most once -/

/-- C16, as stated, fails: when a second call for `"TX001"` starts before the
first has written, both find the status Pending and both uploads to the ledger
succeed, although the ledger and the store work throughout; and when the
update of the status fails at the store after a successful upload, the
transaction stays Pending and the next call uploads it a second time. -/
theorem upload_twice_by_overlapping_calls :
    successfulUploads bizTX001
        (runOverlapping [] overlappingUploads
          { db := exampleDB, inFlight := [], calls := [] }).calls = 2 ∧
      goodUpload.statusFault = false ∧ goodUpload.receiptFault = false ∧
      successfulUploads bizTX001
        (runUploads [] (fun i => if i = 0 then statusWriteFails else goodUpload) exampleDB
          [.single bizTX001, .single bizTX001]).2 = 2 := by
  refine ⟨by decide, rfl, rfl, by decide⟩

/-- C16, amended: when the calls of a sequence of `UploadToChain` and
`BatchUploadToChain` requests run one after another (each call completes
before the next one starts, which is the run `runUploads`) and no update of the
status fails at the store, the upload to the ledger succeeds at most once per
BizID; once it has succeeded, every later call for the BizID fails with the
invalid-status error without invoking the ledger gateway and without touching
the store.  In every run, also of overlapping calls, the store never holds two
receipts for one BizID. -/
theorem uploads_at_most_once_one_by_one (contractAddress : GoString) (envs : Nat → UploadEnv)
    (db : DB) (ops : List UploadOp) (bizId : GoString) (hk : db.KeysValid)
    (hs : ∀ i, (envs i).statusFault = false)
    (hr : (db.chainReceipts.map (·.BizID)).Nodup) :
    (runOneByOne contractAddress envs db ops).db = (runUploads contractAddress envs db ops).1 ∧
      (runOneByOne contractAddress envs db ops).calls
        = (runUploads contractAddress envs db ops).2 ∧
      (runOneByOne contractAddress envs db ops).inFlight = [] ∧
      successfulUploads bizId (runOneByOne contractAddress envs db ops).calls ≤ 1 ∧
      (1 ≤ successfulUploads bizId (runOneByOne contractAddress envs db ops).calls →
        ∀ env, ∃ status,
          UploadToChain env (runOneByOne contractAddress envs db ops).db bizId contractAddress =
            { err := some (.invalidTransactionStatus status),
              db := (runOneByOne contractAddress envs db ops).db, calls := [] }) ∧
      ∀ (steps : List UploadStep) (s : UploadState),
        (s.db.chainReceipts.map (·.BizID)).Nodup →
          ((runOverlapping contractAddress steps s).db.chainReceipts.map (·.BizID)).Nodup := by
  have he : runOneByOne contractAddress envs db ops =
      { db := (runUploads contractAddress envs db ops).1, inFlight := [],
        calls := (runUploads contractAddress envs db ops).2 } := by
    unfold runOneByOne
    rw [runOverlapping_oneByOne, runUploads_eq, List.nil_append]
  obtain ⟨h1, h2, _⟩ := uploads_at_most_once contractAddress envs db ops bizId hk hs hr
  rw [he]
  exact ⟨rfl, rfl, rfl, h1, h2, runOverlapping_receipts_nodup contractAddress⟩

/-- Witness of C16, amended: `"TX001"` uploaded alone and then again in a batch. -/
theorem uploads_at_most_once_one_by_one_witness :
    successfulUploads bizTX001
        (runOneByOne [] (fun _ => goodUpload) twoPendingDB
          [.single bizTX001, .batch [bizTX001, bizTX002]]).calls ≤ 1 :=
  (uploads_at_most_once_one_by_one [] (fun _ => goodUpload) twoPendingDB
    [.single bizTX001, .batch [bizTX001, bizTX002]] bizTX001 ⟨by decide, by decide⟩
    (fun _ => rfl) (by decide)).2.2.2.1

end BcFinancial
